import Mathlib

/-!
# gtk4-simple-keyboard: a shallow embedding of `src/simple-keyboard.c`

The C file keeps its state in static variables (the callback slots, the target
surface, `seat_list`, `keyboard_lists`) and talks to three external
collaborators: the GLib main loop (`g_timeout_add`, `g_source_remove`), the
Wayland client library (`wl_display_sync`, `wl_callback_destroy`,
`wl_keyboard_release`) and libxkbcommon (the keymap decoder).

* `World` gathers the static variables together with the part of the
  collaborators the code can observe: the timeout sources attached to the main
  loop, the `wl_callback` proxies that still wait for their `done` event, the
  released keyboard proxies, and the sequence of application callbacks invoked
  so far.
* `keyboard_lists` is a linked list of `keyboard_list`, each the head of a chain
  of `keyboard_node`. `handle_keyboard_add` is the only place that creates a
  node, and it always pairs a fresh node with a fresh `keyboard_state`, so a node
  is represented by the state it owns and a chain by a Lean list.
* A listener receives its `keyboard_state` through the `data` pointer that
  `wl_keyboard_add_listener (keyboard, &keyboard_listener, state)` attached to
  the `wl_keyboard` proxy. The embedding names a device by that proxy: `data` is
  the value of `state->keyboard`.
* libxkbcommon is taken as a parameter `Xkb` (raw code to symbol, modifier
  queries, repeatability of a code).
* `wl_display_roundtrip` blocks until the compositor has answered every request
  sent so far. The `done` event of every `wl_callback` that is still pending
  arrives before that answer, so the round trip runs `sync_callback` for each.
  Events the compositor sends of its own accord (keys, focus, seats) can arrive
  at any time; they are events of their own and not part of a round trip.
-/

namespace SimpleKeyboard

/-! ## Data model -/

/-- Values of the C type `key_callback`: the null pointer, the file's own no-op
`dummy_key`, or a function supplied by the application. -/
inductive key_callback where
  | null
  | dummy_key
  | app (f : Nat)
  deriving DecidableEq

/-- Values of the C type `focus_callback`: the null pointer, the file's own no-op
`dummy_focus`, or a function supplied by the application. -/
inductive focus_callback where
  | null
  | dummy_focus
  | app (f : Nat)
  deriving DecidableEq

/-- One call through one of the four global callback slots, with the function
pointer the slot held when it was called and the arguments passed. -/
inductive Call where
  | press (f : key_callback) (keysym modifiers : Nat)
  | release (f : key_callback) (keysym modifiers : Nat)
  | focus_enter (f : focus_callback)
  | focus_leave (f : focus_callback)
  deriving DecidableEq

/-- The C `struct seat_node` (without its `next` link). -/
structure seat_node where
  name : Nat
  seat : Nat
  deriving DecidableEq

/-- What an `xkb_state` object depends on in this program: the keymap it was
created from and the arguments of the last `xkb_state_update_mask`
(`xkb_state_update_key` is never called). -/
structure XkbState where
  keymap : Nat
  mods_depressed : Nat
  mods_latched : Nat
  mods_locked : Nat
  group : Nat
  deriving DecidableEq

/-- The five modifier names `get_modifiers_state` asks about. -/
inductive ModName where
  | SHIFT
  | CTRL
  | ALT
  | LOGO
  | CAPS
  deriving DecidableEq

/-- The libxkbcommon functions the program calls, as parameters:
`xkb_state_key_get_one_sym`, `xkb_state_mod_name_is_active` (for
`XKB_STATE_MODS_EFFECTIVE`) and `xkb_keymap_key_repeats`. -/
structure Xkb where
  key_get_one_sym : XkbState → Nat → Nat
  mod_name_is_active : XkbState → ModName → Int
  keymap_key_repeats : Nat → Nat → Int

/-- The C `struct repeat_data`. `timer` is a GLib source id (0: none), `callback`
a `wl_callback` proxy (0: NULL), `keyboard` the back-reference (0: NULL). -/
structure repeat_data where
  key : Nat
  keysym : Nat
  modifiers : Nat
  timer : Nat
  rate : Int
  delay : Int
  callback : Nat
  keyboard : Nat
  deriving DecidableEq

/-- The C `struct keyboard_state`. The field `repeat` is written `repeat_`;
`xkb_state` is `none` for the NULL pointer. -/
structure keyboard_state where
  xkb_state : Option XkbState
  xkb_context : Nat
  keymap : Nat
  keyboard : Nat
  seat : Nat
  repeat_ : repeat_data
  seat_node : Nat
  has_focus : Int
  user_data : Nat
  deriving DecidableEq

/-- A timeout source attached to the GLib main loop by `g_timeout_add`:
its id, its interval in milliseconds and the `user_data` of its callback
(always `key_repeat_callback` here). -/
structure Timeout where
  id : Nat
  interval : Nat
  data : Nat
  deriving DecidableEq

/-- A `wl_callback` proxy returned by `wl_display_sync` whose `done` event has not
been dispatched, with the `data` of its listener (always `sync_callback`). -/
structure SyncRequest where
  proxy : Nat
  data : Nat
  deriving DecidableEq

/-- The static variables of the C file and the observable state of its
collaborators. -/
structure World where
  target_surface : Nat
  global_focus_enter : focus_callback
  global_focus_leave : focus_callback
  global_press_cb : key_callback
  global_release_cb : key_callback
  global_wl_display : Nat
  seat_list : List seat_node
  keyboard_lists : List (List keyboard_state)
  sources : List Timeout
  last_source : Nat
  wl_callbacks : List SyncRequest
  last_proxy : Nat
  released : List Nat
  calls : List Call
  deriving DecidableEq

/-- The values of the static variables at program start. -/
def World.start : World :=
  { target_surface := 0
    global_focus_enter := focus_callback.dummy_focus
    global_focus_leave := focus_callback.dummy_focus
    global_press_cb := key_callback.dummy_key
    global_release_cb := key_callback.dummy_key
    global_wl_display := 0
    seat_list := []
    keyboard_lists := []
    sources := []
    last_source := 0
    wl_callbacks := []
    last_proxy := 0
    released := []
    calls := [] }

/-! ## Constants of the included headers -/

def GDK_SHIFT_MASK : Nat := 1
def GDK_LOCK_MASK : Nat := 2
def GDK_CONTROL_MASK : Nat := 4
def GDK_ALT_MASK : Nat := 8
def GDK_SUPER_MASK : Nat := 67108864
def WL_SEAT_CAPABILITY_KEYBOARD : Nat := 2
def WL_KEYBOARD_KEYMAP_FORMAT_XKB_V1 : Nat := 1

/-- Conversion of a C `int` argument to the `guint` parameter of `g_timeout_add`. -/
def to_guint (x : Int) : Nat :=
  (x % 4294967296).toNat

/-- Addition of `uint32_t` values. -/
def add_u32 (a b : Nat) : Nat :=
  (a + b) % 4294967296

/-! ## Collaborators -/

/-- Records a call through a callback slot. -/
def World.call (w : World) (c : Call) : World :=
  { w with calls := w.calls ++ [c] }

/-- The GLib `g_timeout_add (interval, key_repeat_callback, data)`: attaches a new
source and returns its id. GLib hands out source ids from a counter, starting at 1. -/
def g_timeout_add (w : World) (interval : Nat) (data : Nat) : World × Nat :=
  ({ w with sources := w.sources ++ [{ id := w.last_source + 1, interval := interval, data := data }]
            last_source := w.last_source + 1 },
   w.last_source + 1)

/-- The GLib `g_source_remove (id)`: detaches the source with that id. -/
def g_source_remove (w : World) (id : Nat) : World :=
  { w with sources := w.sources.filter (fun t => t.id ≠ id) }

/-- The Wayland `wl_display_sync` followed by `wl_callback_add_listener (_, _, data)`:
a new callback proxy that waits for its `done` event. -/
def wl_display_sync (w : World) (data : Nat) : World × Nat :=
  ({ w with wl_callbacks := w.wl_callbacks ++ [{ proxy := w.last_proxy + 1, data := data }]
            last_proxy := w.last_proxy + 1 },
   w.last_proxy + 1)

/-- The Wayland `wl_callback_destroy (callback)`: the proxy is gone and its `done`
event is no longer dispatched. -/
def wl_callback_destroy (w : World) (callback : Nat) : World :=
  { w with wl_callbacks := w.wl_callbacks.filter (fun c => c.proxy ≠ callback) }

/-- The Wayland `wl_keyboard_release (keyboard)`. -/
def wl_keyboard_release (w : World) (keyboard : Nat) : World :=
  { w with released := w.released ++ [keyboard] }

/-! ## Access to a device through its listener data -/

/-- The `keyboard_state` a listener of proxy `data` receives, when that device is
in the registry. A state that `handle_keyboard_remove` has unlinked is not
found; it has no decoder and no armed repeat. -/
def lookup (w : World) (data : Nat) : Option keyboard_state :=
  w.keyboard_lists.flatten.find? (fun s => decide (s.keyboard = data))

/-- Writes `k` back as the state of the device of proxy `data`. The proxies of
registered devices are pairwise distinct, each being the result of its own
`wl_seat_get_keyboard` call. -/
def store (w : World) (data : Nat) (k : keyboard_state) : World :=
  { w with keyboard_lists :=
      w.keyboard_lists.map (fun l => l.map (fun s => if s.keyboard = data then k else s)) }

/-! ## The decoder adapter -/

/-- The C `get_modifiers_state`. -/
def get_modifiers_state (X : Xkb) (state : XkbState) : Nat :=
  let mods := 0
  let mods := if X.mod_name_is_active state ModName.SHIFT > 0 then mods ||| GDK_SHIFT_MASK else mods
  let mods := if X.mod_name_is_active state ModName.CTRL > 0 then mods ||| GDK_CONTROL_MASK else mods
  let mods := if X.mod_name_is_active state ModName.ALT > 0 then mods ||| GDK_ALT_MASK else mods
  let mods := if X.mod_name_is_active state ModName.LOGO > 0 then mods ||| GDK_SUPER_MASK else mods
  let mods := if X.mod_name_is_active state ModName.CAPS > 0 then mods ||| GDK_LOCK_MASK else mods
  mods

/-! ## The repeat engine -/

/-- The C `stop_repeat` on a non-null `kstate`: returns the world and the state
after it. `repeat.key` is not written. -/
def stop_repeat (w : World) (kstate : keyboard_state) : World × keyboard_state :=
  let w1 := if kstate.repeat_.timer ≠ 0 then g_source_remove w kstate.repeat_.timer else w
  let w2 := if kstate.repeat_.callback ≠ 0 then wl_callback_destroy w1 kstate.repeat_.callback else w1
  (w2, { kstate with repeat_ :=
          { kstate.repeat_ with timer := 0, callback := 0, keysym := 0, modifiers := 0, keyboard := 0 } })

/-- The C `sync_callback (data, callback, time)`: the `done` event of a pending
`wl_callback`. When `data` is not a registered device the state it points to was
unlinked by `handle_keyboard_remove` (then nothing is pending for it) or popped
by `teardown` (then the C code works on a state that is about to be freed, or
reads freed memory); the embedding stops after the proxy is destroyed. -/
def sync_callback (w : World) (data : Nat) (callback : Nat) : World :=
  let w1 := wl_callback_destroy w callback
  match lookup w1 data with
  | none => w1
  | some state =>
    let state1 := { state with repeat_ := { state.repeat_ with callback := 0 } }
    let w2 := w1.call (Call.press w1.global_press_cb state1.repeat_.keysym state1.repeat_.modifiers)
    if state1.repeat_.rate > 0 then
      let r := g_timeout_add w2 (to_guint (1000 / state1.repeat_.rate)) data
      store r.1 data { state1 with repeat_ := { state1.repeat_ with timer := r.2 } }
    else
      store w2 data state1

/-- The C `key_repeat_callback (user_data)`, the callback of every timeout source.
The synchronization request is made whatever `user_data` points to; the two
writes reach the registry only for a registered device. -/
def key_repeat_callback (w : World) (user_data : Nat) : World :=
  let r := wl_display_sync w user_data
  match lookup r.1 user_data with
  | none => r.1
  | some state =>
    store r.1 user_data { state with repeat_ := { state.repeat_ with callback := r.2, timer := 0 } }

/-- The GLib main loop dispatching the timeout source `src`: it runs the callback
and, since that returns `G_SOURCE_REMOVE`, destroys the source. -/
def dispatch_timeout (w : World) (src : Timeout) : World :=
  g_source_remove (key_repeat_callback w src.data) src.id

/-- The Wayland client library dispatching the `done` event of the request `c`: the
listener `sync_callback` runs with the data of the request, unless the proxy was
destroyed before the event is dispatched. -/
def dispatch_done (w : World) (c : SyncRequest) : World :=
  if c ∈ w.wl_callbacks then sync_callback w c.data c.proxy else w

/-- The Wayland `wl_display_roundtrip (global_wl_display)`: the `done` events of the
callbacks pending when it is called are dispatched in the order of their
requests. -/
def wl_display_roundtrip (w : World) : World :=
  w.wl_callbacks.foldl dispatch_done w

/-! ## Focus aggregation -/

/-- The inner loop of `any_keyboard_has_focus` over one chain of nodes: `true`
when it reaches `return 1`. -/
def chain_has_focus : List keyboard_state → Bool
  | [] => false
  | current :: next => if current.has_focus ≠ 0 then true else chain_has_focus next

/-- The outer loop of `any_keyboard_has_focus`. -/
def lists_have_focus : List (List keyboard_state) → Int
  | [] => 0
  | list :: next => if chain_has_focus list then 1 else lists_have_focus next

/-- The C `any_keyboard_has_focus`. -/
def any_keyboard_has_focus (w : World) : Int :=
  lists_have_focus w.keyboard_lists

/-! ## The keyboard listener -/

/-- The C `keyboard_handle_keymap`. `mapped` says whether `mmap` succeeded;
`context`, `keymap` and `state` are what `xkb_context_new`,
`xkb_keymap_new_from_string` and `xkb_state_new` return. -/
def keyboard_handle_keymap (w : World) (data : Nat) (format : Nat) (mapped : Bool)
    (context keymap : Nat) (state : Option XkbState) : World :=
  if format ≠ WL_KEYBOARD_KEYMAP_FORMAT_XKB_V1 then w
  else if mapped = false then w
  else
    match lookup w data with
    | none => w
    | some st => store w data { st with xkb_context := context, keymap := keymap, xkb_state := state }

/-- The C `keyboard_handle_key (data, keyboard, serial, time, key, state)`. -/
def keyboard_handle_key (X : Xkb) (w : World) (data : Nat) (key : Nat) (state : Nat) : World :=
  match lookup w data with
  | none => w
  | some kstate =>
    match kstate.xkb_state with
    | none => w
    | some xkb_state =>
      if kstate.has_focus = 0 then w
      else
        let keysym := X.key_get_one_sym xkb_state (add_u32 key 8)
        let modifiers := get_modifiers_state X xkb_state
        if state = 1 then
          let r := if kstate.repeat_.keysym ≠ keysym then stop_repeat w kstate else (w, kstate)
          let w2 := r.1.call (Call.press r.1.global_press_cb keysym modifiers)
          if r.2.repeat_.rate > 0 ∧ r.2.repeat_.keysym ≠ keysym
              ∧ X.keymap_key_repeats r.2.keymap (add_u32 key 8) ≠ 0 then
            let t := g_timeout_add w2 (to_guint r.2.repeat_.delay) data
            store t.1 data { r.2 with repeat_ :=
              { r.2.repeat_ with keysym := keysym, key := key, modifiers := modifiers,
                                 keyboard := data, timer := t.2 } }
          else
            store w2 data r.2
        else if state = 0 then
          let r := if kstate.repeat_.key = key ∨ (kstate.repeat_.key ≠ 0 ∧ modifiers ≠ 0)
                   then stop_repeat w kstate else (w, kstate)
          store (r.1.call (Call.release r.1.global_release_cb keysym modifiers)) data r.2
        else w

/-- The C `keyboard_handle_enter`. The write to `state->has_focus` follows the
call of the callback. -/
def keyboard_handle_enter (w : World) (data : Nat) (surface : Nat) : World :=
  if surface ≠ w.target_surface then w
  else
    let w1 := if any_keyboard_has_focus w = 0 then w.call (Call.focus_enter w.global_focus_enter) else w
    match lookup w1 data with
    | none => w1
    | some state => store w1 data { state with has_focus := 1 }

/-- The C `keyboard_handle_leave`. For a state outside the registry the writes
and `stop_repeat` do not reach the registry or the collaborators, the test of
`any_keyboard_has_focus` still runs. -/
def keyboard_handle_leave (w : World) (data : Nat) (surface : Nat) : World :=
  if surface ≠ w.target_surface then w
  else
    let w2 :=
      match lookup w data with
      | none => w
      | some kstate =>
        let r := stop_repeat w { kstate with has_focus := 0 }
        store r.1 data r.2
    if any_keyboard_has_focus w2 = 0 then w2.call (Call.focus_leave w2.global_focus_leave) else w2

/-- The C `keyboard_handle_modifiers`. -/
def keyboard_handle_modifiers (w : World) (data : Nat)
    (mods_depressed mods_latched mods_locked group : Nat) : World :=
  match lookup w data with
  | none => w
  | some kstate =>
    match kstate.xkb_state with
    | none => w
    | some xs =>
      let xs1 : XkbState := { xs with mods_depressed := mods_depressed, mods_latched := mods_latched,
                                      mods_locked := mods_locked, group := group }
      store w data { kstate with xkb_state := some xs1 }

/-- The C `keyboard_handle_repeat_info`. -/
def keyboard_handle_repeat_info (w : World) (data : Nat) (rate delay : Int) : World :=
  match lookup w data with
  | none => w
  | some state => store w data { state with repeat_ := { state.repeat_ with rate := rate, delay := delay } }

/-! ## The device and seat registry -/

/-- The inner loop of `handle_keyboard_remove` over one chain: the first node whose
state has `keyboard` as its proxy, and the chain without that node. -/
def unlink_node (keyboard : Nat) : List keyboard_state → Option (keyboard_state × List keyboard_state)
  | [] => none
  | current :: next =>
    if current.keyboard = keyboard then some (current, next)
    else
      match unlink_node keyboard next with
      | none => none
      | some (found, rest) => some (found, current :: rest)

/-- The outer loop of `handle_keyboard_remove` over the lists, in order. -/
def unlink_in_lists (keyboard : Nat) :
    List (List keyboard_state) → Option (keyboard_state × List (List keyboard_state))
  | [] => none
  | list :: next =>
    match unlink_node keyboard list with
    | some (found, rest) => some (found, rest :: next)
    | none =>
      match unlink_in_lists keyboard next with
      | none => none
      | some (found, others) => some (found, list :: others)

/-- The C `handle_keyboard_remove (keyboard)`: the proxy is released, the round trip
dispatches what is pending, and then the search starts at the global
`keyboard_lists`; the node found has its repeat stopped and is unlinked. Its
state stays allocated outside the registry, with its decoder released and its
`keyboard` set to NULL. -/
def handle_keyboard_remove (w : World) (keyboard : Nat) : World :=
  if keyboard = 0 then w
  else
    let w1 := wl_keyboard_release w keyboard
    let w2 := wl_display_roundtrip w1
    match unlink_in_lists keyboard w2.keyboard_lists with
    | none => w2
    | some (found, lists) => { (stop_repeat w2 found).1 with keyboard_lists := lists }

/-- The zeroed `keyboard_state` that `handle_keyboard_add` allocates and fills in. -/
def new_keyboard_state (keyboard seat seat_node : Nat) : keyboard_state :=
  { xkb_state := none
    xkb_context := 0
    keymap := 0
    keyboard := keyboard
    seat := seat
    repeat_ := { key := 0, keysym := 0, modifiers := 0, timer := 0, rate := 0, delay := 0,
                 callback := 0, keyboard := 0 }
    seat_node := seat_node
    has_focus := 0
    user_data := 0 }

/-- The search of `handle_keyboard_add` for the list of the seat, with the new node
put at the head of the list found; `none` when the loop ends with `list == NULL`. -/
def link_node (state : keyboard_state) : List (List keyboard_state) → Option (List (List keyboard_state))
  | [] => none
  | list :: next =>
    match list with
    | head :: _ =>
      if head.seat = state.seat then some ((state :: list) :: next)
      else (link_node state next).map (fun r => list :: r)
    | [] => (link_node state next).map (fun r => list :: r)

/-- The C `handle_keyboard_add (keyboard, seat, seat_node)`. The seat node is named
by the registry name of the seat. -/
def handle_keyboard_add (w : World) (keyboard seat seat_node : Nat) : World :=
  let state := new_keyboard_state keyboard seat seat_node
  match link_node state w.keyboard_lists with
  | some lists => { w with keyboard_lists := lists }
  | none => { w with keyboard_lists := [state] :: w.keyboard_lists }

/-- The inner loop that `seat_handle_capabilities` and
`registry_handle_global_remove` run over one chain: every node of the seat is
handed to `handle_keyboard_remove`. A call unlinks a node at or before the one
being visited and leaves the `next` links of unlinked nodes alone, and its round
trip writes neither `seat` nor `keyboard` of any state, so the loop visits the
chain, and reads these two fields, as they were when the loop started. -/
def remove_seat_chain (seat : Nat) : World → List keyboard_state → World
  | w, [] => w
  | w, current :: next =>
    remove_seat_chain seat
      (if current.seat = seat then handle_keyboard_remove w current.keyboard else w) next

/-- The outer loop over the lists. -/
def remove_seat_lists (seat : Nat) : World → List (List keyboard_state) → World
  | w, [] => w
  | w, list :: next => remove_seat_lists seat (remove_seat_chain seat w list) next

/-- The C `seat_handle_capabilities (data, seat, capabilities)`; `keyboard` is the
proxy that `wl_seat_get_keyboard (seat)` returns when it is called. -/
def seat_handle_capabilities (w : World) (seat_node : Nat) (seat : Nat) (capabilities : Nat)
    (keyboard : Nat) : World :=
  if capabilities &&& WL_SEAT_CAPABILITY_KEYBOARD = 0 then
    remove_seat_lists seat w w.keyboard_lists
  else
    handle_keyboard_add w keyboard seat seat_node

/-- The C `registry_handle_global`. `is_seat` is the outcome of the `strcmp` with
the name of the seat interface, `seat` the proxy `wl_registry_bind` returns. -/
def registry_handle_global (w : World) (name : Nat) (is_seat : Bool) (seat : Nat) : World :=
  if is_seat then { w with seat_list := { name := name, seat := seat } :: w.seat_list }
  else w

/-- The C `registry_handle_global_remove (data, registry, name)`. -/
def registry_handle_global_remove (w : World) (name : Nat) : World :=
  match w.seat_list.find? (fun s => decide (s.name = name)) with
  | none => w
  | some current =>
    let w1 := remove_seat_lists current.seat w w.keyboard_lists
    { w1 with seat_list := w1.seat_list.eraseP (fun s => decide (s.name = name)) }

/-! ## Lifecycle -/

/-- The inner loop of `teardown` over the nodes of `current_list`, which is no
longer reachable from `keyboard_lists`: each node is popped, its proxy handed to
`handle_keyboard_remove`, and node and state are freed. While
`handle_keyboard_remove` runs, the states of `current_list` are allocated but
outside the registry. A `done` event that its round trip dispatches for one of
them runs `sync_callback` on that state in the C code (the press callback is
invoked, and a timer scheduled for a state that is freed next); the embedding
does not reach the state and only destroys the proxy (see `sync_callback`). The
two agree on every world in which no callback is pending for a device of
`current_list`. -/
def teardown_chain : World → List keyboard_state → World
  | w, [] => w
  | w, current :: next => teardown_chain (handle_keyboard_remove w current.keyboard) next

/-- The outer loop of `teardown`: `keyboard_lists` is advanced past `current_list`
before the nodes of `current_list` are visited. `handle_keyboard_remove` never
changes the number of lists, so `n` iterations empty a registry of `n` lists. -/
def teardown_lists : Nat → World → World
  | 0, w => w
  | n + 1, w =>
    match w.keyboard_lists with
    | [] => w
    | current_list :: next =>
      teardown_lists n (teardown_chain { w with keyboard_lists := next } current_list)

/-- The C `teardown`: the loops over the registry, a round trip, the loop that
destroys the seats (which leaves the seat nodes to the final assignment), a
second round trip, and the two assignments of NULL. -/
def teardown (w : World) : World :=
  let w1 := teardown_lists w.keyboard_lists.length w
  let w2 := wl_display_roundtrip w1
  let w3 := wl_display_roundtrip w2
  { w3 with seat_list := [], keyboard_lists := [] }

/-- The C `init_keyboard`: the registry listener is attached and a round trip
follows. The seats that the compositor announces in answer arrive as
`registry_handle_global` events. -/
def init_keyboard (w : World) : World :=
  wl_display_roundtrip w

/-- The C `initialize` (the name is a reserved word of Lean). `gdk_display` is the
result of `GDK_WAYLAND_DISPLAY (gdk_display_get_default ())`, 0 for NULL, and
`wl_display` what `gdk_wayland_display_get_wl_display` returns. -/
def initialize_kbd (w : World) (surface : Nat) (press_cb release_cb : key_callback)
    (cb_focus_enter cb_focus_leave : focus_callback) (gdk_display wl_display : Nat) : World :=
  let w1 := { w with target_surface := surface
                     global_press_cb := press_cb
                     global_release_cb := release_cb
                     global_focus_enter := cb_focus_enter
                     global_focus_leave := cb_focus_leave }
  if gdk_display = 0 then w1
  else init_keyboard { w1 with global_wl_display := wl_display }

/-! ## Specification-side notions -/

/-- The devices of the registry, in the order the loops visit them. -/
def devices (w : World) : List keyboard_state :=
  w.keyboard_lists.flatten

/-- The number of registered devices whose focus flag is set. -/
def focus_count (w : World) : Nat :=
  (devices w).countP (fun s => decide (s.has_focus ≠ 0))

/-- The number of registered devices other than the device `data` whose focus flag
is set. -/
def other_focus_count (w : World) (data : Nat) : Nat :=
  ((devices w).filter (fun s => decide (s.keyboard ≠ data))).countP
    (fun s => decide (s.has_focus ≠ 0))

/-! ## Example worlds -/

/-- A decoder for the examples: the raw codes 38 and 39 both decode to the symbol
97, every other code `c` to `c + 100`; Shift is active when the depressed mask
is 1; every code repeats. -/
def sample_xkb : Xkb :=
  { key_get_one_sym := fun _ code => if code = 38 ∨ code = 39 then 97 else code + 100
    mod_name_is_active := fun s m => if m = ModName.SHIFT ∧ s.mods_depressed = 1 then 1 else 0
    keymap_key_repeats := fun _ _ => 1 }

/-- The seat with registry name 3 and proxy 11 has been announced. -/
def sample_seat : World :=
  registry_handle_global World.start 3 true 11

/-- The seat has reported the keyboard capability (proxy 21); the device has
received a keymap in the text format and the repeat information rate 25,
delay 400. The target surface is 0. -/
def sample_device : World :=
  keyboard_handle_repeat_info
    (keyboard_handle_keymap (seat_handle_capabilities sample_seat 3 11 2 21) 21 1 true 31 41
      (some { keymap := 41, mods_depressed := 0, mods_latched := 0, mods_locked := 0, group := 0 }))
    21 25 400

/-- The device has received an enter event for the target surface. -/
def sample_focused : World :=
  keyboard_handle_enter sample_device 21 0

/-- The key 30 has been pressed: its repeat is armed and the first timer pending. -/
def sample_armed : World :=
  keyboard_handle_key sample_xkb sample_focused 21 30 1

/-! ## Notions used by the statements -/

/-- The timeout sources attached to the main loop whose callback data is the
device `data`. -/
def pending_sources (w : World) (data : Nat) : List Timeout :=
  w.sources.filter (fun t => decide (t.data = data))

/-- The `wl_callback` proxies waiting for their `done` event whose listener data is
the device `data`. -/
def pending_callbacks (w : World) (data : Nat) : List SyncRequest :=
  w.wl_callbacks.filter (fun c => decide (c.data = data))

/-- The state `k` of the device `data` records what is pending for it: every
pending source of the device is `k.repeat_.timer`, every pending callback of the
device is `k.repeat_.callback`, and neither is the null value. -/
def Tracked (w : World) (data : Nat) (k : keyboard_state) : Prop :=
  (∀ t ∈ w.sources, t.data = data → t.id = k.repeat_.timer ∧ t.id ≠ 0)
  ∧ (∀ c ∈ w.wl_callbacks, c.data = data → c.proxy = k.repeat_.callback ∧ c.proxy ≠ 0)

instance (w : World) (data : Nat) (k : keyboard_state) : Decidable (Tracked w data k) := by
  unfold Tracked
  infer_instance

/-- One round of the repeat of the device `data`, as the main loop runs it: the
pending timeout source of the device is dispatched, then the `done` event of the
callback that this requested. -/
def repeat_round (w : World) (data : Nat) : World :=
  match pending_sources w data with
  | [] => w
  | src :: _ =>
    let w1 := dispatch_timeout w src
    match pending_callbacks w1 data with
    | [] => w1
    | c :: _ => sync_callback w1 c.data c.proxy

/-- The world after `n` rounds of the repeat of the device `data`. -/
def repeat_rounds (data : Nat) : Nat → World → World
  | 0, w => w
  | n + 1, w => repeat_rounds data n (repeat_round w data)

/-- The repeat of the device `data` is scheduled: its state records the symbol, the
modifiers and the rate, and the one thing pending for the device is the recorded
timer, with interval `interval`. -/
def Scheduled (w : World) (data keysym modifiers : Nat) (rate : Int) (interval : Nat) : Prop :=
  ∃ k, lookup w data = some k ∧ k.repeat_.keysym = keysym ∧ k.repeat_.modifiers = modifiers
    ∧ k.repeat_.rate = rate
    ∧ pending_sources w data = [{ id := k.repeat_.timer, interval := interval, data := data }]
    ∧ pending_callbacks w data = []

/-- The repeat of the device `data` is active: its state records the symbol, the
modifiers and the rate, and the one thing pending for the device is the recorded
synchronization callback. -/
def Active (w : World) (data keysym modifiers : Nat) (rate : Int) : Prop :=
  ∃ k, lookup w data = some k ∧ k.repeat_.keysym = keysym ∧ k.repeat_.modifiers = modifiers
    ∧ k.repeat_.rate = rate
    ∧ pending_sources w data = []
    ∧ pending_callbacks w data = [{ proxy := k.repeat_.callback, data := data }]

/-- The repeat of the device `data` up to its next repeated press, as the main loop
runs it: the `done` event of the pending callback of the device when there is
one, and otherwise one round (timer, then callback). -/
def repeat_next (w : World) (data : Nat) : World :=
  match pending_callbacks w data with
  | c :: _ => sync_callback w c.data c.proxy
  | [] => repeat_round w data

/-! ## More example worlds -/

/-- The state of the example device in `sample_focused`. -/
def sample_focused_state : keyboard_state :=
  { xkb_state := some { keymap := 41, mods_depressed := 0, mods_latched := 0, mods_locked := 0,
                        group := 0 }
    xkb_context := 31
    keymap := 41
    keyboard := 21
    seat := 11
    repeat_ := { key := 0, keysym := 0, modifiers := 0, timer := 0, rate := 25, delay := 400,
                 callback := 0, keyboard := 0 }
    seat_node := 3
    has_focus := 1
    user_data := 0 }

/-- The state of the example device in `sample_armed`. -/
def sample_armed_state : keyboard_state :=
  { sample_focused_state with
    repeat_ := { key := 30, keysym := 97, modifiers := 0, timer := 1, rate := 25, delay := 400,
                 callback := 0, keyboard := 21 } }

/-- The timer of the armed example device has fired: its synchronization callback
(proxy 1) is pending. -/
def sample_active : World :=
  dispatch_timeout sample_armed { id := 1, interval := 400, data := 21 }

/-- The state of the example device in `sample_active`. -/
def sample_active_state : keyboard_state :=
  { sample_focused_state with
    repeat_ := { key := 30, keysym := 97, modifiers := 0, timer := 0, rate := 25, delay := 400,
                 callback := 1, keyboard := 21 } }

/-- The decoder state of the example device. -/
def sample_xkb_state : XkbState :=
  { keymap := 41, mods_depressed := 0, mods_latched := 0, mods_locked := 0, group := 0 }

/-- The example device, focused and with a decoder, after `initialize` was called
with a null press callback (and application functions 2, 3, 4 for the others). -/
def sample_null_press : World :=
  keyboard_handle_enter
    (keyboard_handle_keymap
      (seat_handle_capabilities
        (registry_handle_global
          (initialize_kbd World.start 0 key_callback.null (key_callback.app 2)
            (focus_callback.app 3) (focus_callback.app 4) 5 6)
          3 true 11)
        3 11 2 21)
      21 1 true 31 41
      (some { keymap := 41, mods_depressed := 0, mods_latched := 0, mods_locked := 0, group := 0 }))
    21 0

/-! ## Example worlds for the press and release postconditions -/

/-- A decoder like `sample_xkb` in which the raw code 48 (key 40) has no symbol: it
decodes to 0, and repeats like every other code. -/
def sample_xkb_nosym : Xkb :=
  { key_get_one_sym := fun _ code =>
      if code = 38 ∨ code = 39 then 97 else if code = 48 then 0 else code + 100
    mod_name_is_active := fun s m => if m = ModName.SHIFT ∧ s.mods_depressed = 1 then 1 else 0
    keymap_key_repeats := fun _ _ => 1 }

/-- The key with code 0 has been pressed on the focused example device (symbol 108):
its repeat is armed with `repeat.key = 0`; then Shift has become active. -/
def sample_armed_zero : World :=
  keyboard_handle_modifiers (keyboard_handle_key sample_xkb sample_focused 21 0 1) 21 1 0 0 0

/-- The state of the example device in `sample_armed_zero`. -/
def sample_armed_zero_state : keyboard_state :=
  { sample_focused_state with
    xkb_state := some { keymap := 41, mods_depressed := 1, mods_latched := 0, mods_locked := 0,
                        group := 0 }
    repeat_ := { key := 0, keysym := 108, modifiers := 0, timer := 1, rate := 25, delay := 400,
                 callback := 0, keyboard := 21 } }

/-- Key 30 is armed on the example device and Shift has become active. -/
def sample_armed_shift : World :=
  keyboard_handle_modifiers sample_armed 21 1 0 0 0

/-- The state of the example device in `sample_armed_shift`. -/
def sample_armed_shift_state : keyboard_state :=
  { sample_armed_state with
    xkb_state := some { keymap := 41, mods_depressed := 1, mods_latched := 0, mods_locked := 0,
                        group := 0 } }

/-- The decoder state of the example device with Shift active. -/
def sample_xkb_state_shift : XkbState :=
  { keymap := 41, mods_depressed := 1, mods_latched := 0, mods_locked := 0, group := 0 }

/-! ## Notions for the seat registry -/

/-- The state `s` without the two fields that a resolved synchronization callback
writes: the recorded timer and the recorded callback. -/
def without_pending (s : keyboard_state) : keyboard_state :=
  { s with repeat_ := { s.repeat_ with timer := 0, callback := 0 } }

/-- The calls of `handle_keyboard_remove` that the two loops over the registry make,
one for each device of `removed` in order. -/
def remove_all : List keyboard_state → World → World
  | [], w => w
  | d :: rest, w => remove_all rest (handle_keyboard_remove w d.keyboard)

/-- The events the program receives from the compositor and from the main loop. -/
inductive Event where
  | global_add (name : Nat) (is_seat : Bool) (seat : Nat)
  | global_remove (name : Nat)
  | capabilities (seat_node seat capabilities keyboard : Nat)
  | keymap (data format : Nat) (mapped : Bool) (context keymap : Nat) (state : Option XkbState)
  | enter (data surface : Nat)
  | leave (data surface : Nat)
  | key (data key state : Nat)
  | modifiers (data mods_depressed mods_latched mods_locked group : Nat)
  | repeat_info (data : Nat) (rate delay : Int)
  | timer_fired (src : Timeout)
  | sync_resolved (request : SyncRequest)
  deriving DecidableEq

/-- The handler that runs for an event. -/
def deliver (X : Xkb) (w : World) : Event → World
  | Event.global_add name is_seat seat => registry_handle_global w name is_seat seat
  | Event.global_remove name => registry_handle_global_remove w name
  | Event.capabilities seat_node seat capabilities keyboard =>
    seat_handle_capabilities w seat_node seat capabilities keyboard
  | Event.keymap data format mapped context keymap state =>
    keyboard_handle_keymap w data format mapped context keymap state
  | Event.enter data surface => keyboard_handle_enter w data surface
  | Event.leave data surface => keyboard_handle_leave w data surface
  | Event.key data key state => keyboard_handle_key X w data key state
  | Event.modifiers data mods_depressed mods_latched mods_locked group =>
    keyboard_handle_modifiers w data mods_depressed mods_latched mods_locked group
  | Event.repeat_info data rate delay => keyboard_handle_repeat_info w data rate delay
  | Event.timer_fired src => dispatch_timeout w src
  | Event.sync_resolved request => sync_callback w request.data request.proxy

/-- What the collaborators guarantee about an event in the world `w`: the proxy that
`wl_seat_get_keyboard` returns is not the proxy of a registered device; a timeout
source fires and a callback resolves only while it is pending. With
`keymap_once`, a keymap event arrives only at a device that has no decoder yet,
which is the case whenever every device receives at most one keymap event. -/
def enabled (keymap_once : Bool) (w : World) : Event → Prop
  | Event.capabilities _ _ capabilities keyboard =>
    capabilities &&& WL_SEAT_CAPABILITY_KEYBOARD ≠ 0 →
      keyboard ∉ (devices w).map (fun s => s.keyboard)
  | Event.keymap data _ _ _ _ _ =>
    keymap_once = true → ∀ d ∈ devices w, d.keyboard = data → d.xkb_state = none
  | Event.timer_fired src => src ∈ w.sources
  | Event.sync_resolved request => request ∈ w.wl_callbacks
  | _ => True

instance (keymap_once : Bool) (w : World) (e : Event) : Decidable (enabled keymap_once w e) := by
  cases e <;> unfold enabled <;> infer_instance

/-- The worlds the program can be in: it starts with an empty registry and nothing
pending, and every further world is the result of an enabled event. -/
inductive Reachable (X : Xkb) (keymap_once : Bool) : World → Prop where
  | start (w : World) : w.keyboard_lists = [] → w.sources = [] → w.wl_callbacks = [] →
      Reachable X keymap_once w
  | next (w : World) (e : Event) : Reachable X keymap_once w → enabled keymap_once w e →
      Reachable X keymap_once (deliver X w e)

/-! ## The invariant of the repeat engine -/

/-- A device whose repeat is armed records a symbol and has focus, and has a decoder
when keymap events arrive only at devices without one. -/
def Live (keymap_once : Bool) (d : keyboard_state) : Prop :=
  d.repeat_.keysym ≠ 0 ∧ d.has_focus ≠ 0 ∧ (keymap_once = true → d.xkb_state ≠ none)

/-- The sources left after `stop_repeat` on the state `d`. -/
def stopped_sources (d : keyboard_state) (S : List Timeout) : List Timeout :=
  if d.repeat_.timer ≠ 0 then S.filter (fun t => t.id ≠ d.repeat_.timer) else S

/-- The callbacks left after `stop_repeat` on the state `d`. -/
def stopped_callbacks (d : keyboard_state) (C : List SyncRequest) : List SyncRequest :=
  if d.repeat_.callback ≠ 0 then C.filter (fun c => c.proxy ≠ d.repeat_.callback) else C

/-- The registry with the state of the device `data` replaced by `k`. -/
def replace_state (data : Nat) (k : keyboard_state) (devs : List keyboard_state) :
    List keyboard_state :=
  devs.map (fun s => if s.keyboard = data then k else s)

/-- The three states of the repeat engine of the device `d`, given the sources `S`
and the callbacks `C` that are pending: nothing pending and nothing recorded as
pending; the recorded timer pending and nothing else; the recorded callback
pending and nothing else. In the last two the device is `Live`. -/
def DeviceOk (keymap_once : Bool) (S : List Timeout) (C : List SyncRequest)
    (d : keyboard_state) : Prop :=
  (S.filter (fun t => decide (t.data = d.keyboard)) = []
    ∧ C.filter (fun c => decide (c.data = d.keyboard)) = []
    ∧ d.repeat_.timer = 0 ∧ d.repeat_.callback = 0)
  ∨ ((∃ iv, S.filter (fun t => decide (t.data = d.keyboard))
        = [{ id := d.repeat_.timer, interval := iv, data := d.keyboard }])
    ∧ C.filter (fun c => decide (c.data = d.keyboard)) = []
    ∧ d.repeat_.timer ≠ 0 ∧ d.repeat_.callback = 0 ∧ Live keymap_once d)
  ∨ (S.filter (fun t => decide (t.data = d.keyboard)) = []
    ∧ C.filter (fun c => decide (c.data = d.keyboard))
        = [{ proxy := d.repeat_.callback, data := d.keyboard }]
    ∧ d.repeat_.timer = 0 ∧ d.repeat_.callback ≠ 0 ∧ Live keymap_once d)

/-- The invariant over the registered devices `devs`, the pending sources `S` and
callbacks `C` and the two id counters: proxies of devices, ids of sources and
proxies of callbacks are pairwise distinct, ids are not ahead of their counter,
everything pending belongs to a registered device, and every device is in one of
the three states of `DeviceOk`. -/
structure Inv (keymap_once : Bool) (devs : List keyboard_state) (S : List Timeout)
    (C : List SyncRequest) (ls lp : Nat) : Prop where
  nodup : (devs.map (fun s => s.keyboard)).Nodup
  src_le : ∀ t ∈ S, t.id ≤ ls
  src_nodup : (S.map (fun t => t.id)).Nodup
  cb_le : ∀ c ∈ C, c.proxy ≤ lp
  cb_nodup : (C.map (fun c => c.proxy)).Nodup
  src_owner : ∀ t ∈ S, ∃ d ∈ devs, d.keyboard = t.data
  cb_owner : ∀ c ∈ C, ∃ d ∈ devs, d.keyboard = c.data
  ok : ∀ d ∈ devs, DeviceOk keymap_once S C d

/-- The invariant, on a world. -/
def WorldInv (keymap_once : Bool) (w : World) : Prop :=
  Inv keymap_once (devices w) w.sources w.wl_callbacks w.last_source w.last_proxy

/-! ## Example worlds for the invariants -/

/-- The armed example device has received the repeat information rate 0, its timer
has fired and the synchronization callback has resolved. -/
def sample_stalled : World :=
  sync_callback
    (dispatch_timeout (keyboard_handle_repeat_info sample_armed 21 0 400)
      { id := 1, interval := 400, data := 21 })
    21 1

/-! ## Lemmas on the trace, the registry and the focus aggregate -/

@[simp]
theorem store_calls (w : World) (d : Nat) (k : keyboard_state) : (store w d k).calls = w.calls := rfl
@[simp]
theorem call_calls (w : World) (c : Call) : (w.call c).calls = w.calls ++ [c] := rfl
@[simp]
theorem call_keyboard_lists (w : World) (c : Call) : (w.call c).keyboard_lists = w.keyboard_lists := rfl

theorem stop_repeat_calls (w : World) (k : keyboard_state) : (stop_repeat w k).1.calls = w.calls := by
  unfold stop_repeat g_source_remove wl_callback_destroy
  split_ifs <;> rfl

theorem chain_has_focus_false_iff (l : List keyboard_state) :
    chain_has_focus l = false ↔ l.countP (fun s => decide (s.has_focus ≠ 0)) = 0 := by
  induction l with
  | nil => simp [chain_has_focus]
  | cons s l ih =>
    by_cases h : s.has_focus = 0
    · simp [chain_has_focus, h, ih, List.countP_cons]
    · simp [chain_has_focus, h, List.countP_cons]

theorem lists_have_focus_eq_zero_iff (ls : List (List keyboard_state)) :
    lists_have_focus ls = 0 ↔ ls.flatten.countP (fun s => decide (s.has_focus ≠ 0)) = 0 := by
  induction ls with
  | nil => simp [lists_have_focus]
  | cons l ls ih =>
    rw [List.flatten_cons, List.countP_append]
    cases h : chain_has_focus l with
    | false =>
      have h0 := (chain_has_focus_false_iff l).1 h
      rw [h0, Nat.zero_add, ← ih]
      simp [lists_have_focus, h]
    | true =>
      have h1 : ¬ (l.countP (fun s => decide (s.has_focus ≠ 0)) = 0) := by
        intro h0
        rw [← chain_has_focus_false_iff, h] at h0
        exact Bool.noConfusion h0
      constructor
      · intro hh
        simp [lists_have_focus, h] at hh
      · intro hh
        omega

theorem any_keyboard_has_focus_eq_zero_iff (w : World) :
    any_keyboard_has_focus w = 0 ↔ focus_count w = 0 :=
  lists_have_focus_eq_zero_iff w.keyboard_lists

theorem lists_have_focus_cases (ls : List (List keyboard_state)) :
    lists_have_focus ls = 0 ∨ lists_have_focus ls = 1 := by
  induction ls with
  | nil => simp [lists_have_focus]
  | cons l ls ih =>
    cases h : chain_has_focus l <;> simp [lists_have_focus, h, ih]

theorem devices_store (w : World) (d : Nat) (k : keyboard_state) :
    devices (store w d k) = (devices w).map (fun s => if s.keyboard = d then k else s) := by
  simp [devices, store, List.map_flatten]

theorem lookup_some (w : World) (d : Nat) (k : keyboard_state) (h : lookup w d = some k) :
    k ∈ devices w ∧ k.keyboard = d := by
  unfold lookup at h
  exact ⟨List.mem_of_find?_eq_some h, by simpa using List.find?_some h⟩

theorem lookup_store (w : World) (d : Nat) (k k1 : keyboard_state)
    (h : lookup w d = some k) (h1 : k1.keyboard = d) : lookup (store w d k1) d = some k1 := by
  have hk := (lookup_some w d k h).2
  have e : lookup (store w d k1) d
      = (devices (store w d k1)).find? (fun s => decide (s.keyboard = d)) := rfl
  rw [e, devices_store, List.find?_map]
  have e2 : ((fun s => decide (s.keyboard = d)) ∘ fun s : keyboard_state => if s.keyboard = d then k1 else s)
      = (fun s => decide (s.keyboard = d)) := by
    funext s
    by_cases hs : s.keyboard = d <;> simp [hs, h1]
  rw [e2]
  have e3 : (devices w).find? (fun s => decide (s.keyboard = d)) = some k := h
  rw [e3]
  simp [hk]

@[simp]
theorem lookup_call (w : World) (c : Call) (d : Nat) : lookup (w.call c) d = lookup w d := rfl

theorem keyboard_handle_enter_calls (w : World) (data : Nat) :
    (keyboard_handle_enter w data w.target_surface).calls
      = w.calls ++ (if focus_count w = 0 then [Call.focus_enter w.global_focus_enter] else []) := by
  unfold keyboard_handle_enter
  simp only [ne_eq, not_true_eq_false, if_false]
  by_cases h : any_keyboard_has_focus w = 0
  · have h2 := (any_keyboard_has_focus_eq_zero_iff w).1 h
    simp only [h, h2, if_true]
    cases lookup (w.call (Call.focus_enter w.global_focus_enter)) data <;> simp
  · have h2 : ¬ focus_count w = 0 := fun hh => h ((any_keyboard_has_focus_eq_zero_iff w).2 hh)
    simp only [h, h2, if_false]
    cases lookup w data <;> simp

theorem stop_repeat_fst (w : World) (k : keyboard_state) :
    (stop_repeat w k).1 =
      { w with
        sources := if k.repeat_.timer ≠ 0 then w.sources.filter (fun t => t.id ≠ k.repeat_.timer)
                   else w.sources
        wl_callbacks := if k.repeat_.callback ≠ 0
                        then w.wl_callbacks.filter (fun c => c.proxy ≠ k.repeat_.callback)
                        else w.wl_callbacks } := by
  unfold stop_repeat g_source_remove wl_callback_destroy
  split_ifs <;> rfl

theorem stop_repeat_snd (w : World) (k : keyboard_state) :
    (stop_repeat w k).2 =
      { k with repeat_ := { k.repeat_ with timer := 0, callback := 0, keysym := 0, modifiers := 0,
                                             keyboard := 0 } } := rfl

theorem focus_count_call (w : World) (c : Call) : focus_count (w.call c) = focus_count w := rfl

theorem focus_count_store_unfocused (w : World) (d : Nat) (k : keyboard_state)
    (hk : k.has_focus = 0) (h : focus_count w = 0) : focus_count (store w d k) = 0 := by
  unfold focus_count at *
  rw [devices_store]
  rw [List.countP_eq_zero] at *
  intro a ha
  rw [List.mem_map] at ha
  obtain ⟨s, hs, rfl⟩ := ha
  by_cases hd : s.keyboard = d
  · simp [hd, hk]
  · simpa [hd] using h s hs

theorem keyboard_handle_leave_calls (w : World) (data : Nat) :
    (keyboard_handle_leave w data w.target_surface).calls
      = w.calls ++ (if focus_count (keyboard_handle_leave w data w.target_surface) = 0
                    then [Call.focus_leave w.global_focus_leave] else []) := by
  unfold keyboard_handle_leave
  simp only [ne_eq, not_true_eq_false, if_false]
  generalize hw2 : (match lookup w data with
      | none => w
      | some kstate => store (stop_repeat w { kstate with has_focus := 0 }).1 data
                          (stop_repeat w { kstate with has_focus := 0 }).2) = w2
  have hc : w2.calls = w.calls ∧ w2.global_focus_leave = w.global_focus_leave := by
    subst hw2
    cases lookup w data with
    | none => exact ⟨rfl, rfl⟩
    | some k => simp [store, stop_repeat_fst]
  by_cases h : any_keyboard_has_focus w2 = 0
  · have h2 := (any_keyboard_has_focus_eq_zero_iff w2).1 h
    simp [h, focus_count_call, h2, hc.1, hc.2]
  · have h2 : ¬ focus_count w2 = 0 := fun hh => h ((any_keyboard_has_focus_eq_zero_iff w2).2 hh)
    simp [h, h2, hc.1]

theorem keyboard_handle_leave_focus_count_zero (w : World) (data : Nat) (h : focus_count w = 0) :
    focus_count (keyboard_handle_leave w data w.target_surface) = 0 := by
  unfold keyboard_handle_leave
  simp only [ne_eq, not_true_eq_false, if_false]
  have key : focus_count (match lookup w data with
      | none => w
      | some kstate => store (stop_repeat w { kstate with has_focus := 0 }).1 data
                          (stop_repeat w { kstate with has_focus := 0 }).2) = 0 := by
    cases lookup w data with
    | none => exact h
    | some k =>
      apply focus_count_store_unfocused
      · rfl
      · rw [stop_repeat_fst]; exact h
  split_ifs
  · rw [focus_count_call]; exact key
  · exact key

theorem link_node_perm (state : keyboard_state) (ls r : List (List keyboard_state))
    (h : link_node state ls = some r) : List.Perm r.flatten (state :: ls.flatten) := by
  induction ls generalizing r with
  | nil => simp [link_node] at h
  | cons l ls ih =>
    cases l with
    | nil =>
      simp only [link_node, Option.map_eq_some'] at h
      obtain ⟨r1, hr1, rfl⟩ := h
      simpa using ih r1 hr1
    | cons hd tl =>
      simp only [link_node] at h
      split_ifs at h with hs
      · simp only [Option.some.injEq] at h
        subst h
        simp
      · simp only [Option.map_eq_some'] at h
        obtain ⟨r1, hr1, rfl⟩ := h
        have := ih r1 hr1
        simp only [List.flatten_cons]
        exact (List.Perm.append_left (hd :: tl) this).trans List.perm_middle

theorem handle_keyboard_add_perm (w : World) (keyboard seat seat_node : Nat) :
    List.Perm (devices (handle_keyboard_add w keyboard seat seat_node))
      (new_keyboard_state keyboard seat seat_node :: devices w) := by
  unfold handle_keyboard_add devices
  dsimp only
  split
  next lists h => exact link_node_perm _ _ _ h
  next h => simp

/-! ## Lemmas on the key handler and the repeat engine -/

theorem keyboard_handle_key_press_other (X : Xkb) (w : World) (data key : Nat) (k : keyboard_state)
    (xs : XkbState) (hk : lookup w data = some k) (hx : k.xkb_state = some xs)
    (hf : k.has_focus ≠ 0) (hs : k.repeat_.keysym ≠ X.key_get_one_sym xs (add_u32 key 8)) :
    keyboard_handle_key X w data key 1 =
      if 0 < k.repeat_.rate ∧ X.key_get_one_sym xs (add_u32 key 8) ≠ 0
          ∧ X.keymap_key_repeats k.keymap (add_u32 key 8) ≠ 0 then
        store
          (g_timeout_add
            ((stop_repeat w k).1.call
              (Call.press w.global_press_cb (X.key_get_one_sym xs (add_u32 key 8))
                (get_modifiers_state X xs)))
            (to_guint k.repeat_.delay) data).1
          data
          { k with repeat_ :=
            { k.repeat_ with keysym := X.key_get_one_sym xs (add_u32 key 8), key := key,
                             modifiers := get_modifiers_state X xs, keyboard := data,
                             timer := w.last_source + 1, callback := 0 } }
      else
        store
          ((stop_repeat w k).1.call
            (Call.press w.global_press_cb (X.key_get_one_sym xs (add_u32 key 8))
              (get_modifiers_state X xs)))
          data (stop_repeat w k).2 := by
  unfold keyboard_handle_key
  rw [hk]
  dsimp only
  rw [hx]
  dsimp only
  rw [if_neg hf, if_pos rfl, if_pos hs]
  have e1 : (stop_repeat w k).1.global_press_cb = w.global_press_cb := by
    rw [stop_repeat_fst]
  have e2 : (stop_repeat w k).1.last_source = w.last_source := by
    rw [stop_repeat_fst]
  rw [e1]
  simp only [stop_repeat_snd, gt_iff_lt, ne_eq]
  have e3 : (¬ (0 : Nat) = X.key_get_one_sym xs (add_u32 key 8))
      ↔ ¬ X.key_get_one_sym xs (add_u32 key 8) = 0 := by
    constructor <;> intro h hh <;> exact h hh.symm
  simp only [e3]
  split_ifs
  · simp [g_timeout_add, World.call, e2, hx]
  · rfl

theorem keyboard_handle_key_release_stop (X : Xkb) (w : World) (data key : Nat) (k : keyboard_state)
    (xs : XkbState) (hk : lookup w data = some k) (hx : k.xkb_state = some xs)
    (hf : k.has_focus ≠ 0)
    (hc : k.repeat_.key = key ∨ (k.repeat_.key ≠ 0 ∧ get_modifiers_state X xs ≠ 0)) :
    keyboard_handle_key X w data key 0 =
      store
        ((stop_repeat w k).1.call
          (Call.release w.global_release_cb (X.key_get_one_sym xs (add_u32 key 8))
            (get_modifiers_state X xs)))
        data (stop_repeat w k).2 := by
  unfold keyboard_handle_key
  rw [hk]
  dsimp only
  rw [hx]
  dsimp only
  rw [if_neg hf, if_neg (by decide), if_pos rfl, if_pos hc]
  have e1 : (stop_repeat w k).1.global_release_cb = w.global_release_cb := by
    rw [stop_repeat_fst]
  rw [e1]

theorem pending_sources_stop_repeat (w : World) (data : Nat) (k : keyboard_state)
    (ht : Tracked w data k) : pending_sources (stop_repeat w k).1 data = [] := by
  rw [stop_repeat_fst]
  unfold pending_sources
  rw [List.filter_eq_nil_iff]
  intro t hmem hdata
  have hd : t.data = data := by simpa using hdata
  dsimp only at hmem
  split_ifs at hmem with h0
  · have hin := List.mem_filter.1 hmem
    have := (ht.1 t hin.1 hd).1
    simp [this] at hin
  · have := ht.1 t hmem hd
    exact this.2 (by rw [this.1]; exact not_not.1 h0)

theorem pending_callbacks_stop_repeat (w : World) (data : Nat) (k : keyboard_state)
    (ht : Tracked w data k) : pending_callbacks (stop_repeat w k).1 data = [] := by
  rw [stop_repeat_fst]
  unfold pending_callbacks
  rw [List.filter_eq_nil_iff]
  intro c hmem hdata
  have hd : c.data = data := by simpa using hdata
  dsimp only at hmem
  split_ifs at hmem with h0
  · have hin := List.mem_filter.1 hmem
    have := (ht.2 c hin.1 hd).1
    simp [this] at hin
  · have := ht.2 c hmem hd
    exact this.2 (by rw [this.1]; exact not_not.1 h0)

theorem lookup_stop_repeat (w : World) (k : keyboard_state) (d : Nat) :
    lookup (stop_repeat w k).1 d = lookup w d := by
  rw [stop_repeat_fst]
  rfl

theorem not_mem_sources_stop_repeat (w : World) (data : Nat) (k : keyboard_state)
    (ht : Tracked w data k) (t : Timeout) (hd : t.data = data) :
    t ∉ (stop_repeat w k).1.sources := by
  intro hmem
  have h := pending_sources_stop_repeat w data k ht
  unfold pending_sources at h
  rw [List.filter_eq_nil_iff] at h
  exact h t hmem (by simpa using hd)

theorem to_guint_of_nonneg (x : Int) (h0 : 0 ≤ x) (h1 : x < 4294967296) : to_guint x = x.toNat := by
  unfold to_guint
  rw [Int.emod_eq_of_lt h0 h1]

theorem to_guint_period (R : Int) (hR : 0 < R) : to_guint (1000 / R) = (1000 / R).toNat := by
  apply to_guint_of_nonneg
  · exact Int.ediv_nonneg (by norm_num) (le_of_lt hR)
  · have : 1000 / R ≤ 1000 := Int.ediv_le_self _ (by norm_num)
    omega

/-- The dispatch of the pending timeout source of a device whose repeat is scheduled. -/
theorem dispatch_timeout_scheduled (w : World) (data : Nat) (k : keyboard_state) (iv : Nat)
    (hk : lookup w data = some k)
    (hps : pending_sources w data = [{ id := k.repeat_.timer, interval := iv, data := data }])
    (hpc : pending_callbacks w data = []) :
    (dispatch_timeout w { id := k.repeat_.timer, interval := iv, data := data }).calls = w.calls
    ∧ (dispatch_timeout w { id := k.repeat_.timer, interval := iv, data := data }).global_press_cb
        = w.global_press_cb
    ∧ (dispatch_timeout w { id := k.repeat_.timer, interval := iv, data := data }).last_source
        = w.last_source
    ∧ pending_sources (dispatch_timeout w { id := k.repeat_.timer, interval := iv, data := data }) data
        = []
    ∧ pending_callbacks (dispatch_timeout w { id := k.repeat_.timer, interval := iv, data := data }) data
        = [{ proxy := w.last_proxy + 1, data := data }]
    ∧ lookup (dispatch_timeout w { id := k.repeat_.timer, interval := iv, data := data }) data
        = some { k with repeat_ := { k.repeat_ with callback := w.last_proxy + 1, timer := 0 } } := by
  have hkd := (lookup_some w data k hk).2
  have hl : lookup (wl_display_sync w data).1 data = some k := hk
  have e : dispatch_timeout w { id := k.repeat_.timer, interval := iv, data := data }
      = g_source_remove
          (store (wl_display_sync w data).1 data
            { k with repeat_ := { k.repeat_ with callback := w.last_proxy + 1, timer := 0 } })
          k.repeat_.timer := by
    unfold dispatch_timeout key_repeat_callback
    dsimp only
    rw [hl]
    rfl
  rw [e]
  refine ⟨rfl, rfl, rfl, ?_, ?_, ?_⟩
  · show List.filter (fun t => decide (t.data = data))
        (List.filter (fun t => decide (t.id ≠ k.repeat_.timer)) w.sources) = []
    rw [List.filter_comm]
    unfold pending_sources at hps
    rw [hps]
    simp
  · show List.filter (fun c => decide (c.data = data))
        (w.wl_callbacks ++ [{ proxy := w.last_proxy + 1, data := data }]) = _
    unfold pending_callbacks at hpc
    rw [List.filter_append, hpc]
    simp
  · have := lookup_store (wl_display_sync w data).1 data k
      { k with repeat_ := { k.repeat_ with callback := w.last_proxy + 1, timer := 0 } } hl hkd
    exact this

/-- The `done` event of the callback that the dispatch of the timer requested. -/
theorem sync_callback_requested (w : World) (data : Nat) (k : keyboard_state) (p : Nat)
    (hk : lookup w data = some k) (hR : 0 < k.repeat_.rate)
    (hps : pending_sources w data = [])
    (hpc : pending_callbacks w data = [{ proxy := p, data := data }]) :
    (sync_callback w data p).calls
        = w.calls ++ [Call.press w.global_press_cb k.repeat_.keysym k.repeat_.modifiers]
    ∧ (sync_callback w data p).global_press_cb = w.global_press_cb
    ∧ pending_sources (sync_callback w data p) data
        = [{ id := w.last_source + 1, interval := to_guint (1000 / k.repeat_.rate), data := data }]
    ∧ pending_callbacks (sync_callback w data p) data = []
    ∧ lookup (sync_callback w data p) data
        = some { k with repeat_ := { k.repeat_ with callback := 0, timer := w.last_source + 1 } } := by
  have hkd := (lookup_some w data k hk).2
  have hl : lookup (wl_callback_destroy w p) data = some k := hk
  have e : sync_callback w data p
      = store
          (g_timeout_add
            ((wl_callback_destroy w p).call
              (Call.press w.global_press_cb k.repeat_.keysym k.repeat_.modifiers))
            (to_guint (1000 / k.repeat_.rate)) data).1
          data
          { k with repeat_ := { k.repeat_ with callback := 0, timer := w.last_source + 1 } } := by
    unfold sync_callback
    dsimp only
    rw [hl]
    dsimp only
    rw [if_pos hR]
    rfl
  rw [e]
  refine ⟨rfl, rfl, ?_, ?_, ?_⟩
  · show List.filter (fun t => decide (t.data = data))
        (w.sources ++ [{ id := w.last_source + 1, interval := to_guint (1000 / k.repeat_.rate),
                         data := data }]) = _
    unfold pending_sources at hps
    rw [List.filter_append, hps]
    simp
  · show List.filter (fun c => decide (c.data = data))
        (List.filter (fun c => decide (c.proxy ≠ p)) w.wl_callbacks) = []
    rw [List.filter_comm]
    unfold pending_callbacks at hpc
    rw [hpc]
    simp
  · exact lookup_store _ data k _ hl hkd

theorem repeat_round_scheduled (w : World) (data sym mods : Nat) (R : Int) (iv : Nat)
    (hR : 0 < R) (h : Scheduled w data sym mods R iv) :
    (repeat_round w data).calls = w.calls ++ [Call.press w.global_press_cb sym mods]
    ∧ (repeat_round w data).global_press_cb = w.global_press_cb
    ∧ Scheduled (repeat_round w data) data sym mods R (1000 / R).toNat := by
  obtain ⟨k, hk, h1, h2, h3, hps, hpc⟩ := h
  obtain ⟨dc, dg, _, dps, dpc, dl⟩ := dispatch_timeout_scheduled w data k iv hk hps hpc
  have hR1 : 0 < ({ k with repeat_ := { k.repeat_ with callback := w.last_proxy + 1, timer := 0 } }
      : keyboard_state).repeat_.rate := by
    show 0 < k.repeat_.rate
    rw [h3]
    exact hR
  obtain ⟨sc, sg, sps, spc, sl⟩ := sync_callback_requested _ data _ (w.last_proxy + 1) dl hR1 dps dpc
  have e : repeat_round w data
      = sync_callback (dispatch_timeout w { id := k.repeat_.timer, interval := iv, data := data })
          data (w.last_proxy + 1) := by
    unfold repeat_round
    rw [hps]
    dsimp only
    rw [dpc]
  rw [e]
  refine ⟨?_, ?_, ?_⟩
  · rw [sc, dc, dg]
    show _ = w.calls ++ [Call.press w.global_press_cb sym mods]
    rw [← h1, ← h2]
  · rw [sg, dg]
  · refine ⟨_, sl, h1, h2, h3, ?_, spc⟩
    rw [sps]
    show _ = [{ id := _, interval := (1000 / R).toNat, data := data }]
    have : to_guint (1000 / k.repeat_.rate) = (1000 / R).toNat := by
      rw [h3]
      exact to_guint_period R hR
    simp [this]

theorem repeat_rounds_scheduled (data sym mods : Nat) (R : Int) (hR : 0 < R) (n : Nat) :
    ∀ (w : World) (iv : Nat), Scheduled w data sym mods R iv →
      (repeat_rounds data n w).calls
          = w.calls ++ List.replicate n (Call.press w.global_press_cb sym mods)
      ∧ Scheduled (repeat_rounds data n w) data sym mods R (if n = 0 then iv else (1000 / R).toNat) := by
  induction n with
  | zero =>
    intro w iv h
    exact ⟨by simp [repeat_rounds], by simpa [repeat_rounds] using h⟩
  | succ n ih =>
    intro w iv h
    obtain ⟨rc, rg, rs⟩ := repeat_round_scheduled w data sym mods R iv hR h
    obtain ⟨ic, is⟩ := ih (repeat_round w data) _ rs
    refine ⟨?_, ?_⟩
    · show (repeat_rounds data n (repeat_round w data)).calls = _
      rw [ic, rc, rg, List.replicate_succ, List.append_assoc]
      rfl
    · show Scheduled (repeat_rounds data n (repeat_round w data)) data sym mods R _
      have e : (if n = 0 then (1000 / R).toNat else (1000 / R).toNat) = (1000 / R).toNat := by
        split_ifs <;> rfl
      rw [e] at is
      simpa using is

/-! ## Lemmas on the round trip -/

theorem sync_callback_wl_callbacks (w : World) (data callback : Nat) :
    (sync_callback w data callback).wl_callbacks
      = w.wl_callbacks.filter (fun c => c.proxy ≠ callback) := by
  unfold sync_callback
  dsimp only
  split
  · rfl
  · split_ifs <;> rfl

theorem sync_callback_release (w : World) (data callback keyboard : Nat) :
    sync_callback (wl_keyboard_release w keyboard) data callback
      = wl_keyboard_release (sync_callback w data callback) keyboard := by
  unfold sync_callback
  dsimp only
  have e : lookup (wl_callback_destroy (wl_keyboard_release w keyboard) callback) data
      = lookup (wl_callback_destroy w callback) data := rfl
  rw [e]
  cases lookup (wl_callback_destroy w callback) data with
  | none => rfl
  | some state =>
    dsimp only
    split_ifs <;> rfl

theorem dispatch_done_pending (w : World) (c x : SyncRequest)
    (hx : x ∈ (dispatch_done w c).wl_callbacks) : x ∈ w.wl_callbacks ∧ x ≠ c := by
  unfold dispatch_done at hx
  split_ifs at hx with hc
  · rw [sync_callback_wl_callbacks, List.mem_filter] at hx
    refine ⟨hx.1, ?_⟩
    intro e
    rw [e] at hx
    simp at hx
  · exact ⟨hx, fun e => hc (e ▸ hx)⟩

theorem dispatch_done_release (w : World) (c : SyncRequest) (keyboard : Nat) :
    dispatch_done (wl_keyboard_release w keyboard) c
      = wl_keyboard_release (dispatch_done w c) keyboard := by
  unfold dispatch_done
  have e : (wl_keyboard_release w keyboard).wl_callbacks = w.wl_callbacks := rfl
  rw [e]
  split_ifs
  · exact sync_callback_release w c.data c.proxy keyboard
  · rfl

/-- The `done` event of a request changes the registry state by state; every state
keeps its proxy, and when the proxies are pairwise distinct every state keeps
everything but the recorded timer and callback. -/
theorem dispatch_done_lists (w : World) (c : SyncRequest) :
    ∃ f : keyboard_state → keyboard_state,
      (dispatch_done w c).keyboard_lists = w.keyboard_lists.map (List.map f)
      ∧ (∀ s, (f s).keyboard = s.keyboard)
      ∧ (((devices w).map (fun s => s.keyboard)).Nodup →
          ∀ s ∈ devices w, without_pending (f s) = without_pending s) := by
  have hid : ∃ f : keyboard_state → keyboard_state,
      w.keyboard_lists = w.keyboard_lists.map (List.map f)
      ∧ (∀ s, (f s).keyboard = s.keyboard)
      ∧ (((devices w).map (fun s => s.keyboard)).Nodup →
          ∀ s ∈ devices w, without_pending (f s) = without_pending s) :=
    ⟨id, by simp, fun _ => rfl, fun _ _ _ => rfl⟩
  have hst : ∀ (W : World) (state k : keyboard_state), W.keyboard_lists = w.keyboard_lists →
      lookup w c.data = some state → k.keyboard = c.data →
      without_pending k = without_pending state →
      ∃ f : keyboard_state → keyboard_state,
        (store W c.data k).keyboard_lists = w.keyboard_lists.map (List.map f)
        ∧ (∀ s, (f s).keyboard = s.keyboard)
        ∧ (((devices w).map (fun s => s.keyboard)).Nodup →
            ∀ s ∈ devices w, without_pending (f s) = without_pending s) := by
    intro W state k hW hl hk hwp
    obtain ⟨hmem, hsk⟩ := lookup_some w c.data state hl
    refine ⟨fun s => if s.keyboard = c.data then k else s, ?_, ?_, ?_⟩
    · show W.keyboard_lists.map _ = _
      rw [hW]
    · intro s
      by_cases h : s.keyboard = c.data
      · simp [h, hk]
      · simp [h]
    · intro hnd s hs
      by_cases h : s.keyboard = c.data
      · have e : s = state := List.inj_on_of_nodup_map hnd hs hmem (h.trans hsk.symm)
        simp only [h, if_true]
        rw [hwp, e]
      · simp [h]
  unfold dispatch_done
  split_ifs
  · unfold sync_callback
    dsimp only
    have e : lookup (wl_callback_destroy w c.proxy) c.data = lookup w c.data := rfl
    rw [e]
    cases hl : lookup w c.data with
    | none => exact hid
    | some state =>
      dsimp only
      split_ifs
      · exact hst _ state _ rfl hl (lookup_some w c.data state hl).2 rfl
      · exact hst _ state _ rfl hl (lookup_some w c.data state hl).2 rfl
  · exact hid

theorem devices_map_lists (w W : World) (f : keyboard_state → keyboard_state)
    (h : W.keyboard_lists = w.keyboard_lists.map (List.map f)) :
    devices W = (devices w).map f := by
  unfold devices
  rw [h, List.map_flatten]

theorem foldl_dispatch_done_lists (l : List SyncRequest) :
    ∀ w : World, ∃ f : keyboard_state → keyboard_state,
      (l.foldl dispatch_done w).keyboard_lists = w.keyboard_lists.map (List.map f)
      ∧ (∀ s, (f s).keyboard = s.keyboard)
      ∧ (((devices w).map (fun s => s.keyboard)).Nodup →
          ∀ s ∈ devices w, without_pending (f s) = without_pending s) := by
  induction l with
  | nil =>
    intro w
    exact ⟨id, by simp, fun _ => rfl, fun _ _ _ => rfl⟩
  | cons c l ih =>
    intro w
    obtain ⟨f1, a1, b1, c1⟩ := dispatch_done_lists w c
    obtain ⟨f2, a2, b2, c2⟩ := ih (dispatch_done w c)
    have hdev := devices_map_lists w (dispatch_done w c) f1 a1
    refine ⟨f2 ∘ f1, ?_, ?_, ?_⟩
    · rw [List.foldl_cons, a2, a1, List.map_map]
      apply List.map_congr_left
      intro x _
      simp [List.map_map]
    · intro s
      show (f2 (f1 s)).keyboard = s.keyboard
      rw [b2, b1]
    · intro hnd s hs
      have hnd1 : ((devices (dispatch_done w c)).map (fun s => s.keyboard)).Nodup := by
        rw [hdev, List.map_map]
        have e : ((fun s : keyboard_state => s.keyboard) ∘ f1) = (fun s => s.keyboard) := by
          funext x
          exact b1 x
        rw [e]
        exact hnd
      have hs1 : f1 s ∈ devices (dispatch_done w c) := by
        rw [hdev]
        exact List.mem_map_of_mem _ hs
      show without_pending (f2 (f1 s)) = without_pending s
      rw [c2 hnd1 _ hs1, c1 hnd s hs]

/-- The round trip changes the registry state by state: every state keeps its proxy,
and when the proxies are pairwise distinct every state keeps everything but the
recorded timer and callback. -/
theorem wl_display_roundtrip_lists (w : World) :
    ∃ f : keyboard_state → keyboard_state,
      (wl_display_roundtrip w).keyboard_lists = w.keyboard_lists.map (List.map f)
      ∧ (∀ s, (f s).keyboard = s.keyboard)
      ∧ (((devices w).map (fun s => s.keyboard)).Nodup →
          ∀ s ∈ devices w, without_pending (f s) = without_pending s) :=
  foldl_dispatch_done_lists w.wl_callbacks w

theorem wl_display_roundtrip_without_pending (w : World)
    (hnd : ((devices w).map (fun s => s.keyboard)).Nodup) :
    (wl_display_roundtrip w).keyboard_lists.map (List.map without_pending)
      = w.keyboard_lists.map (List.map without_pending) := by
  obtain ⟨f, a, _, c⟩ := wl_display_roundtrip_lists w
  rw [a, List.map_map]
  apply List.map_congr_left
  intro l hl
  show List.map without_pending (List.map f l) = _
  rw [List.map_map]
  apply List.map_congr_left
  intro x hx
  exact c hnd x (List.mem_flatten.2 ⟨l, hl, hx⟩)

theorem foldl_dispatch_done_quiet (l : List SyncRequest) :
    ∀ w : World, (∀ c ∈ w.wl_callbacks, c ∈ l) → (l.foldl dispatch_done w).wl_callbacks = [] := by
  induction l with
  | nil =>
    intro w h
    exact List.eq_nil_iff_forall_not_mem.2 (fun c hc => by cases h c hc)
  | cons c l ih =>
    intro w h
    rw [List.foldl_cons]
    apply ih
    intro x hx
    obtain ⟨hx1, hx2⟩ := dispatch_done_pending w c x hx
    rcases List.mem_cons.1 (h x hx1) with e | e
    · exact absurd e hx2
    · exact e

/-- After a round trip no synchronization callback is pending. -/
theorem wl_display_roundtrip_quiet (w : World) : (wl_display_roundtrip w).wl_callbacks = [] :=
  foldl_dispatch_done_quiet w.wl_callbacks w (fun _ h => h)

/-- With no synchronization callback pending a round trip changes nothing. -/
theorem wl_display_roundtrip_of_quiet (w : World) (h : w.wl_callbacks = []) :
    wl_display_roundtrip w = w := by
  unfold wl_display_roundtrip
  rw [h]
  rfl

theorem foldl_dispatch_done_release (l : List SyncRequest) (keyboard : Nat) :
    ∀ w : World, l.foldl dispatch_done (wl_keyboard_release w keyboard)
      = wl_keyboard_release (l.foldl dispatch_done w) keyboard := by
  induction l with
  | nil => intro w; rfl
  | cons c l ih =>
    intro w
    rw [List.foldl_cons, List.foldl_cons, dispatch_done_release, ih]

theorem wl_display_roundtrip_release (w : World) (keyboard : Nat) :
    wl_display_roundtrip (wl_keyboard_release w keyboard)
      = wl_keyboard_release (wl_display_roundtrip w) keyboard :=
  foldl_dispatch_done_release w.wl_callbacks keyboard w

/-- With its null test passed, `handle_keyboard_remove` does the same in `w` and in
the world after a round trip. -/
theorem handle_keyboard_remove_roundtrip (w : World) (keyboard : Nat) :
    handle_keyboard_remove w keyboard
      = if keyboard = 0 then w else handle_keyboard_remove (wl_display_roundtrip w) keyboard := by
  unfold handle_keyboard_remove
  split_ifs
  · rfl
  · dsimp only
    rw [wl_display_roundtrip_release w keyboard,
      wl_display_roundtrip_release (wl_display_roundtrip w) keyboard,
      wl_display_roundtrip_of_quiet (wl_display_roundtrip w) (wl_display_roundtrip_quiet w)]

/-- With no synchronization callback pending, `handle_keyboard_remove` is the release
of the proxy followed by the search. -/
theorem handle_keyboard_remove_of_quiet (w : World) (keyboard : Nat) (hq : w.wl_callbacks = [])
    (hz : keyboard ≠ 0) :
    handle_keyboard_remove w keyboard
      = match unlink_in_lists keyboard w.keyboard_lists with
        | none => wl_keyboard_release w keyboard
        | some (found, lists) =>
          { (stop_repeat (wl_keyboard_release w keyboard) found).1 with keyboard_lists := lists } := by
  unfold handle_keyboard_remove
  rw [if_neg hz]
  dsimp only
  rw [wl_display_roundtrip_of_quiet (wl_keyboard_release w keyboard) hq]
  rfl

theorem unlink_node_none (keyboard : Nat) (l : List keyboard_state)
    (h : ∀ s ∈ l, s.keyboard ≠ keyboard) : unlink_node keyboard l = none := by
  induction l with
  | nil => rfl
  | cons s l ih =>
    have hs : s.keyboard ≠ keyboard := h s (List.mem_cons_self _ _)
    have hl := ih (fun x hx => h x (List.mem_cons_of_mem _ hx))
    simp [unlink_node, hs, hl]

theorem unlink_in_lists_none (keyboard : Nat) (ls : List (List keyboard_state))
    (h : ∀ s ∈ ls.flatten, s.keyboard ≠ keyboard) : unlink_in_lists keyboard ls = none := by
  induction ls with
  | nil => rfl
  | cons l ls ih =>
    have h1 := unlink_node_none keyboard l
      (fun s hs => h s (by rw [List.flatten_cons]; exact List.mem_append_left _ hs))
    have h2 := ih (fun s hs => h s (by rw [List.flatten_cons]; exact List.mem_append_right _ hs))
    simp [unlink_in_lists, h1, h2]

theorem handle_keyboard_remove_not_found (w : World) (keyboard : Nat)
    (hq : w.wl_callbacks = []) (h : ∀ s ∈ devices w, s.keyboard ≠ keyboard) :
    (handle_keyboard_remove w keyboard).sources = w.sources
    ∧ (handle_keyboard_remove w keyboard).wl_callbacks = w.wl_callbacks
    ∧ (handle_keyboard_remove w keyboard).keyboard_lists = w.keyboard_lists := by
  by_cases hz : keyboard = 0
  · unfold handle_keyboard_remove
    rw [if_pos hz]
    exact ⟨rfl, rfl, rfl⟩
  · rw [handle_keyboard_remove_of_quiet w keyboard hq hz,
      unlink_in_lists_none keyboard w.keyboard_lists h]
    exact ⟨rfl, rfl, rfl⟩

theorem teardown_chain_not_found (l : List keyboard_state) (w : World)
    (hq : w.wl_callbacks = [])
    (h : ∀ s ∈ l, ∀ d ∈ devices w, d.keyboard ≠ s.keyboard) :
    (teardown_chain w l).sources = w.sources
    ∧ (teardown_chain w l).wl_callbacks = w.wl_callbacks
    ∧ (teardown_chain w l).keyboard_lists = w.keyboard_lists := by
  induction l generalizing w with
  | nil => exact ⟨rfl, rfl, rfl⟩
  | cons s l ih =>
    obtain ⟨a, b, c⟩ :=
      handle_keyboard_remove_not_found w s.keyboard hq (h s (List.mem_cons_self _ _))
    have hd : devices (handle_keyboard_remove w s.keyboard) = devices w := by
      unfold devices
      rw [c]
    obtain ⟨a1, b1, c1⟩ := ih (handle_keyboard_remove w s.keyboard) (b.trans hq)
      (fun x hx d hdm => h x (List.mem_cons_of_mem _ hx) d (by rw [hd] at hdm; exact hdm))
    exact ⟨by rw [teardown_chain, a1, a], by rw [teardown_chain, b1, b], by rw [teardown_chain, c1, c]⟩

theorem teardown_lists_keeps_pending (n : Nat) (w : World)
    (h : ((devices w).map (fun s => s.keyboard)).Nodup) (hq : w.wl_callbacks = []) :
    (teardown_lists n w).sources = w.sources
    ∧ (teardown_lists n w).wl_callbacks = w.wl_callbacks := by
  induction n generalizing w with
  | zero => exact ⟨rfl, rfl⟩
  | succ n ih =>
    cases hl : w.keyboard_lists with
    | nil =>
      simp [teardown_lists, hl]
    | cons l next =>
      simp only [teardown_lists, hl]
      have hnd : ((l ++ next.flatten).map (fun s => s.keyboard)).Nodup := by
        have : devices w = l ++ next.flatten := by
          unfold devices
          rw [hl, List.flatten_cons]
        rw [this] at h
        exact h
      rw [List.map_append, List.nodup_append] at hnd
      obtain ⟨_, hnext, hdis⟩ := hnd
      have hc := teardown_chain_not_found l { w with keyboard_lists := next } hq (by
        intro s hs d hd hEq
        exact hdis (List.mem_map_of_mem _ hs) (by
          rw [← hEq]
          exact List.mem_map_of_mem _ hd))
      obtain ⟨a, b, c⟩ := hc
      have hnd2 : ((devices (teardown_chain { w with keyboard_lists := next } l)).map
          (fun s => s.keyboard)).Nodup := by
        unfold devices
        rw [c]
        exact hnext
      obtain ⟨a1, b1⟩ := ih _ hnd2 (b.trans hq)
      exact ⟨by rw [a1, a], by rw [b1, b]⟩

/-- Whenever the proxies of the registered devices are pairwise distinct and no
synchronization callback is pending, `teardown` removes no timeout source: it
never reaches `stop_repeat`. -/
theorem teardown_keeps_pending (w : World)
    (h : ((devices w).map (fun s => s.keyboard)).Nodup) (hq : w.wl_callbacks = []) :
    (teardown w).sources = w.sources ∧ (teardown w).wl_callbacks = [] := by
  obtain ⟨a, b⟩ := teardown_lists_keeps_pending w.keyboard_lists.length w h hq
  have hq1 : (teardown_lists w.keyboard_lists.length w).wl_callbacks = [] := b.trans hq
  unfold teardown
  dsimp only
  rw [wl_display_roundtrip_of_quiet _ hq1, wl_display_roundtrip_of_quiet _ hq1]
  exact ⟨a, hq1⟩

/-! ## Teardown (C1) -/

/-- C1, evaluated at the failing input. In `sample_armed` the registered device 21 has
the repeat timer 1 pending, and no synchronization callback is pending, so the
round trips dispatch nothing. `teardown` advances `keyboard_lists` past the list of
the device and pops its node before it calls `handle_keyboard_remove`, whose
search starts at `keyboard_lists` and so never reaches the node: `stop_repeat` is
not called. After `teardown` the registry is empty, the device is gone, and its
timer is still attached to the main loop; when it fires it requests a
synchronization callback for the freed device. -/
theorem teardown_leaves_repeat_timer_pending :
    lookup sample_armed 21 = some sample_armed_state
    ∧ sample_armed.sources = [{ id := 1, interval := 400, data := 21 }]
    ∧ sample_armed.wl_callbacks = []
    ∧ (teardown sample_armed).keyboard_lists = []
    ∧ lookup (teardown sample_armed) 21 = none
    ∧ (teardown sample_armed).sources = [{ id := 1, interval := 400, data := 21 }]
    ∧ (dispatch_timeout (teardown sample_armed) { id := 1, interval := 400, data := 21 }).wl_callbacks
        = [{ proxy := 1, data := 21 }] := by
  decide

/-! ## Focus aggregation (C2, C3) -/

/-- C2. In every world (hence after every sequence of events) an enter event for the
target surface invokes the focus-enter callback exactly once when the number of
registered devices with the focus flag set is 0, and no callback otherwise; for
a registered device the aggregate is true afterwards. -/
theorem keyboard_handle_enter_fires_iff_no_focus (w : World) (data : Nat) :
    (keyboard_handle_enter w data w.target_surface).calls
      = w.calls ++ (if focus_count w = 0 then [Call.focus_enter w.global_focus_enter] else [])
    ∧ ((lookup w data).isSome →
        any_keyboard_has_focus (keyboard_handle_enter w data w.target_surface) = 1) := by
  refine ⟨keyboard_handle_enter_calls w data, ?_⟩
  intro hreg
  obtain ⟨k, hk⟩ := Option.isSome_iff_exists.1 hreg
  rcases lists_have_focus_cases (keyboard_handle_enter w data w.target_surface).keyboard_lists with h | h
  · exfalso
    have h0 := (any_keyboard_has_focus_eq_zero_iff _).1 h
    unfold focus_count at h0
    rw [List.countP_eq_zero] at h0
    have hmem : { k with has_focus := 1 } ∈ devices (keyboard_handle_enter w data w.target_surface) := by
      unfold keyboard_handle_enter
      simp only [ne_eq, not_true_eq_false, if_false]
      have hm : ∀ w1 : World, w1.keyboard_lists = w.keyboard_lists →
          { k with has_focus := 1 } ∈ devices (store w1 data { k with has_focus := 1 }) := by
        intro w1 e
        rw [devices_store, List.mem_map]
        refine ⟨k, ?_, ?_⟩
        · have := (lookup_some w data k hk).1
          unfold devices at *
          rw [e]
          exact this
        · simp [(lookup_some w data k hk).2]
      split_ifs with hany
      · rw [lookup_call, hk]
        exact hm _ rfl
      · rw [hk]
        exact hm _ rfl
    have := h0 _ hmem
    simp at this
  · exact h

/-- Witness of C2 on the example device: it is registered, no device has focus, and
the enter event invokes focus-enter once and sets the aggregate. -/
theorem keyboard_handle_enter_fires_iff_no_focus_witness :
    (lookup sample_device 21).isSome
    ∧ (keyboard_handle_enter sample_device 21 sample_device.target_surface).calls
        = sample_device.calls ++ [Call.focus_enter focus_callback.dummy_focus]
    ∧ any_keyboard_has_focus (keyboard_handle_enter sample_device 21 sample_device.target_surface) = 1 :=
  ⟨by decide,
   (keyboard_handle_enter_fires_iff_no_focus sample_device 21).1,
   (keyboard_handle_enter_fires_iff_no_focus sample_device 21).2 (by decide)⟩

/-- C3, as stated, fails: the example device does not have focus and no device has,
the aggregate is false before and after the leave event, and focus-leave is
invoked all the same. -/
theorem keyboard_handle_leave_fires_without_transition :
    any_keyboard_has_focus sample_device = 0
    ∧ any_keyboard_has_focus (keyboard_handle_leave sample_device 21 0) = 0
    ∧ (keyboard_handle_leave sample_device 21 0).calls
        = sample_device.calls ++ [Call.focus_leave focus_callback.dummy_focus] := by
  decide

theorem countP_replace_unfocused (data : Nat) (k : keyboard_state) (l : List keyboard_state)
    (h0 : k.has_focus = 0) :
    (l.map (fun s => if s.keyboard = data then k else s)).countP
        (fun s => decide (s.has_focus ≠ 0))
      = (l.filter (fun s => decide (s.keyboard ≠ data))).countP
          (fun s => decide (s.has_focus ≠ 0)) := by
  induction l with
  | nil => rfl
  | cons s l ih =>
    by_cases hs : s.keyboard = data
    · simp only [List.map_cons, hs, if_true, List.countP_cons, h0, ne_eq, not_true_eq_false,
        decide_False, List.filter_cons]
      simpa [hs] using ih
    · simp only [List.map_cons, hs, if_false, List.countP_cons, ne_eq, not_false_eq_true,
        decide_True, List.filter_cons, if_true]
      simpa [hs] using ih

theorem filter_replace_others (data : Nat) (k : keyboard_state) (l : List keyboard_state)
    (hk : k.keyboard = data) :
    (l.map (fun s => if s.keyboard = data then k else s)).filter
        (fun s => decide (s.keyboard ≠ data))
      = l.filter (fun s => decide (s.keyboard ≠ data)) := by
  induction l with
  | nil => rfl
  | cons s l ih =>
    by_cases hs : s.keyboard = data
    · simp only [List.map_cons, hs, if_true, List.filter_cons, hk, ne_eq, not_true_eq_false,
        decide_False]
      simpa using ih
    · simp only [List.map_cons, hs, if_false, List.filter_cons, ne_eq, not_false_eq_true,
        decide_True, if_true]
      rw [ih]

theorem focus_count_le_of_other (w : World) (data : Nat) :
    other_focus_count w data ≤ focus_count w := by
  unfold other_focus_count focus_count
  exact List.Sublist.countP_le _ (List.filter_sublist _)

/-- The leave event of a registered device for the target surface, with the test of
the aggregate expressed in the world before the event. -/
theorem keyboard_handle_leave_registered (w : World) (data : Nat) (k : keyboard_state)
    (hk : lookup w data = some k) :
    keyboard_handle_leave w data w.target_surface
      = if other_focus_count w data = 0
        then (store (stop_repeat w { k with has_focus := 0 }).1 data
                (stop_repeat w { k with has_focus := 0 }).2).call
              (Call.focus_leave w.global_focus_leave)
        else store (stop_repeat w { k with has_focus := 0 }).1 data
                (stop_repeat w { k with has_focus := 0 }).2 := by
  have hfc : focus_count (store (stop_repeat w { k with has_focus := 0 }).1 data
      (stop_repeat w { k with has_focus := 0 }).2) = other_focus_count w data := by
    unfold focus_count other_focus_count
    rw [devices_store]
    have hd : devices (stop_repeat w { k with has_focus := 0 }).1 = devices w := by
      rw [stop_repeat_fst]
      rfl
    rw [hd]
    exact countP_replace_unfocused data _ (devices w) rfl
  unfold keyboard_handle_leave
  simp only [ne_eq, not_true_eq_false, if_false]
  rw [hk]
  dsimp only
  by_cases h : other_focus_count w data = 0
  · have h2 : any_keyboard_has_focus (store (stop_repeat w { k with has_focus := 0 }).1 data
        (stop_repeat w { k with has_focus := 0 }).2) = 0 :=
      (any_keyboard_has_focus_eq_zero_iff _).2 (hfc.trans h)
    rw [if_pos h2, if_pos h]
    simp [store, stop_repeat_fst]
  · have h2 : ¬ any_keyboard_has_focus (store (stop_repeat w { k with has_focus := 0 }).1 data
        (stop_repeat w { k with has_focus := 0 }).2) = 0 := by
      intro hh
      exact h (hfc.symm.trans ((any_keyboard_has_focus_eq_zero_iff _).1 hh))
    rw [if_neg h2, if_neg h]

/-- C3, amended. A leave event of a registered device for the target surface clears
the focus flag of the device and stops its repeat (the recorded timer and
callback are removed and the recorded symbol and modifiers cleared), leaves the
other devices as they are, and invokes the focus-leave callback exactly once
when no other registered device has focus, and no callback otherwise. For a
device that had focus this is exactly the transition of the aggregate from true
to false: the leave of the last focused device invokes focus-leave, the leave of
a device while another has focus invokes nothing. For a device that did not have
focus while no device had focus, the aggregate stays false and focus-leave is
invoked all the same. -/
theorem keyboard_handle_leave_fires_iff_none_left (w : World) (data : Nat) (k : keyboard_state)
    (hk : lookup w data = some k) :
    lookup (keyboard_handle_leave w data w.target_surface) data
        = some { k with
            has_focus := 0
            repeat_ := { k.repeat_ with timer := 0, callback := 0, keysym := 0, modifiers := 0,
                                        keyboard := 0 } }
    ∧ (devices (keyboard_handle_leave w data w.target_surface)).filter
          (fun s => decide (s.keyboard ≠ data))
        = (devices w).filter (fun s => decide (s.keyboard ≠ data))
    ∧ (keyboard_handle_leave w data w.target_surface).sources = stopped_sources k w.sources
    ∧ (keyboard_handle_leave w data w.target_surface).wl_callbacks
        = stopped_callbacks k w.wl_callbacks
    ∧ focus_count (keyboard_handle_leave w data w.target_surface) = other_focus_count w data
    ∧ (keyboard_handle_leave w data w.target_surface).calls
        = w.calls ++ (if other_focus_count w data = 0
                      then [Call.focus_leave w.global_focus_leave] else [])
    ∧ (k.has_focus ≠ 0 →
        focus_count w ≠ 0
        ∧ ((keyboard_handle_leave w data w.target_surface).calls
              = w.calls ++ [Call.focus_leave w.global_focus_leave]
            ↔ focus_count (keyboard_handle_leave w data w.target_surface) = 0)
        ∧ ((keyboard_handle_leave w data w.target_surface).calls = w.calls
            ↔ focus_count (keyboard_handle_leave w data w.target_surface) ≠ 0))
    ∧ (focus_count w = 0 →
        focus_count (keyboard_handle_leave w data w.target_surface) = 0
        ∧ (keyboard_handle_leave w data w.target_surface).calls
            = w.calls ++ [Call.focus_leave w.global_focus_leave]) := by
  have hkd := (lookup_some w data k hk).2
  have hkm := (lookup_some w data k hk).1
  have e := keyboard_handle_leave_registered w data k hk
  have hl0 : lookup (stop_repeat w { k with has_focus := 0 }).1 data = some k := by
    rw [lookup_stop_repeat]
    exact hk
  have hl : lookup (store (stop_repeat w { k with has_focus := 0 }).1 data
      (stop_repeat w { k with has_focus := 0 }).2) data
      = some (stop_repeat w { k with has_focus := 0 }).2 :=
    lookup_store _ data k _ hl0 hkd
  have hdev : devices (store (stop_repeat w { k with has_focus := 0 }).1 data
      (stop_repeat w { k with has_focus := 0 }).2)
      = (devices w).map (fun s => if s.keyboard = data
          then (stop_repeat w { k with has_focus := 0 }).2 else s) := by
    rw [devices_store]
    have hd : devices (stop_repeat w { k with has_focus := 0 }).1 = devices w := by
      rw [stop_repeat_fst]
      rfl
    rw [hd]
  have hsrc : (stop_repeat w { k with has_focus := 0 }).1.sources = stopped_sources k w.sources := by
    rw [stop_repeat_fst]
    rfl
  have hcb : (stop_repeat w { k with has_focus := 0 }).1.wl_callbacks
      = stopped_callbacks k w.wl_callbacks := by
    rw [stop_repeat_fst]
    rfl
  have hfc : focus_count (store (stop_repeat w { k with has_focus := 0 }).1 data
      (stop_repeat w { k with has_focus := 0 }).2) = other_focus_count w data := by
    unfold focus_count other_focus_count
    rw [hdev]
    exact countP_replace_unfocused data _ (devices w) rfl
  have hcalls0 : (store (stop_repeat w { k with has_focus := 0 }).1 data
      (stop_repeat w { k with has_focus := 0 }).2).calls = w.calls := by
    simp [store, stop_repeat_fst]
  have h1 : lookup (keyboard_handle_leave w data w.target_surface) data
      = some (stop_repeat w { k with has_focus := 0 }).2 := by
    rw [e]
    split_ifs
    · rw [lookup_call]
      exact hl
    · exact hl
  have h2 : devices (keyboard_handle_leave w data w.target_surface)
      = (devices w).map (fun s => if s.keyboard = data
          then (stop_repeat w { k with has_focus := 0 }).2 else s) := by
    rw [e]
    split_ifs
    · exact hdev
    · exact hdev
  have h3 : (keyboard_handle_leave w data w.target_surface).sources = stopped_sources k w.sources := by
    rw [e]
    split_ifs
    · exact hsrc
    · exact hsrc
  have h4 : (keyboard_handle_leave w data w.target_surface).wl_callbacks
      = stopped_callbacks k w.wl_callbacks := by
    rw [e]
    split_ifs
    · exact hcb
    · exact hcb
  have h5 : focus_count (keyboard_handle_leave w data w.target_surface)
      = other_focus_count w data := by
    rw [e]
    split_ifs
    · rw [focus_count_call]
      exact hfc
    · exact hfc
  have h6 : (keyboard_handle_leave w data w.target_surface).calls
      = w.calls ++ (if other_focus_count w data = 0
                    then [Call.focus_leave w.global_focus_leave] else []) := by
    rw [e]
    split_ifs
    · rw [call_calls, hcalls0]
    · rw [hcalls0, List.append_nil]
  refine ⟨h1, ?_, h3, h4, h5, h6, ?_, ?_⟩
  · rw [h2]
    exact filter_replace_others data _ (devices w) hkd
  · intro hf
    have hpos : focus_count w ≠ 0 := by
      unfold focus_count
      intro h0
      rw [List.countP_eq_zero] at h0
      have := h0 k hkm
      simp [hf] at this
    refine ⟨hpos, ?_, ?_⟩
    · rw [h5, h6]
      constructor
      · intro hc
        by_contra hne
        rw [if_neg hne] at hc
        simp at hc
      · intro h0
        rw [if_pos h0]
    · rw [h5, h6]
      constructor
      · intro hc h0
        rw [if_pos h0] at hc
        simp at hc
      · intro hne
        rw [if_neg hne, List.append_nil]
  · intro h0
    have ho : other_focus_count w data = 0 :=
      Nat.le_zero.1 (h0 ▸ focus_count_le_of_other w data)
    refine ⟨h5.trans ho, ?_⟩
    rw [h6, if_pos ho]

/-- Witness of the amended C3: the example device is the only focused device; its
leave event clears its flag, takes the aggregate from true to false and invokes
focus-leave once. -/
theorem keyboard_handle_leave_fires_iff_none_left_witness :
    lookup sample_focused 21 = some sample_focused_state
    ∧ focus_count sample_focused ≠ 0
    ∧ focus_count (keyboard_handle_leave sample_focused 21 sample_focused.target_surface) = 0
    ∧ (lookup (keyboard_handle_leave sample_focused 21 sample_focused.target_surface) 21).map
          (fun s => s.has_focus) = some 0
    ∧ (keyboard_handle_leave sample_focused 21 sample_focused.target_surface).calls
        = sample_focused.calls ++ [Call.focus_leave sample_focused.global_focus_leave] :=
  ⟨by decide, by decide, by decide, by decide,
   ((keyboard_handle_leave_fires_iff_none_left sample_focused 21 sample_focused_state
      (by decide)).2.2.2.2.2.2.1 (by decide)).2.1.2 (by decide)⟩

/-! ## Seat removal (C4) -/

/-- C5. For a registered, focused device with a decoder whose recorded repeat key is
`key`, and whose pending timer and callback are the recorded ones, the release of
`key` invokes the release callback exactly once with the decoded symbol and
modifiers and leaves nothing pending for the device: no timeout source, no
synchronization callback, and the recorded timer and callback are cleared. -/
theorem keyboard_handle_key_release_disarms (X : Xkb) (w : World) (data key : Nat)
    (k : keyboard_state) (xs : XkbState)
    (hk : lookup w data = some k) (hx : k.xkb_state = some xs) (hf : k.has_focus ≠ 0)
    (harmed : k.repeat_.key = key) (ht : Tracked w data k) :
    (keyboard_handle_key X w data key 0).calls
        = w.calls ++ [Call.release w.global_release_cb (X.key_get_one_sym xs (add_u32 key 8))
                        (get_modifiers_state X xs)]
    ∧ pending_sources (keyboard_handle_key X w data key 0) data = []
    ∧ pending_callbacks (keyboard_handle_key X w data key 0) data = []
    ∧ ∃ k1, lookup (keyboard_handle_key X w data key 0) data = some k1
        ∧ k1.repeat_.timer = 0 ∧ k1.repeat_.callback = 0 := by
  rw [keyboard_handle_key_release_stop X w data key k xs hk hx hf (Or.inl harmed)]
  refine ⟨?_, ?_, ?_, ?_⟩
  · rw [store_calls, call_calls, stop_repeat_calls]
  · exact pending_sources_stop_repeat w data k ht
  · exact pending_callbacks_stop_repeat w data k ht
  · refine ⟨(stop_repeat w k).2, ?_, rfl, rfl⟩
    apply lookup_store _ _ k
    · rw [lookup_call, lookup_stop_repeat]
      exact hk
    · exact (lookup_some w data k hk).2

/-- Witness of C5 on the example device with key 30 armed. -/
theorem keyboard_handle_key_release_disarms_witness :
    lookup sample_armed 21 = some sample_armed_state
    ∧ pending_sources sample_armed 21 = [{ id := 1, interval := 400, data := 21 }]
    ∧ (keyboard_handle_key sample_xkb sample_armed 21 30 0).calls
        = sample_armed.calls ++ [Call.release key_callback.dummy_key 97 0]
    ∧ pending_sources (keyboard_handle_key sample_xkb sample_armed 21 30 0) 21 = []
    ∧ pending_callbacks (keyboard_handle_key sample_xkb sample_armed 21 30 0) 21 = [] :=
  ⟨by decide, by decide,
   (keyboard_handle_key_release_disarms sample_xkb sample_armed 21 30 sample_armed_state
      sample_xkb_state (by decide) (by decide) (by decide) (by decide) (by decide)).1,
   (keyboard_handle_key_release_disarms sample_xkb sample_armed 21 30 sample_armed_state
      sample_xkb_state (by decide) (by decide) (by decide) (by decide) (by decide)).2.1,
   (keyboard_handle_key_release_disarms sample_xkb sample_armed 21 30 sample_armed_state
      sample_xkb_state (by decide) (by decide) (by decide) (by decide) (by decide)).2.2.1⟩

/-- C6, as stated, fails: the example device is armed for key 30 (symbol 97); key 31
has a different code and decodes to the same symbol 97. Its press leaves the
timer of key 30 pending and the recorded key 30 in place, and the next round of
the repeat invokes the press callback for symbol 97 again. -/
theorem keyboard_handle_key_press_same_symbol_keeps_repeat :
    (lookup sample_armed 21).map (fun s => (s.has_focus, s.repeat_.key, s.repeat_.keysym)) = some (1, 30, 97)
    ∧ pending_sources sample_armed 21 = [{ id := 1, interval := 400, data := 21 }]
    ∧ pending_sources (keyboard_handle_key sample_xkb sample_armed 21 31 1) 21
        = [{ id := 1, interval := 400, data := 21 }]
    ∧ (lookup (keyboard_handle_key sample_xkb sample_armed 21 31 1) 21).map (fun s => s.repeat_.key)
        = some 30
    ∧ (repeat_round (keyboard_handle_key sample_xkb sample_armed 21 31 1) 21).calls
        = (keyboard_handle_key sample_xkb sample_armed 21 31 1).calls
            ++ [Call.press key_callback.dummy_key 97 0] := by
  decide

/-- C6, amended. For a registered, focused device with a decoder, whose pending
timer and callback are the recorded ones, the press of a key whose decoded
symbol differs from the recorded symbol removes every timeout source the device
had pending and leaves no synchronization callback pending; what is pending for
the device afterwards is at most the one new timer of this press, and the
recorded symbol is that of the new key or none. -/
theorem keyboard_handle_key_press_cancels_other_symbol (X : Xkb) (w : World) (data key : Nat)
    (k : keyboard_state) (xs : XkbState)
    (hk : lookup w data = some k) (hx : k.xkb_state = some xs) (hf : k.has_focus ≠ 0)
    (ht : Tracked w data k) (hfresh : ∀ t ∈ w.sources, t.id ≤ w.last_source)
    (hs : k.repeat_.keysym ≠ X.key_get_one_sym xs (add_u32 key 8)) :
    (∀ t ∈ w.sources, t.data = data → t ∉ (keyboard_handle_key X w data key 1).sources)
    ∧ pending_callbacks (keyboard_handle_key X w data key 1) data = []
    ∧ pending_sources (keyboard_handle_key X w data key 1) data
        = (if 0 < k.repeat_.rate ∧ X.key_get_one_sym xs (add_u32 key 8) ≠ 0
              ∧ X.keymap_key_repeats k.keymap (add_u32 key 8) ≠ 0
           then [{ id := w.last_source + 1, interval := to_guint k.repeat_.delay, data := data }]
           else [])
    ∧ ∃ k1, lookup (keyboard_handle_key X w data key 1) data = some k1
        ∧ k1.repeat_.callback = 0
        ∧ (k1.repeat_.keysym = X.key_get_one_sym xs (add_u32 key 8) ∨ k1.repeat_.keysym = 0) := by
  rw [keyboard_handle_key_press_other X w data key k xs hk hx hf hs]
  have hkd := (lookup_some w data k hk).2
  have hl : lookup (stop_repeat w k).1 data = some k := by
    rw [lookup_stop_repeat]
    exact hk
  have hps := pending_sources_stop_repeat w data k ht
  have hpc := pending_callbacks_stop_repeat w data k ht
  unfold pending_sources at hps
  unfold pending_callbacks at hpc
  have hls : (stop_repeat w k).1.last_source = w.last_source := by
    rw [stop_repeat_fst]
  split_ifs with harm
  · have hsrc : ∀ (c : Call) (k1 : keyboard_state),
        (store (g_timeout_add ((stop_repeat w k).1.call c) (to_guint k.repeat_.delay) data).1
            data k1).sources
          = (stop_repeat w k).1.sources
            ++ [{ id := w.last_source + 1, interval := to_guint k.repeat_.delay, data := data }] := by
      intro c k1
      simp [store, g_timeout_add, World.call, hls]
    refine ⟨?_, ?_, ?_, ?_⟩
    · intro t hmem hd hin
      rw [hsrc, List.mem_append] at hin
      rcases hin with h | h
      · exact not_mem_sources_stop_repeat w data k ht t hd h
      · have hid : t.id = w.last_source + 1 := by
          rw [List.mem_singleton.1 h]
        have := hfresh t hmem
        omega
    · exact hpc
    · unfold pending_sources
      rw [hsrc, List.filter_append, hps]
      simp
    · refine ⟨{ k with repeat_ :=
          { k.repeat_ with keysym := X.key_get_one_sym xs (add_u32 key 8), key := key,
                           modifiers := get_modifiers_state X xs, keyboard := data,
                           timer := w.last_source + 1, callback := 0 } }, ?_, rfl, Or.inl rfl⟩
      apply lookup_store _ _ k
      · exact hl
      · exact hkd
  · refine ⟨?_, ?_, ?_, ?_⟩
    · intro t _ hd hin
      exact not_mem_sources_stop_repeat w data k ht t hd hin
    · exact hpc
    · exact hps
    · refine ⟨(stop_repeat w k).2, ?_, rfl, Or.inr rfl⟩
      apply lookup_store _ _ k
      · exact hl
      · exact hkd

/-- Witness of the amended C6: on the example device armed for key 30, the press of
key 40 (symbol 148) replaces the pending timer 1 by the new timer 2. -/
theorem keyboard_handle_key_press_cancels_other_symbol_witness :
    lookup sample_armed 21 = some sample_armed_state
    ∧ pending_sources sample_armed 21 = [{ id := 1, interval := 400, data := 21 }]
    ∧ sample_armed_state.repeat_.keysym ≠ sample_xkb.key_get_one_sym sample_xkb_state (add_u32 40 8)
    ∧ pending_sources (keyboard_handle_key sample_xkb sample_armed 21 40 1) 21
        = [{ id := 2, interval := 400, data := 21 }]
    ∧ pending_callbacks (keyboard_handle_key sample_xkb sample_armed 21 40 1) 21 = [] :=
  ⟨by decide, by decide, by decide,
   (keyboard_handle_key_press_cancels_other_symbol sample_xkb sample_armed 21 40 sample_armed_state
      sample_xkb_state (by decide) (by decide) (by decide) (by decide) (by decide) (by decide)).2.2.1,
   (keyboard_handle_key_press_cancels_other_symbol sample_xkb sample_armed 21 40 sample_armed_state
      sample_xkb_state (by decide) (by decide) (by decide) (by decide) (by decide) (by decide)).2.1⟩

/-! ## Repeat cadence (C7) -/

/-- C7. A press that arms the repeat (rate `R > 0`, a delay `D` with
`0 ≤ D < 2^31`, a symbol that is not 0 and not the recorded one, a code that
repeats) invokes the press callback once and leaves exactly one timer of `D` ms
pending for the device. After `n` rounds of the repeat the press callback has
been invoked `n` more times with the symbol and modifiers of the press, and the
one pending timer has interval `D` for `n = 0` and `1000 / R` afterwards. The
firing of that timer invokes no callback and requests exactly one
synchronization callback; the resolution of that callback invokes the press
callback exactly once and schedules one timer of `1000 / R` ms. -/
theorem repeat_cadence (X : Xkb) (w : World) (data key : Nat) (k : keyboard_state)
    (xs : XkbState) (n : Nat)
    (hk : lookup w data = some k) (hx : k.xkb_state = some xs) (hf : k.has_focus ≠ 0)
    (ht : Tracked w data k)
    (hR : 0 < k.repeat_.rate)
    (hD0 : 0 ≤ k.repeat_.delay) (hD1 : k.repeat_.delay < 2147483648)
    (hs : k.repeat_.keysym ≠ X.key_get_one_sym xs (add_u32 key 8))
    (hs0 : X.key_get_one_sym xs (add_u32 key 8) ≠ 0)
    (hr : X.keymap_key_repeats k.keymap (add_u32 key 8) ≠ 0) :
    (keyboard_handle_key X w data key 1).calls
        = w.calls ++ [Call.press w.global_press_cb (X.key_get_one_sym xs (add_u32 key 8))
                        (get_modifiers_state X xs)]
    ∧ pending_sources (keyboard_handle_key X w data key 1) data
        = [{ id := w.last_source + 1, interval := k.repeat_.delay.toNat, data := data }]
    ∧ pending_callbacks (keyboard_handle_key X w data key 1) data = []
    ∧ (repeat_rounds data n (keyboard_handle_key X w data key 1)).calls
        = (keyboard_handle_key X w data key 1).calls
          ++ List.replicate n (Call.press w.global_press_cb (X.key_get_one_sym xs (add_u32 key 8))
                                (get_modifiers_state X xs))
    ∧ (pending_sources (repeat_rounds data n (keyboard_handle_key X w data key 1)) data).map
          (fun t => t.interval)
        = [if n = 0 then k.repeat_.delay.toNat else (1000 / k.repeat_.rate).toNat]
    ∧ pending_callbacks (repeat_rounds data n (keyboard_handle_key X w data key 1)) data = []
    ∧ ∀ src ∈ pending_sources (repeat_rounds data n (keyboard_handle_key X w data key 1)) data,
        (dispatch_timeout (repeat_rounds data n (keyboard_handle_key X w data key 1)) src).calls
          = (repeat_rounds data n (keyboard_handle_key X w data key 1)).calls
        ∧ pending_sources
            (dispatch_timeout (repeat_rounds data n (keyboard_handle_key X w data key 1)) src) data
          = []
        ∧ (pending_callbacks
            (dispatch_timeout (repeat_rounds data n (keyboard_handle_key X w data key 1)) src)
            data).length = 1
        ∧ ∀ c ∈ pending_callbacks
              (dispatch_timeout (repeat_rounds data n (keyboard_handle_key X w data key 1)) src) data,
            (sync_callback
                (dispatch_timeout (repeat_rounds data n (keyboard_handle_key X w data key 1)) src)
                c.data c.proxy).calls
              = (repeat_rounds data n (keyboard_handle_key X w data key 1)).calls
                ++ [Call.press w.global_press_cb (X.key_get_one_sym xs (add_u32 key 8))
                      (get_modifiers_state X xs)]
            ∧ (pending_sources
                (sync_callback
                  (dispatch_timeout (repeat_rounds data n (keyboard_handle_key X w data key 1)) src)
                  c.data c.proxy) data).map (fun t => t.interval)
              = [(1000 / k.repeat_.rate).toNat] := by
  have hkd := (lookup_some w data k hk).2
  have hD : to_guint k.repeat_.delay = k.repeat_.delay.toNat :=
    to_guint_of_nonneg _ hD0 (by omega)
  have hls : (stop_repeat w k).1.last_source = w.last_source := by
    rw [stop_repeat_fst]
  have hgp : (stop_repeat w k).1.global_press_cb = w.global_press_cb := by
    rw [stop_repeat_fst]
  have hps := pending_sources_stop_repeat w data k ht
  have hpc := pending_callbacks_stop_repeat w data k ht
  have hl : lookup (stop_repeat w k).1 data = some k := by
    rw [lookup_stop_repeat]
    exact hk
  generalize hw1 : keyboard_handle_key X w data key 1 = w1
  have e := keyboard_handle_key_press_other X w data key k xs hk hx hf hs
  rw [if_pos ⟨hR, hs0, hr⟩, hw1] at e
  have c1 : w1.calls = w.calls ++ [Call.press w.global_press_cb
      (X.key_get_one_sym xs (add_u32 key 8)) (get_modifiers_state X xs)] := by
    rw [e]
    simp [store, g_timeout_add, World.call, stop_repeat_calls]
  have g1 : w1.global_press_cb = w.global_press_cb := by
    rw [e]
    simp [store, g_timeout_add, World.call, hgp]
  have s1 : pending_sources w1 data
      = [{ id := w.last_source + 1, interval := k.repeat_.delay.toNat, data := data }] := by
    unfold pending_sources at hps ⊢
    rw [e]
    simp [store, g_timeout_add, World.call, hls, hD, List.filter_append, hps]
  have p1 : pending_callbacks w1 data = [] := by
    rw [e]
    exact hpc
  have l1 : lookup w1 data = some
      { k with repeat_ :=
        { k.repeat_ with keysym := X.key_get_one_sym xs (add_u32 key 8), key := key,
                         modifiers := get_modifiers_state X xs, keyboard := data,
                         timer := w.last_source + 1, callback := 0 } } := by
    rw [e]
    exact lookup_store _ data k _ hl hkd
  have sch : Scheduled w1 data (X.key_get_one_sym xs (add_u32 key 8)) (get_modifiers_state X xs)
      k.repeat_.rate k.repeat_.delay.toNat := ⟨_, l1, rfl, rfl, rfl, s1, p1⟩
  obtain ⟨rc, rs⟩ := repeat_rounds_scheduled data _ _ k.repeat_.rate hR n w1 _ sch
  rw [g1] at rc
  obtain ⟨kn, ln, n1, n2, n3, nps, npc⟩ := rs
  have gn : (repeat_rounds data n w1).global_press_cb = w.global_press_cb := by
    clear rc ln n1 n2 n3 nps npc kn
    have : ∀ (m : Nat) (v : World) (iv : Nat),
        Scheduled v data (X.key_get_one_sym xs (add_u32 key 8)) (get_modifiers_state X xs)
          k.repeat_.rate iv →
        (repeat_rounds data m v).global_press_cb = v.global_press_cb := by
      intro m
      induction m with
      | zero => intro v iv _; rfl
      | succ m ih =>
        intro v iv hv
        obtain ⟨_, rg, rs⟩ := repeat_round_scheduled v data _ _ _ iv hR hv
        show (repeat_rounds data m (repeat_round v data)).global_press_cb = _
        rw [ih _ _ rs, rg]
    rw [this n w1 _ sch, g1]
  refine ⟨c1, s1, p1, rc, ?_, npc, ?_⟩
  · rw [nps]
    rfl
  · intro src hsrc
    rw [nps, List.mem_singleton] at hsrc
    subst hsrc
    obtain ⟨dc, dg, _, dps, dpc, dl⟩ := dispatch_timeout_scheduled _ data kn _ ln nps npc
    refine ⟨dc, dps, by rw [dpc]; rfl, ?_⟩
    intro c hc
    rw [dpc, List.mem_singleton] at hc
    subst hc
    have hR1 : 0 < ({ kn with repeat_ := { kn.repeat_ with
        callback := (repeat_rounds data n w1).last_proxy + 1, timer := 0 } }
        : keyboard_state).repeat_.rate := by
      show 0 < kn.repeat_.rate
      rw [n3]
      exact hR
    obtain ⟨sc, _, sps, _, _⟩ := sync_callback_requested _ data _ _ dl hR1 dps dpc
    refine ⟨?_, ?_⟩
    · rw [sc, dc, dg, gn]
      show (repeat_rounds data n w1).calls
          ++ [Call.press w.global_press_cb kn.repeat_.keysym kn.repeat_.modifiers] = _
      rw [n1, n2]
    · rw [sps]
      show [to_guint (1000 / kn.repeat_.rate)] = _
      rw [n3, to_guint_period _ hR]

/-- Witness of C7 for rate 25 and delay 400: the timer of the press has 400 ms, the
timer pending after three rounds has 40 ms, and three rounds add three press callbacks. -/
theorem repeat_cadence_witness :
    lookup sample_focused 21 = some sample_focused_state
    ∧ sample_focused_state.repeat_.rate = 25 ∧ sample_focused_state.repeat_.delay = 400
    ∧ (keyboard_handle_key sample_xkb sample_focused 21 30 1).calls
        = sample_focused.calls ++ [Call.press key_callback.dummy_key 97 0]
    ∧ (pending_sources (repeat_rounds 21 0 (keyboard_handle_key sample_xkb sample_focused 21 30 1)) 21).map
          (fun t => t.interval) = [400]
    ∧ (pending_sources (repeat_rounds 21 3 (keyboard_handle_key sample_xkb sample_focused 21 30 1)) 21).map
          (fun t => t.interval) = [40]
    ∧ (repeat_rounds 21 3 (keyboard_handle_key sample_xkb sample_focused 21 30 1)).calls
        = (keyboard_handle_key sample_xkb sample_focused 21 30 1).calls
          ++ List.replicate 3 (Call.press key_callback.dummy_key 97 0) :=
  ⟨by decide, by decide, by decide,
   (repeat_cadence sample_xkb sample_focused 21 30 sample_focused_state sample_xkb_state 0
      (by decide) (by decide) (by decide) (by decide) (by decide) (by decide) (by decide)
      (by decide) (by decide) (by decide)).1,
   (repeat_cadence sample_xkb sample_focused 21 30 sample_focused_state sample_xkb_state 0
      (by decide) (by decide) (by decide) (by decide) (by decide) (by decide) (by decide)
      (by decide) (by decide) (by decide)).2.2.2.2.1,
   (repeat_cadence sample_xkb sample_focused 21 30 sample_focused_state sample_xkb_state 3
      (by decide) (by decide) (by decide) (by decide) (by decide) (by decide) (by decide)
      (by decide) (by decide) (by decide)).2.2.2.2.1,
   (repeat_cadence sample_xkb sample_focused 21 30 sample_focused_state sample_xkb_state 3
      (by decide) (by decide) (by decide) (by decide) (by decide) (by decide) (by decide)
      (by decide) (by decide) (by decide)).2.2.2.1⟩

/-! ## Seat capabilities (C8) -/

/-- C9. For a registered device without a decoder context, or without focus, a key
event with any code and any action leaves the whole world unchanged: no
callback is invoked and no state is written. A keymap event with a format other
than the text format leaves the world unchanged as well, so such a device stays
without a decoder. -/
theorem keyboard_handle_key_inert (X : Xkb) (w : World) (data key state : Nat) (k : keyboard_state)
    (hk : lookup w data = some k) (h : k.xkb_state = none ∨ k.has_focus = 0) :
    keyboard_handle_key X w data key state = w
    ∧ ∀ (format : Nat) (mapped : Bool) (context keymap : Nat) (st : Option XkbState),
        format ≠ WL_KEYBOARD_KEYMAP_FORMAT_XKB_V1 →
          keyboard_handle_keymap w data format mapped context keymap st = w := by
  constructor
  · unfold keyboard_handle_key
    rw [hk]
    dsimp only
    rcases h with h | h
    · rw [h]
    · cases k.xkb_state with
      | none => rfl
      | some xs =>
        dsimp only
        rw [if_pos h]
  · intro format mapped context keymap st hf
    unfold keyboard_handle_keymap
    rw [if_pos hf]

/-- Witness of C9: the example device before its enter event has a decoder and no focus. -/
theorem keyboard_handle_key_inert_witness :
    lookup sample_device 21 ≠ none
    ∧ keyboard_handle_key sample_xkb sample_device 21 30 1 = sample_device :=
  ⟨by decide,
   (keyboard_handle_key_inert sample_xkb sample_device 21 30 1
      ((devices sample_device).head (by decide)) (by decide) (by decide)).1⟩

/-! ## Callback slots (C10) -/

/-- C10, evaluated at the failing input. `initialize` called with a null press
callback stores the null pointer in `global_press_cb`, not `dummy_key`; the next
key press on a focused device calls through the null pointer. -/
theorem initialize_stores_null_callback :
    (initialize_kbd World.start 0 key_callback.null (key_callback.app 2)
        (focus_callback.app 3) (focus_callback.app 4) 5 6).global_press_cb = key_callback.null
    ∧ (keyboard_handle_key sample_xkb sample_null_press 21 30 1).calls
        = [Call.focus_enter (focus_callback.app 3), Call.press key_callback.null 97 0] := by
  decide

/-! ## Lemmas for the press postcondition -/

theorem keyboard_handle_key_press_same (X : Xkb) (w : World) (data key : Nat) (k : keyboard_state)
    (xs : XkbState) (hk : lookup w data = some k) (hx : k.xkb_state = some xs)
    (hf : k.has_focus ≠ 0) (hs : k.repeat_.keysym = X.key_get_one_sym xs (add_u32 key 8)) :
    keyboard_handle_key X w data key 1 =
      store (w.call (Call.press w.global_press_cb (X.key_get_one_sym xs (add_u32 key 8))
                      (get_modifiers_state X xs))) data k := by
  unfold keyboard_handle_key
  rw [hk]
  dsimp only
  rw [hx]
  dsimp only
  rw [if_neg hf, if_pos rfl, if_neg (not_not.2 hs)]
  dsimp only
  rw [if_neg (fun h => h.2.1 hs)]

theorem keyboard_handle_key_release_keep (X : Xkb) (w : World) (data key : Nat) (k : keyboard_state)
    (xs : XkbState) (hk : lookup w data = some k) (hx : k.xkb_state = some xs)
    (hf : k.has_focus ≠ 0)
    (hc : ¬ (k.repeat_.key = key ∨ (k.repeat_.key ≠ 0 ∧ get_modifiers_state X xs ≠ 0))) :
    keyboard_handle_key X w data key 0 =
      store
        (w.call (Call.release w.global_release_cb (X.key_get_one_sym xs (add_u32 key 8))
                  (get_modifiers_state X xs)))
        data k := by
  unfold keyboard_handle_key
  rw [hk]
  dsimp only
  rw [hx]
  dsimp only
  rw [if_neg hf, if_neg (by decide), if_pos rfl, if_neg hc]

/-! ## Other surfaces (C17) -/

/-- C17. An enter or a leave event for a surface other than the target surface
leaves the whole world unchanged: the focus flag and the repeat state of the
device, what is pending, every other device, and the trace of callbacks. -/
theorem focus_events_of_other_surface_dropped (w : World) (data surface : Nat)
    (h : surface ≠ w.target_surface) :
    keyboard_handle_enter w data surface = w ∧ keyboard_handle_leave w data surface = w := by
  constructor
  · unfold keyboard_handle_enter
    rw [if_pos h]
  · unfold keyboard_handle_leave
    rw [if_pos h]

/-- Witness of C17: surface 7 is not the target surface 0 of the armed example world. -/
theorem focus_events_of_other_surface_dropped_witness :
    (7 : Nat) ≠ sample_armed.target_surface
    ∧ keyboard_handle_enter sample_armed 21 7 = sample_armed
    ∧ keyboard_handle_leave sample_armed 21 7 = sample_armed :=
  ⟨by decide, focus_events_of_other_surface_dropped sample_armed 21 7 (by decide)⟩

/-! ## Disarm (C18) -/

/-- C18, as stated, fails: `stop_repeat` on the armed example device leaves the
recorded key code 30 in place. -/
theorem stop_repeat_keeps_key_code :
    sample_armed_state.repeat_.key = 30
    ∧ (stop_repeat sample_armed sample_armed_state).2.repeat_.key = 30
    ∧ (stop_repeat sample_armed sample_armed_state).2.repeat_.keysym = 0 := by
  decide

/-- C18, amended. `stop_repeat` clears the recorded timer, callback, symbol and
modifiers and leaves the recorded key code, the rate, the delay and the focus
flag as they were; when the state records what is pending for the device,
nothing is pending for it afterwards; a second application changes nothing. -/
theorem stop_repeat_returns_to_idle (w : World) (data : Nat) (k : keyboard_state) :
    (stop_repeat w k).2.repeat_.timer = 0
    ∧ (stop_repeat w k).2.repeat_.callback = 0
    ∧ (stop_repeat w k).2.repeat_.keysym = 0
    ∧ (stop_repeat w k).2.repeat_.modifiers = 0
    ∧ (stop_repeat w k).2.repeat_.key = k.repeat_.key
    ∧ (stop_repeat w k).2.repeat_.rate = k.repeat_.rate
    ∧ (stop_repeat w k).2.repeat_.delay = k.repeat_.delay
    ∧ (stop_repeat w k).2.has_focus = k.has_focus
    ∧ (Tracked w data k →
        pending_sources (stop_repeat w k).1 data = []
        ∧ pending_callbacks (stop_repeat w k).1 data = [])
    ∧ stop_repeat (stop_repeat w k).1 (stop_repeat w k).2 = stop_repeat w k := by
  refine ⟨rfl, rfl, rfl, rfl, rfl, rfl, rfl, rfl, ?_, ?_⟩
  · intro ht
    exact ⟨pending_sources_stop_repeat w data k ht, pending_callbacks_stop_repeat w data k ht⟩
  · rfl

/-- Witness of the amended C18 on the armed example device. -/
theorem stop_repeat_returns_to_idle_witness :
    Tracked sample_armed 21 sample_armed_state
    ∧ pending_sources sample_armed 21 = [{ id := 1, interval := 400, data := 21 }]
    ∧ pending_sources (stop_repeat sample_armed sample_armed_state).1 21 = []
    ∧ pending_callbacks (stop_repeat sample_armed sample_armed_state).1 21 = [] :=
  ⟨by decide, by decide,
   ((stop_repeat_returns_to_idle sample_armed 21 sample_armed_state).2.2.2.2.2.2.2.2.1
      (by decide)).1,
   ((stop_repeat_returns_to_idle sample_armed 21 sample_armed_state).2.2.2.2.2.2.2.2.1
      (by decide)).2⟩

/-! ## Press postcondition (C15) -/

/-- C15, as stated, fails: the example device is armed for symbol 97, its rate is 25
and every code repeats; key 40 decodes to the symbol 0, which differs from the
armed symbol. Its press invokes the press callback and disarms the old repeat,
and no new repeat is armed: nothing is pending afterwards. -/
theorem keyboard_handle_key_press_no_symbol_not_armed :
    keyboard_handle_key sample_xkb_nosym sample_focused 21 30 1 = sample_armed
    ∧ lookup sample_armed 21 = some sample_armed_state
    ∧ sample_xkb_nosym.key_get_one_sym sample_xkb_state (add_u32 40 8) = 0
    ∧ sample_xkb_nosym.keymap_key_repeats sample_armed_state.keymap (add_u32 40 8) = 1
    ∧ sample_armed_state.repeat_.rate = 25
    ∧ (keyboard_handle_key sample_xkb_nosym sample_armed 21 40 1).calls
        = sample_armed.calls ++ [Call.press key_callback.dummy_key 0 0]
    ∧ pending_sources (keyboard_handle_key sample_xkb_nosym sample_armed 21 40 1) 21 = []
    ∧ pending_callbacks (keyboard_handle_key sample_xkb_nosym sample_armed 21 40 1) 21 = [] := by
  decide

/-- C15, amended. For a registered, focused device with a decoder whose state
records what is pending for it, and a delay `D` with `0 ≤ D < 2^31`, a press
invokes the press callback exactly once with the decoded symbol and modifiers
and no other callback. When the symbol is the recorded one, the state of the
device and everything pending are unchanged. Otherwise the previous repeat is
disarmed, and the repeat is armed for this code, symbol and modifiers with one
timer of `D` ms exactly when the rate is positive, the symbol is not 0 and the
code repeats; in the other case nothing is pending and no symbol is recorded. -/
theorem keyboard_handle_key_press_postcondition (X : Xkb) (w : World) (data key : Nat)
    (k : keyboard_state) (xs : XkbState)
    (hk : lookup w data = some k) (hx : k.xkb_state = some xs) (hf : k.has_focus ≠ 0)
    (ht : Tracked w data k)
    (hD0 : 0 ≤ k.repeat_.delay) (hD1 : k.repeat_.delay < 2147483648) :
    (keyboard_handle_key X w data key 1).calls
        = w.calls ++ [Call.press w.global_press_cb (X.key_get_one_sym xs (add_u32 key 8))
                        (get_modifiers_state X xs)]
    ∧ (k.repeat_.keysym = X.key_get_one_sym xs (add_u32 key 8) →
        (keyboard_handle_key X w data key 1).sources = w.sources
        ∧ (keyboard_handle_key X w data key 1).wl_callbacks = w.wl_callbacks
        ∧ lookup (keyboard_handle_key X w data key 1) data = some k)
    ∧ (k.repeat_.keysym ≠ X.key_get_one_sym xs (add_u32 key 8) →
        pending_callbacks (keyboard_handle_key X w data key 1) data = []
        ∧ ((0 < k.repeat_.rate ∧ X.key_get_one_sym xs (add_u32 key 8) ≠ 0
              ∧ X.keymap_key_repeats k.keymap (add_u32 key 8) ≠ 0) →
            pending_sources (keyboard_handle_key X w data key 1) data
              = [{ id := w.last_source + 1, interval := k.repeat_.delay.toNat, data := data }]
            ∧ lookup (keyboard_handle_key X w data key 1) data
              = some { k with repeat_ :=
                  { k.repeat_ with keysym := X.key_get_one_sym xs (add_u32 key 8), key := key,
                                   modifiers := get_modifiers_state X xs, keyboard := data,
                                   timer := w.last_source + 1, callback := 0 } })
        ∧ (¬ (0 < k.repeat_.rate ∧ X.key_get_one_sym xs (add_u32 key 8) ≠ 0
              ∧ X.keymap_key_repeats k.keymap (add_u32 key 8) ≠ 0) →
            pending_sources (keyboard_handle_key X w data key 1) data = []
            ∧ lookup (keyboard_handle_key X w data key 1) data = some (stop_repeat w k).2
            ∧ (stop_repeat w k).2.repeat_.keysym = 0)) := by
  have hkd := (lookup_some w data k hk).2
  have hD : to_guint k.repeat_.delay = k.repeat_.delay.toNat :=
    to_guint_of_nonneg _ hD0 (by omega)
  have hls : (stop_repeat w k).1.last_source = w.last_source := by
    rw [stop_repeat_fst]
  have hl : lookup (stop_repeat w k).1 data = some k := by
    rw [lookup_stop_repeat]
    exact hk
  have hps := pending_sources_stop_repeat w data k ht
  have hpc := pending_callbacks_stop_repeat w data k ht
  by_cases hs : k.repeat_.keysym = X.key_get_one_sym xs (add_u32 key 8)
  · rw [keyboard_handle_key_press_same X w data key k xs hk hx hf hs]
    refine ⟨rfl, ?_, ?_⟩
    · intro _
      exact ⟨rfl, rfl, lookup_store _ data k k hk hkd⟩
    · intro hne
      exact absurd hs hne
  · rw [keyboard_handle_key_press_other X w data key k xs hk hx hf hs]
    by_cases harm : 0 < k.repeat_.rate ∧ X.key_get_one_sym xs (add_u32 key 8) ≠ 0
        ∧ X.keymap_key_repeats k.keymap (add_u32 key 8) ≠ 0
    · rw [if_pos harm]
      refine ⟨?_, ?_, ?_⟩
      · simp [store, g_timeout_add, World.call, stop_repeat_calls]
      · intro he
        exact absurd he hs
      · intro _
        refine ⟨hpc, ?_, ?_⟩
        · intro _
          refine ⟨?_, ?_⟩
          · unfold pending_sources at hps ⊢
            simp [store, g_timeout_add, World.call, hls, hD, List.filter_append, hps]
          · exact lookup_store _ data k _ hl hkd
        · intro hn
          exact absurd harm hn
    · rw [if_neg harm]
      refine ⟨?_, ?_, ?_⟩
      · simp [store, World.call, stop_repeat_calls]
      · intro he
        exact absurd he hs
      · intro _
        refine ⟨hpc, ?_, ?_⟩
        · intro ha
          exact absurd ha harm
        · intro _
          exact ⟨hps, lookup_store _ data k _ hl hkd, rfl⟩

/-- Witness of the amended C15: the press of key 40 (symbol 148) on the example
device armed for symbol 97 arms the new repeat with one timer of 400 ms. -/
theorem keyboard_handle_key_press_postcondition_witness :
    lookup sample_armed 21 = some sample_armed_state
    ∧ sample_armed_state.repeat_.keysym ≠ sample_xkb.key_get_one_sym sample_xkb_state (add_u32 40 8)
    ∧ (keyboard_handle_key sample_xkb sample_armed 21 40 1).calls
        = sample_armed.calls ++ [Call.press key_callback.dummy_key 148 0]
    ∧ pending_sources (keyboard_handle_key sample_xkb sample_armed 21 40 1) 21
        = [{ id := 2, interval := 400, data := 21 }] :=
  ⟨by decide, by decide,
   (keyboard_handle_key_press_postcondition sample_xkb sample_armed 21 40 sample_armed_state
      sample_xkb_state (by decide) (by decide) (by decide) (by decide) (by decide) (by decide)).1,
   (((keyboard_handle_key_press_postcondition sample_xkb sample_armed 21 40 sample_armed_state
      sample_xkb_state (by decide) (by decide) (by decide) (by decide) (by decide)
      (by decide)).2.2 (by decide)).2.1 (by decide)).1⟩

/-! ## Release with modifiers (C16) -/

/-- C16, as stated, fails: the example device is armed for the key code 0 and Shift
is active; the release of key 5 carries the modifier set 1, invokes the release
callback, and leaves the timer of the armed repeat pending. -/
theorem keyboard_handle_key_release_keeps_repeat_of_code_zero :
    lookup sample_armed_zero 21 = some sample_armed_zero_state
    ∧ pending_sources sample_armed_zero 21 = [{ id := 1, interval := 400, data := 21 }]
    ∧ get_modifiers_state sample_xkb sample_xkb_state_shift = 1
    ∧ (keyboard_handle_key sample_xkb sample_armed_zero 21 5 0).calls
        = sample_armed_zero.calls ++ [Call.release key_callback.dummy_key 113 1]
    ∧ pending_sources (keyboard_handle_key sample_xkb sample_armed_zero 21 5 0) 21
        = [{ id := 1, interval := 400, data := 21 }] := by
  decide

/-- C16, amended. For a registered, focused device with a decoder whose state
records what is pending for it and whose recorded key code is not 0, the
release of any key whose decoded modifier set is not empty invokes the release
callback exactly once with the decoded symbol and modifiers and leaves nothing
pending for the device. -/
theorem keyboard_handle_key_release_with_modifiers_disarms (X : Xkb) (w : World)
    (data key : Nat) (k : keyboard_state) (xs : XkbState)
    (hk : lookup w data = some k) (hx : k.xkb_state = some xs) (hf : k.has_focus ≠ 0)
    (ht : Tracked w data k)
    (hkey : k.repeat_.key ≠ 0) (hm : get_modifiers_state X xs ≠ 0) :
    (keyboard_handle_key X w data key 0).calls
        = w.calls ++ [Call.release w.global_release_cb (X.key_get_one_sym xs (add_u32 key 8))
                        (get_modifiers_state X xs)]
    ∧ pending_sources (keyboard_handle_key X w data key 0) data = []
    ∧ pending_callbacks (keyboard_handle_key X w data key 0) data = []
    ∧ ∃ k1, lookup (keyboard_handle_key X w data key 0) data = some k1
        ∧ k1.repeat_.timer = 0 ∧ k1.repeat_.callback = 0 := by
  rw [keyboard_handle_key_release_stop X w data key k xs hk hx hf (Or.inr ⟨hkey, hm⟩)]
  refine ⟨?_, ?_, ?_, ?_⟩
  · rw [store_calls, call_calls, stop_repeat_calls]
  · exact pending_sources_stop_repeat w data k ht
  · exact pending_callbacks_stop_repeat w data k ht
  · refine ⟨(stop_repeat w k).2, ?_, rfl, rfl⟩
    apply lookup_store _ _ k
    · rw [lookup_call, lookup_stop_repeat]
      exact hk
    · exact (lookup_some w data k hk).2

/-- Witness of the amended C16: key 30 is armed on the example device, Shift is
active, and the release of key 5 disarms the repeat. -/
theorem keyboard_handle_key_release_with_modifiers_disarms_witness :
    lookup sample_armed_shift 21 = some sample_armed_shift_state
    ∧ pending_sources sample_armed_shift 21 = [{ id := 1, interval := 400, data := 21 }]
    ∧ (keyboard_handle_key sample_xkb sample_armed_shift 21 5 0).calls
        = sample_armed_shift.calls ++ [Call.release key_callback.dummy_key 113 1]
    ∧ pending_sources (keyboard_handle_key sample_xkb sample_armed_shift 21 5 0) 21 = [] :=
  ⟨by decide, by decide,
   (keyboard_handle_key_release_with_modifiers_disarms sample_xkb sample_armed_shift 21 5
      sample_armed_shift_state sample_xkb_state_shift (by decide) (by decide) (by decide)
      (by decide) (by decide) (by decide)).1,
   (keyboard_handle_key_release_with_modifiers_disarms sample_xkb sample_armed_shift 21 5
      sample_armed_shift_state sample_xkb_state_shift (by decide) (by decide) (by decide)
      (by decide) (by decide) (by decide)).2.1⟩

/-! ## Repeat information during a running repeat (C11) -/

/-- The `done` event of the requested callback when the stored rate is not positive:
the press callback is invoked and no timer is scheduled. -/
theorem sync_callback_requested_stopped (w : World) (data : Nat) (k : keyboard_state) (p : Nat)
    (hk : lookup w data = some k) (hR : ¬ 0 < k.repeat_.rate)
    (hps : pending_sources w data = [])
    (hpc : pending_callbacks w data = [{ proxy := p, data := data }]) :
    (sync_callback w data p).calls
        = w.calls ++ [Call.press w.global_press_cb k.repeat_.keysym k.repeat_.modifiers]
    ∧ pending_sources (sync_callback w data p) data = []
    ∧ pending_callbacks (sync_callback w data p) data = []
    ∧ lookup (sync_callback w data p) data
        = some { k with repeat_ := { k.repeat_ with callback := 0 } } := by
  have hkd := (lookup_some w data k hk).2
  have hl : lookup (wl_callback_destroy w p) data = some k := hk
  have e : sync_callback w data p
      = store
          ((wl_callback_destroy w p).call
            (Call.press w.global_press_cb k.repeat_.keysym k.repeat_.modifiers))
          data { k with repeat_ := { k.repeat_ with callback := 0 } } := by
    unfold sync_callback
    dsimp only
    rw [hl]
    dsimp only
    rw [if_neg hR]
    rfl
  rw [e]
  refine ⟨rfl, hps, ?_, ?_⟩
  · show List.filter (fun c => decide (c.data = data))
        (List.filter (fun c => decide (c.proxy ≠ p)) w.wl_callbacks) = []
    rw [List.filter_comm]
    unfold pending_callbacks at hpc
    rw [hpc]
    simp
  · exact lookup_store _ data k _ hl hkd

/-- One round of a scheduled repeat whose stored rate is not positive: the press
callback is invoked once more and nothing is pending afterwards, while the symbol
stays recorded. -/
theorem repeat_round_stopped (w : World) (data sym mods : Nat) (R : Int) (iv : Nat)
    (hR : ¬ 0 < R) (h : Scheduled w data sym mods R iv) :
    (repeat_round w data).calls = w.calls ++ [Call.press w.global_press_cb sym mods]
    ∧ pending_sources (repeat_round w data) data = []
    ∧ pending_callbacks (repeat_round w data) data = []
    ∧ ∃ k, lookup (repeat_round w data) data = some k ∧ k.repeat_.keysym = sym
        ∧ k.repeat_.timer = 0 ∧ k.repeat_.callback = 0 := by
  obtain ⟨k, hk, h1, h2, h3, hps, hpc⟩ := h
  obtain ⟨dc, dg, _, dps, dpc, dl⟩ := dispatch_timeout_scheduled w data k iv hk hps hpc
  have hR1 : ¬ 0 < ({ k with repeat_ := { k.repeat_ with callback := w.last_proxy + 1, timer := 0 } }
      : keyboard_state).repeat_.rate := by
    show ¬ 0 < k.repeat_.rate
    rw [h3]
    exact hR
  obtain ⟨sc, sps, spc, sl⟩ :=
    sync_callback_requested_stopped _ data _ (w.last_proxy + 1) dl hR1 dps dpc
  have e : repeat_round w data
      = sync_callback (dispatch_timeout w { id := k.repeat_.timer, interval := iv, data := data })
          data (w.last_proxy + 1) := by
    unfold repeat_round
    rw [hps]
    dsimp only
    rw [dpc]
  rw [e]
  refine ⟨?_, sps, spc, ?_⟩
  · rw [sc, dc, dg]
    show w.calls ++ [Call.press w.global_press_cb k.repeat_.keysym k.repeat_.modifiers] = _
    rw [h1, h2]
  · exact ⟨_, sl, h1, rfl, rfl⟩

/-- The repeat information event on a device whose repeat is scheduled: only the
stored rate and delay change. -/
theorem keyboard_handle_repeat_info_scheduled (w : World) (data sym mods : Nat) (R : Int)
    (iv : Nat) (R1 D1 : Int) (h : Scheduled w data sym mods R iv) :
    (keyboard_handle_repeat_info w data R1 D1).calls = w.calls
    ∧ (keyboard_handle_repeat_info w data R1 D1).sources = w.sources
    ∧ (keyboard_handle_repeat_info w data R1 D1).wl_callbacks = w.wl_callbacks
    ∧ (keyboard_handle_repeat_info w data R1 D1).global_press_cb = w.global_press_cb
    ∧ (∃ k, lookup w data = some k
        ∧ lookup (keyboard_handle_repeat_info w data R1 D1) data
          = some { k with repeat_ := { k.repeat_ with rate := R1, delay := D1 } })
    ∧ Scheduled (keyboard_handle_repeat_info w data R1 D1) data sym mods R1 iv := by
  obtain ⟨k, hk, h1, h2, _, hps, hpc⟩ := h
  have hkd := (lookup_some w data k hk).2
  have e : keyboard_handle_repeat_info w data R1 D1
      = store w data { k with repeat_ := { k.repeat_ with rate := R1, delay := D1 } } := by
    unfold keyboard_handle_repeat_info
    rw [hk]
  rw [e]
  have hl := lookup_store w data k
    { k with repeat_ := { k.repeat_ with rate := R1, delay := D1 } } hk hkd
  exact ⟨rfl, rfl, rfl, rfl, ⟨k, hk, hl⟩, ⟨_, hl, h1, h2, rfl, hps, hpc⟩⟩

/-- C11, as stated, fails: the example device is armed with rate 25, so the timer
scheduled by the next round has 40 ms; after a repeat information event with
rate 50 the timer scheduled by the next round has 20 ms, and after one with rate
0 the next round schedules no timer. -/
theorem keyboard_handle_repeat_info_changes_cadence :
    (lookup sample_armed 21).map (fun s => s.repeat_.rate) = some 25
    ∧ (pending_sources (repeat_round sample_armed 21) 21).map (fun t => t.interval) = [40]
    ∧ (pending_sources (repeat_round (keyboard_handle_repeat_info sample_armed 21 50 400) 21) 21).map
          (fun t => t.interval) = [20]
    ∧ pending_sources (repeat_round (keyboard_handle_repeat_info sample_armed 21 0 400) 21) 21 = []
    ∧ pending_callbacks (repeat_round (keyboard_handle_repeat_info sample_armed 21 0 400) 21) 21
        = [] := by
  decide

/-- The repeat information event on a device whose repeat is active: only the stored
rate and delay change. -/
theorem keyboard_handle_repeat_info_active (w : World) (data sym mods : Nat) (R : Int)
    (R1 D1 : Int) (h : Active w data sym mods R) :
    (keyboard_handle_repeat_info w data R1 D1).calls = w.calls
    ∧ (keyboard_handle_repeat_info w data R1 D1).sources = w.sources
    ∧ (keyboard_handle_repeat_info w data R1 D1).wl_callbacks = w.wl_callbacks
    ∧ (keyboard_handle_repeat_info w data R1 D1).global_press_cb = w.global_press_cb
    ∧ (∃ k, lookup w data = some k
        ∧ lookup (keyboard_handle_repeat_info w data R1 D1) data
          = some { k with repeat_ := { k.repeat_ with rate := R1, delay := D1 } })
    ∧ Active (keyboard_handle_repeat_info w data R1 D1) data sym mods R1 := by
  obtain ⟨k, hk, h1, h2, _, hps, hpc⟩ := h
  have hkd := (lookup_some w data k hk).2
  have e : keyboard_handle_repeat_info w data R1 D1
      = store w data { k with repeat_ := { k.repeat_ with rate := R1, delay := D1 } } := by
    unfold keyboard_handle_repeat_info
    rw [hk]
  rw [e]
  have hl := lookup_store w data k
    { k with repeat_ := { k.repeat_ with rate := R1, delay := D1 } } hk hkd
  exact ⟨rfl, rfl, rfl, rfl, ⟨k, hk, hl⟩, ⟨_, hl, h1, h2, rfl, hps, hpc⟩⟩

/-- The next repeated press of a scheduled repeat is one round. -/
theorem repeat_next_scheduled (w : World) (data sym mods : Nat) (R : Int) (iv : Nat)
    (h : Scheduled w data sym mods R iv) : repeat_next w data = repeat_round w data := by
  obtain ⟨k, _, _, _, _, _, hpc⟩ := h
  unfold repeat_next
  rw [hpc]

/-- The next repeated press of an active repeat with a positive stored rate. -/
theorem repeat_next_active (w : World) (data sym mods : Nat) (R : Int) (hR : 0 < R)
    (h : Active w data sym mods R) :
    (repeat_next w data).calls = w.calls ++ [Call.press w.global_press_cb sym mods]
    ∧ (repeat_next w data).global_press_cb = w.global_press_cb
    ∧ Scheduled (repeat_next w data) data sym mods R (1000 / R).toNat := by
  obtain ⟨k, hk, h1, h2, h3, hps, hpc⟩ := h
  have hR1 : 0 < k.repeat_.rate := by
    rw [h3]
    exact hR
  obtain ⟨sc, sg, sps, spc, sl⟩ := sync_callback_requested w data k k.repeat_.callback hk hR1 hps hpc
  have e : repeat_next w data = sync_callback w data k.repeat_.callback := by
    unfold repeat_next
    rw [hpc]
  rw [e]
  refine ⟨?_, sg, ?_⟩
  · rw [sc, h1, h2]
  · refine ⟨_, sl, h1, h2, h3, ?_, spc⟩
    rw [sps]
    show _ = [{ id := _, interval := (1000 / R).toNat, data := data }]
    have : to_guint (1000 / k.repeat_.rate) = (1000 / R).toNat := by
      rw [h3]
      exact to_guint_period R hR
    simp [this]

/-- The next repeated press of an active repeat whose stored rate is not positive:
the press callback is invoked and nothing is pending afterwards. -/
theorem repeat_next_active_stopped (w : World) (data sym mods : Nat) (R : Int) (hR : ¬ 0 < R)
    (h : Active w data sym mods R) :
    (repeat_next w data).calls = w.calls ++ [Call.press w.global_press_cb sym mods]
    ∧ pending_sources (repeat_next w data) data = []
    ∧ pending_callbacks (repeat_next w data) data = [] := by
  obtain ⟨k, hk, h1, h2, h3, hps, hpc⟩ := h
  have hR1 : ¬ 0 < k.repeat_.rate := by
    rw [h3]
    exact hR
  obtain ⟨sc, sps, spc, _⟩ :=
    sync_callback_requested_stopped w data k k.repeat_.callback hk hR1 hps hpc
  have e : repeat_next w data = sync_callback w data k.repeat_.callback := by
    unfold repeat_next
    rw [hpc]
  rw [e]
  exact ⟨by rw [sc, h1, h2], sps, spc⟩

/-- With no timeout source pending for the device, rounds of its repeat change
nothing. -/
theorem repeat_rounds_idle (data : Nat) (n : Nat) (w : World)
    (h : pending_sources w data = []) : repeat_rounds data n w = w := by
  have e : repeat_round w data = w := by
    unfold repeat_round
    rw [h]
  induction n with
  | zero => rfl
  | succ n ih =>
    show repeat_rounds data n (repeat_round w data) = w
    rw [e]
    exact ih

/-- C11, amended. On a device whose repeat is armed, with either the recorded timer
or the recorded synchronization callback as the one thing pending, a repeat
information event with rate `R1` and delay `D1` invokes no callback, leaves every
pending timer and callback as it is, and writes only the stored rate and delay.
The next repeated press invokes the press callback with the recorded symbol and
modifiers, and the cadence follows the new rate from then on: for `R1 > 0` the
timer scheduled with that press, and with each press of every following round,
has `1000 / R1` ms; for `R1 ≤ 0` no timer is scheduled with it, nothing is
pending afterwards and the repeat has stopped. -/
theorem keyboard_handle_repeat_info_sets_next_interval (w : World) (data sym mods : Nat)
    (R : Int) (iv : Nat) (R1 D1 : Int)
    (h : Scheduled w data sym mods R iv ∨ Active w data sym mods R) :
    (keyboard_handle_repeat_info w data R1 D1).calls = w.calls
    ∧ (keyboard_handle_repeat_info w data R1 D1).sources = w.sources
    ∧ (keyboard_handle_repeat_info w data R1 D1).wl_callbacks = w.wl_callbacks
    ∧ (∃ k, lookup w data = some k
        ∧ lookup (keyboard_handle_repeat_info w data R1 D1) data
          = some { k with repeat_ := { k.repeat_ with rate := R1, delay := D1 } })
    ∧ (Scheduled w data sym mods R iv →
        Scheduled (keyboard_handle_repeat_info w data R1 D1) data sym mods R1 iv)
    ∧ (Active w data sym mods R →
        Active (keyboard_handle_repeat_info w data R1 D1) data sym mods R1)
    ∧ (repeat_next (keyboard_handle_repeat_info w data R1 D1) data).calls
        = w.calls ++ [Call.press w.global_press_cb sym mods]
    ∧ (0 < R1 → ∀ n,
        Scheduled (repeat_rounds data n (repeat_next (keyboard_handle_repeat_info w data R1 D1) data))
          data sym mods R1 (1000 / R1).toNat
        ∧ (repeat_rounds data n (repeat_next (keyboard_handle_repeat_info w data R1 D1) data)).calls
            = w.calls ++ List.replicate (n + 1) (Call.press w.global_press_cb sym mods))
    ∧ (¬ 0 < R1 →
        pending_sources (repeat_next (keyboard_handle_repeat_info w data R1 D1) data) data = []
        ∧ pending_callbacks (repeat_next (keyboard_handle_repeat_info w data R1 D1) data) data = []
        ∧ ∀ n, repeat_rounds data n (repeat_next (keyboard_handle_repeat_info w data R1 D1) data)
            = repeat_next (keyboard_handle_repeat_info w data R1 D1) data) := by
  have hframe : (keyboard_handle_repeat_info w data R1 D1).calls = w.calls
      ∧ (keyboard_handle_repeat_info w data R1 D1).sources = w.sources
      ∧ (keyboard_handle_repeat_info w data R1 D1).wl_callbacks = w.wl_callbacks
      ∧ (keyboard_handle_repeat_info w data R1 D1).global_press_cb = w.global_press_cb
      ∧ (∃ k, lookup w data = some k
          ∧ lookup (keyboard_handle_repeat_info w data R1 D1) data
            = some { k with repeat_ := { k.repeat_ with rate := R1, delay := D1 } }) := by
    rcases h with h | h
    · obtain ⟨a, b, c, d, e, _⟩ := keyboard_handle_repeat_info_scheduled w data sym mods R iv R1 D1 h
      exact ⟨a, b, c, d, e⟩
    · obtain ⟨a, b, c, d, e, _⟩ := keyboard_handle_repeat_info_active w data sym mods R R1 D1 h
      exact ⟨a, b, c, d, e⟩
  obtain ⟨hc, hs, hw, hg, hlk⟩ := hframe
  -- the next repeated press with a positive rate
  have hpos : 0 < R1 →
      (repeat_next (keyboard_handle_repeat_info w data R1 D1) data).calls
          = w.calls ++ [Call.press w.global_press_cb sym mods]
      ∧ (repeat_next (keyboard_handle_repeat_info w data R1 D1) data).global_press_cb
          = w.global_press_cb
      ∧ Scheduled (repeat_next (keyboard_handle_repeat_info w data R1 D1) data) data sym mods R1
          (1000 / R1).toNat := by
    intro hR
    rcases h with h | h
    · have hsch := (keyboard_handle_repeat_info_scheduled w data sym mods R iv R1 D1 h).2.2.2.2.2
      rw [repeat_next_scheduled _ data sym mods R1 iv hsch]
      obtain ⟨a, b, c⟩ := repeat_round_scheduled _ data sym mods R1 iv hR hsch
      exact ⟨by rw [a, hc, hg], by rw [b, hg], c⟩
    · have hact := (keyboard_handle_repeat_info_active w data sym mods R R1 D1 h).2.2.2.2.2
      obtain ⟨a, b, c⟩ := repeat_next_active _ data sym mods R1 hR hact
      exact ⟨by rw [a, hc, hg], by rw [b, hg], c⟩
  have hneg : ¬ 0 < R1 →
      (repeat_next (keyboard_handle_repeat_info w data R1 D1) data).calls
          = w.calls ++ [Call.press w.global_press_cb sym mods]
      ∧ pending_sources (repeat_next (keyboard_handle_repeat_info w data R1 D1) data) data = []
      ∧ pending_callbacks (repeat_next (keyboard_handle_repeat_info w data R1 D1) data) data
          = [] := by
    intro hR
    rcases h with h | h
    · have hsch := (keyboard_handle_repeat_info_scheduled w data sym mods R iv R1 D1 h).2.2.2.2.2
      rw [repeat_next_scheduled _ data sym mods R1 iv hsch]
      obtain ⟨a, b, c, _⟩ := repeat_round_stopped _ data sym mods R1 iv hR hsch
      exact ⟨by rw [a, hc, hg], b, c⟩
    · have hact := (keyboard_handle_repeat_info_active w data sym mods R R1 D1 h).2.2.2.2.2
      obtain ⟨a, b, c⟩ := repeat_next_active_stopped _ data sym mods R1 hR hact
      exact ⟨by rw [a, hc, hg], b, c⟩
  refine ⟨hc, hs, hw, hlk, ?_, ?_, ?_, ?_, ?_⟩
  · intro hsch
    exact (keyboard_handle_repeat_info_scheduled w data sym mods R iv R1 D1 hsch).2.2.2.2.2
  · intro hact
    exact (keyboard_handle_repeat_info_active w data sym mods R R1 D1 hact).2.2.2.2.2
  · by_cases hR : 0 < R1
    · exact (hpos hR).1
    · exact (hneg hR).1
  · intro hR n
    obtain ⟨a, b, c⟩ := hpos hR
    obtain ⟨rc, rs⟩ := repeat_rounds_scheduled data sym mods R1 hR n _ _ c
    constructor
    · have e : (if n = 0 then (1000 / R1).toNat else (1000 / R1).toNat) = (1000 / R1).toNat := by
        split_ifs <;> rfl
      rw [e] at rs
      exact rs
    · rw [rc, a, b, List.append_assoc, List.replicate_succ]
      rfl
  · intro hR
    obtain ⟨_, b, c⟩ := hneg hR
    exact ⟨b, c, fun n => repeat_rounds_idle data n _ b⟩

/-- Witness of the amended C11 in both states of an armed repeat. The armed example
device is scheduled; after a repeat information event with rate 50 the next press
and the round after it each schedule a timer of 20 ms. With its timer fired the
example device is active; after the same event the press of its pending callback
schedules a timer of 20 ms. -/
theorem keyboard_handle_repeat_info_sets_next_interval_witness :
    Scheduled sample_armed 21 97 0 25 400
    ∧ Scheduled
        (repeat_rounds 21 1 (repeat_next (keyboard_handle_repeat_info sample_armed 21 50 400) 21))
        21 97 0 50 20
    ∧ Active sample_active 21 97 0 25
    ∧ Scheduled
        (repeat_rounds 21 0 (repeat_next (keyboard_handle_repeat_info sample_active 21 50 400) 21))
        21 97 0 50 20 :=
  ⟨⟨sample_armed_state, by decide, by decide, by decide, by decide, by decide, by decide⟩,
   ((keyboard_handle_repeat_info_sets_next_interval sample_armed 21 97 0 25 400 50 400
      (Or.inl ⟨sample_armed_state, by decide, by decide, by decide, by decide, by decide,
        by decide⟩)).2.2.2.2.2.2.2.1 (by decide) 1).1,
   ⟨sample_active_state, by decide, by decide, by decide, by decide, by decide, by decide⟩,
   ((keyboard_handle_repeat_info_sets_next_interval sample_active 21 97 0 25 0 50 400
      (Or.inr ⟨sample_active_state, by decide, by decide, by decide, by decide, by decide,
        by decide⟩)).2.2.2.2.2.2.2.1 (by decide) 0).1⟩

/-! ## Lemmas on the removal of devices -/

theorem remove_seat_chain_eq (seat : Nat) (l : List keyboard_state) (w : World) :
    remove_seat_chain seat w l = remove_all (l.filter (fun d => decide (d.seat = seat))) w := by
  induction l generalizing w with
  | nil => rfl
  | cons d l ih =>
    by_cases h : d.seat = seat
    · simp only [remove_seat_chain, h, if_true, List.filter_cons, decide_True, remove_all]
      exact ih _
    · simp only [remove_seat_chain, h, if_false, List.filter_cons, decide_False]
      exact ih _

theorem remove_all_append (a b : List keyboard_state) (w : World) :
    remove_all (a ++ b) w = remove_all b (remove_all a w) := by
  induction a generalizing w with
  | nil => rfl
  | cons d a ih => exact ih _

theorem remove_seat_lists_eq (seat : Nat) (ls : List (List keyboard_state)) (w : World) :
    remove_seat_lists seat w ls
      = remove_all (ls.flatten.filter (fun d => decide (d.seat = seat))) w := by
  induction ls generalizing w with
  | nil => rfl
  | cons l ls ih =>
    simp only [remove_seat_lists, List.flatten_cons, List.filter_append]
    rw [ih, remove_seat_chain_eq, remove_all_append]

theorem filter_keyboard_ne_self (k : Nat) (l : List keyboard_state)
    (h : ∀ x ∈ l, x.keyboard ≠ k) : l.filter (fun x => decide (x.keyboard ≠ k)) = l := by
  rw [List.filter_eq_self]
  intro x hx
  simpa using h x hx

theorem unlink_node_nodup (l : List keyboard_state) (d : keyboard_state)
    (hnd : (l.map (fun s => s.keyboard)).Nodup) (hd : d ∈ l) :
    unlink_node d.keyboard l = some (d, l.filter (fun x => decide (x.keyboard ≠ d.keyboard))) := by
  induction l with
  | nil => cases hd
  | cons x l ih =>
    rw [List.map_cons, List.nodup_cons] at hnd
    by_cases hx : x.keyboard = d.keyboard
    · have hdx : d = x := by
        rcases List.mem_cons.1 hd with h | h
        · exact h
        · exfalso
          apply hnd.1
          rw [hx]
          exact List.mem_map_of_mem _ h
      subst hdx
      have hrest : ∀ y ∈ l, y.keyboard ≠ d.keyboard := by
        intro y hy he
        apply hnd.1
        rw [← he]
        exact List.mem_map_of_mem _ hy
      simp only [unlink_node, if_true, List.filter_cons, ne_eq, not_true_eq_false, decide_False]
      rw [filter_keyboard_ne_self _ _ hrest]
      rfl
    · have hdl : d ∈ l := by
        rcases List.mem_cons.1 hd with h | h
        · exact absurd (by rw [h]) hx
        · exact h
      simp only [unlink_node, hx, if_false, ih hnd.2 hdl, List.filter_cons, ne_eq,
        not_false_eq_true, decide_True, if_true]

theorem unlink_in_lists_nodup (ls : List (List keyboard_state)) (d : keyboard_state)
    (hnd : (ls.flatten.map (fun s => s.keyboard)).Nodup) (hd : d ∈ ls.flatten) :
    unlink_in_lists d.keyboard ls
      = some (d, ls.map (fun l => l.filter (fun x => decide (x.keyboard ≠ d.keyboard)))) := by
  induction ls with
  | nil => cases hd
  | cons l ls ih =>
    rw [List.flatten_cons, List.map_append, List.nodup_append] at hnd
    obtain ⟨hl, hrest, hdis⟩ := hnd
    rw [List.flatten_cons, List.mem_append] at hd
    by_cases hdl : d ∈ l
    · have hno : ∀ l1 ∈ ls, ∀ y ∈ l1, y.keyboard ≠ d.keyboard := by
        intro l1 hl1 y hy he
        apply hdis (List.mem_map_of_mem _ hdl)
        rw [← he]
        exact List.mem_map_of_mem _ (List.mem_flatten.2 ⟨l1, hl1, hy⟩)
      have hmap : ls.map (fun l => l.filter (fun x => decide (x.keyboard ≠ d.keyboard))) = ls := by
        conv_rhs => rw [← List.map_id ls]
        apply List.map_congr_left
        intro l1 hl1
        exact filter_keyboard_ne_self _ _ (hno l1 hl1)
      simp only [unlink_in_lists, unlink_node_nodup l d hl hdl, List.map_cons, hmap]
    · have hdr : d ∈ ls.flatten := by
        rcases hd with h | h
        · exact absurd h hdl
        · exact h
      have hno : ∀ y ∈ l, y.keyboard ≠ d.keyboard := by
        intro y hy he
        apply hdis (List.mem_map_of_mem _ hy)
        rw [he]
        exact List.mem_map_of_mem _ hdr
      simp only [unlink_in_lists, unlink_node_none _ _ hno, ih hrest hdr, List.map_cons,
        filter_keyboard_ne_self _ _ hno]

theorem handle_keyboard_remove_registered (w : World) (d : keyboard_state)
    (hq : w.wl_callbacks = [])
    (hnd : ((devices w).map (fun s => s.keyboard)).Nodup) (hd : d ∈ devices w)
    (hz : d.keyboard ≠ 0) :
    handle_keyboard_remove w d.keyboard
      = { (stop_repeat (wl_keyboard_release w d.keyboard) d).1 with
          keyboard_lists :=
            w.keyboard_lists.map (fun l => l.filter (fun x => decide (x.keyboard ≠ d.keyboard))) } := by
  rw [handle_keyboard_remove_of_quiet w d.keyboard hq hz,
    unlink_in_lists_nodup w.keyboard_lists d hnd hd]

theorem devices_filter_keyboard (w : World) (k : Nat) :
    (w.keyboard_lists.map (fun l => l.filter (fun x => decide (x.keyboard ≠ k)))).flatten
      = (devices w).filter (fun x => decide (x.keyboard ≠ k)) := by
  unfold devices
  induction w.keyboard_lists with
  | nil => rfl
  | cons l ls ih => simp only [List.map_cons, List.flatten_cons, List.filter_append, ih]

theorem replace_state_keyboards (data : Nat) (k : keyboard_state) (devs : List keyboard_state)
    (hk : k.keyboard = data) :
    (replace_state data k devs).map (fun s => s.keyboard) = devs.map (fun s => s.keyboard) := by
  unfold replace_state
  rw [List.map_map]
  apply List.map_congr_left
  intro s _
  by_cases h : s.keyboard = data
  · simp [h, hk]
  · simp [h]

theorem replace_state_mem (data : Nat) (k : keyboard_state) (devs : List keyboard_state)
    (x : keyboard_state) (hx : x ∈ replace_state data k devs) :
    x = k ∨ (x ∈ devs ∧ x.keyboard ≠ data) := by
  unfold replace_state at hx
  obtain ⟨s, hs, rfl⟩ := List.mem_map.1 hx
  by_cases h : s.keyboard = data
  · left
    simp [h]
  · right
    simp [h, hs]

theorem replace_state_mem_self (data : Nat) (k : keyboard_state) (devs : List keyboard_state)
    (d : keyboard_state) (hd : d ∈ devs) (hdk : d.keyboard = data) :
    k ∈ replace_state data k devs := by
  unfold replace_state
  exact List.mem_map.2 ⟨d, hd, by simp [hdk]⟩

theorem replace_state_owner (data : Nat) (k : keyboard_state) (devs : List keyboard_state)
    (hk : k.keyboard = data) (d : keyboard_state) (hd : d ∈ devs) :
    ∃ d1 ∈ replace_state data k devs, d1.keyboard = d.keyboard := by
  unfold replace_state
  refine ⟨if d.keyboard = data then k else d, List.mem_map.2 ⟨d, hd, rfl⟩, ?_⟩
  by_cases h : d.keyboard = data
  · simp [h, hk]
  · simp [h]

theorem DeviceOk_congr (b : Bool) (S S2 : List Timeout) (C C2 : List SyncRequest)
    (d : keyboard_state)
    (hS : S2.filter (fun t => decide (t.data = d.keyboard))
        = S.filter (fun t => decide (t.data = d.keyboard)))
    (hC : C2.filter (fun c => decide (c.data = d.keyboard))
        = C.filter (fun c => decide (c.data = d.keyboard)))
    (h : DeviceOk b S C d) : DeviceOk b S2 C2 d := by
  unfold DeviceOk at *
  rw [hS, hC]
  exact h

/-- The transfer of the invariant to a world in which one device has a new state and
the pending sources and callbacks of the other devices are as before. -/
theorem Inv_transfer (b : Bool) (devs : List keyboard_state) (S S2 : List Timeout)
    (C C2 : List SyncRequest) (ls lp ls2 lp2 : Nat) (d k : keyboard_state)
    (h : Inv b devs S C ls lp) (hd : d ∈ devs) (hk : k.keyboard = d.keyboard)
    (t1 : ∀ x, x ≠ d.keyboard →
      S2.filter (fun t => decide (t.data = x)) = S.filter (fun t => decide (t.data = x)))
    (t2 : ∀ x, x ≠ d.keyboard →
      C2.filter (fun c => decide (c.data = x)) = C.filter (fun c => decide (c.data = x)))
    (t3 : DeviceOk b S2 C2 k)
    (t4 : ∀ t ∈ S2, t.id ≤ ls2) (t5 : (S2.map (fun t => t.id)).Nodup)
    (t6 : ∀ c ∈ C2, c.proxy ≤ lp2) (t7 : (C2.map (fun c => c.proxy)).Nodup)
    (t8 : ∀ t ∈ S2, t ∈ S ∨ t.data = d.keyboard)
    (t9 : ∀ c ∈ C2, c ∈ C ∨ c.data = d.keyboard) :
    Inv b (replace_state d.keyboard k devs) S2 C2 ls2 lp2 := by
  refine ⟨?_, t4, t5, t6, t7, ?_, ?_, ?_⟩
  · rw [replace_state_keyboards _ _ _ hk]
    exact h.nodup
  · intro t ht
    rcases t8 t ht with h1 | h1
    · obtain ⟨d0, hd0, he⟩ := h.src_owner t h1
      obtain ⟨d1, hd1, he1⟩ := replace_state_owner d.keyboard k devs hk d0 hd0
      exact ⟨d1, hd1, by rw [he1, he]⟩
    · exact ⟨k, replace_state_mem_self _ _ _ d hd rfl, by rw [hk, h1]⟩
  · intro c hc
    rcases t9 c hc with h1 | h1
    · obtain ⟨d0, hd0, he⟩ := h.cb_owner c h1
      obtain ⟨d1, hd1, he1⟩ := replace_state_owner d.keyboard k devs hk d0 hd0
      exact ⟨d1, hd1, by rw [he1, he]⟩
    · exact ⟨k, replace_state_mem_self _ _ _ d hd rfl, by rw [hk, h1]⟩
  · intro x hx
    rcases replace_state_mem _ _ _ _ hx with h1 | h1
    · rw [h1]
      exact t3
    · exact DeviceOk_congr b S S2 C C2 x (t1 _ h1.2) (t2 _ h1.2) (h.ok x h1.1)

theorem Inv_timer_owner (b : Bool) (devs : List keyboard_state) (S : List Timeout)
    (C : List SyncRequest) (ls lp : Nat) (d : keyboard_state)
    (h : Inv b devs S C ls lp) (hd : d ∈ devs) (ht : d.repeat_.timer ≠ 0) :
    ∀ t ∈ S, t.id = d.repeat_.timer → t.data = d.keyboard := by
  intro t hts hid
  rcases h.ok d hd with ⟨_, _, h0, _⟩ | ⟨⟨iv, hf⟩, _⟩ | ⟨_, _, h0, _⟩
  · exact absurd h0 ht
  · have hmem : ({ id := d.repeat_.timer, interval := iv, data := d.keyboard } : Timeout) ∈ S := by
      have : ({ id := d.repeat_.timer, interval := iv, data := d.keyboard } : Timeout)
          ∈ S.filter (fun t => decide (t.data = d.keyboard)) := by
        rw [hf]
        exact List.mem_singleton.2 rfl
      exact (List.mem_filter.1 this).1
    have := List.inj_on_of_nodup_map h.src_nodup hts hmem hid
    rw [this]
  · exact absurd h0 ht

theorem Inv_callback_owner (b : Bool) (devs : List keyboard_state) (S : List Timeout)
    (C : List SyncRequest) (ls lp : Nat) (d : keyboard_state)
    (h : Inv b devs S C ls lp) (hd : d ∈ devs) (ht : d.repeat_.callback ≠ 0) :
    ∀ c ∈ C, c.proxy = d.repeat_.callback → c.data = d.keyboard := by
  intro c hcs hid
  rcases h.ok d hd with ⟨_, _, _, h0⟩ | ⟨_, _, _, h0, _⟩ | ⟨_, hf, _⟩
  · exact absurd h0 ht
  · exact absurd h0 ht
  · have hmem : ({ proxy := d.repeat_.callback, data := d.keyboard } : SyncRequest) ∈ C := by
      have : ({ proxy := d.repeat_.callback, data := d.keyboard } : SyncRequest)
          ∈ C.filter (fun c => decide (c.data = d.keyboard)) := by
        rw [hf]
        exact List.mem_singleton.2 rfl
      exact (List.mem_filter.1 this).1
    have := List.inj_on_of_nodup_map h.cb_nodup hcs hmem hid
    rw [this]

theorem stopped_sources_sublist (d : keyboard_state) (S : List Timeout) :
    List.Sublist (stopped_sources d S) S := by
  unfold stopped_sources
  split_ifs
  · exact List.filter_sublist _
  · exact List.Sublist.refl _

theorem stopped_callbacks_sublist (d : keyboard_state) (C : List SyncRequest) :
    List.Sublist (stopped_callbacks d C) C := by
  unfold stopped_callbacks
  split_ifs
  · exact List.filter_sublist _
  · exact List.Sublist.refl _

theorem stopped_sources_own (b : Bool) (devs : List keyboard_state) (S : List Timeout)
    (C : List SyncRequest) (ls lp : Nat) (d : keyboard_state)
    (h : Inv b devs S C ls lp) (hd : d ∈ devs) :
    (stopped_sources d S).filter (fun t => decide (t.data = d.keyboard)) = [] := by
  unfold stopped_sources
  rcases h.ok d hd with ⟨hf, _, h0, _⟩ | ⟨⟨iv, hf⟩, _, h0, _⟩ | ⟨hf, _, h0, _⟩
  · rw [if_neg (not_not.2 h0)]
    exact hf
  · rw [if_pos h0, List.filter_comm, hf]
    simp
  · rw [if_neg (not_not.2 h0)]
    exact hf

theorem stopped_callbacks_own (b : Bool) (devs : List keyboard_state) (S : List Timeout)
    (C : List SyncRequest) (ls lp : Nat) (d : keyboard_state)
    (h : Inv b devs S C ls lp) (hd : d ∈ devs) :
    (stopped_callbacks d C).filter (fun c => decide (c.data = d.keyboard)) = [] := by
  unfold stopped_callbacks
  rcases h.ok d hd with ⟨_, hf, _, h0⟩ | ⟨_, hf, _, h0, _⟩ | ⟨_, hf, _, h0, _⟩
  · rw [if_neg (not_not.2 h0)]
    exact hf
  · rw [if_neg (not_not.2 h0)]
    exact hf
  · rw [if_pos h0, List.filter_comm, hf]
    simp

theorem stopped_sources_other (b : Bool) (devs : List keyboard_state) (S : List Timeout)
    (C : List SyncRequest) (ls lp : Nat) (d : keyboard_state)
    (h : Inv b devs S C ls lp) (hd : d ∈ devs) (x : Nat) (hx : x ≠ d.keyboard) :
    (stopped_sources d S).filter (fun t => decide (t.data = x))
      = S.filter (fun t => decide (t.data = x)) := by
  unfold stopped_sources
  split_ifs with h0
  · rw [List.filter_filter]
    apply List.filter_congr
    intro t ht
    by_cases hid : t.id = d.repeat_.timer
    · have := Inv_timer_owner b devs S C ls lp d h hd h0 t ht hid
      have hne : t.data ≠ x := by
        rw [this]
        exact fun e => hx e.symm
      simp [hne]
    · simp [hid]
  · rfl

theorem stopped_callbacks_other (b : Bool) (devs : List keyboard_state) (S : List Timeout)
    (C : List SyncRequest) (ls lp : Nat) (d : keyboard_state)
    (h : Inv b devs S C ls lp) (hd : d ∈ devs) (x : Nat) (hx : x ≠ d.keyboard) :
    (stopped_callbacks d C).filter (fun c => decide (c.data = x))
      = C.filter (fun c => decide (c.data = x)) := by
  unfold stopped_callbacks
  split_ifs with h0
  · rw [List.filter_filter]
    apply List.filter_congr
    intro c hc
    by_cases hid : c.proxy = d.repeat_.callback
    · have := Inv_callback_owner b devs S C ls lp d h hd h0 c hc hid
      have hne : c.data ≠ x := by
        rw [this]
        exact fun e => hx e.symm
      simp [hne]
    · simp [hid]
  · rfl

/-- The invariant after `stop_repeat` on the device `d`, whatever else is written to
its state. -/
theorem Inv_stop (b : Bool) (devs : List keyboard_state) (S : List Timeout)
    (C : List SyncRequest) (ls lp : Nat) (d k : keyboard_state)
    (h : Inv b devs S C ls lp) (hd : d ∈ devs) (hk : k.keyboard = d.keyboard)
    (h1 : k.repeat_.timer = 0) (h2 : k.repeat_.callback = 0) :
    Inv b (replace_state d.keyboard k devs) (stopped_sources d S) (stopped_callbacks d C)
      ls lp := by
  apply Inv_transfer b devs S _ C _ ls lp ls lp d k h hd hk
  · exact stopped_sources_other b devs S C ls lp d h hd
  · exact stopped_callbacks_other b devs S C ls lp d h hd
  · left
    rw [hk]
    exact ⟨stopped_sources_own b devs S C ls lp d h hd,
           stopped_callbacks_own b devs S C ls lp d h hd, h1, h2⟩
  · exact fun t ht => h.src_le t ((stopped_sources_sublist d S).subset ht)
  · exact h.src_nodup.sublist (List.Sublist.map _ (stopped_sources_sublist d S))
  · exact fun c hc => h.cb_le c ((stopped_callbacks_sublist d C).subset hc)
  · exact h.cb_nodup.sublist (List.Sublist.map _ (stopped_callbacks_sublist d C))
  · exact fun t ht => Or.inl ((stopped_sources_sublist d S).subset ht)
  · exact fun c hc => Or.inl ((stopped_callbacks_sublist d C).subset hc)

/-- The invariant after `stop_repeat` on the device `d` followed by a new timer. -/
theorem Inv_stop_timer (b : Bool) (devs : List keyboard_state) (S : List Timeout)
    (C : List SyncRequest) (ls lp : Nat) (d k : keyboard_state) (iv : Nat)
    (h : Inv b devs S C ls lp) (hd : d ∈ devs) (hk : k.keyboard = d.keyboard)
    (h1 : k.repeat_.timer = ls + 1) (h2 : k.repeat_.callback = 0) (h3 : Live b k) :
    Inv b (replace_state d.keyboard k devs)
      (stopped_sources d S ++ [{ id := ls + 1, interval := iv, data := d.keyboard }])
      (stopped_callbacks d C) (ls + 1) lp := by
  have hsub := stopped_sources_sublist d S
  apply Inv_transfer b devs S _ C _ ls lp (ls + 1) lp d k h hd hk
  · intro x hx
    rw [List.filter_append, stopped_sources_other b devs S C ls lp d h hd x hx]
    have : ¬ d.keyboard = x := fun e => hx e.symm
    simp [this]
  · exact stopped_callbacks_other b devs S C ls lp d h hd
  · right
    left
    rw [hk]
    refine ⟨⟨iv, ?_⟩, stopped_callbacks_own b devs S C ls lp d h hd, ?_, h2, h3⟩
    · rw [List.filter_append, stopped_sources_own b devs S C ls lp d h hd, h1]
      simp
    · rw [h1]
      exact Nat.succ_ne_zero _
  · intro t ht
    rcases List.mem_append.1 ht with h0 | h0
    · exact Nat.le_succ_of_le (h.src_le t (hsub.subset h0))
    · rw [List.mem_singleton.1 h0]
  · rw [List.map_append, List.nodup_append]
    refine ⟨h.src_nodup.sublist (List.Sublist.map _ hsub), by simp, ?_⟩
    intro a ha hb
    obtain ⟨t, ht, rfl⟩ := List.mem_map.1 ha
    have h4 := h.src_le t (hsub.subset ht)
    have h5 : t.id = ls + 1 := by simpa using hb
    omega
  · exact fun c hc => h.cb_le c ((stopped_callbacks_sublist d C).subset hc)
  · exact h.cb_nodup.sublist (List.Sublist.map _ (stopped_callbacks_sublist d C))
  · intro t ht
    rcases List.mem_append.1 ht with h0 | h0
    · exact Or.inl (hsub.subset h0)
    · right
      rw [List.mem_singleton.1 h0]
  · exact fun c hc => Or.inl ((stopped_callbacks_sublist d C).subset hc)

/-- The invariant after `stop_repeat` on the device `d` followed by a new
synchronization request. -/
theorem Inv_stop_sync (b : Bool) (devs : List keyboard_state) (S : List Timeout)
    (C : List SyncRequest) (ls lp : Nat) (d k : keyboard_state)
    (h : Inv b devs S C ls lp) (hd : d ∈ devs) (hk : k.keyboard = d.keyboard)
    (h1 : k.repeat_.timer = 0) (h2 : k.repeat_.callback = lp + 1) (h3 : Live b k) :
    Inv b (replace_state d.keyboard k devs) (stopped_sources d S)
      (stopped_callbacks d C ++ [{ proxy := lp + 1, data := d.keyboard }]) ls (lp + 1) := by
  have hsub := stopped_callbacks_sublist d C
  apply Inv_transfer b devs S _ C _ ls lp ls (lp + 1) d k h hd hk
  · exact stopped_sources_other b devs S C ls lp d h hd
  · intro x hx
    rw [List.filter_append, stopped_callbacks_other b devs S C ls lp d h hd x hx]
    have : ¬ d.keyboard = x := fun e => hx e.symm
    simp [this]
  · right
    right
    rw [hk]
    refine ⟨stopped_sources_own b devs S C ls lp d h hd, ?_, h1, ?_, h3⟩
    · rw [List.filter_append, stopped_callbacks_own b devs S C ls lp d h hd, h2]
      simp
    · rw [h2]
      exact Nat.succ_ne_zero _
  · exact fun t ht => h.src_le t ((stopped_sources_sublist d S).subset ht)
  · exact h.src_nodup.sublist (List.Sublist.map _ (stopped_sources_sublist d S))
  · intro c hc
    rcases List.mem_append.1 hc with h0 | h0
    · exact Nat.le_succ_of_le (h.cb_le c (hsub.subset h0))
    · rw [List.mem_singleton.1 h0]
  · rw [List.map_append, List.nodup_append]
    refine ⟨h.cb_nodup.sublist (List.Sublist.map _ hsub), by simp, ?_⟩
    intro a ha hb
    obtain ⟨c, hc, rfl⟩ := List.mem_map.1 ha
    have h4 := h.cb_le c (hsub.subset hc)
    have h5 : c.proxy = lp + 1 := by simpa using hb
    omega
  · exact fun t ht => Or.inl ((stopped_sources_sublist d S).subset ht)
  · intro c hc
    rcases List.mem_append.1 hc with h0 | h0
    · exact Or.inl (hsub.subset h0)
    · right
      rw [List.mem_singleton.1 h0]

/-- The invariant after a write to the state of `d` that keeps the recorded timer
and callback and keeps an armed device live. -/
theorem Inv_keep (b : Bool) (devs : List keyboard_state) (S : List Timeout)
    (C : List SyncRequest) (ls lp : Nat) (d k : keyboard_state)
    (h : Inv b devs S C ls lp) (hd : d ∈ devs) (hk : k.keyboard = d.keyboard)
    (h1 : k.repeat_.timer = d.repeat_.timer) (h2 : k.repeat_.callback = d.repeat_.callback)
    (h3 : Live b d → Live b k) :
    Inv b (replace_state d.keyboard k devs) S C ls lp := by
  apply Inv_transfer b devs S S C C ls lp ls lp d k h hd hk
  · exact fun _ _ => rfl
  · exact fun _ _ => rfl
  · unfold DeviceOk
    rw [hk, h1, h2]
    rcases h.ok d hd with h0 | ⟨a1, a2, a3, a4, a5⟩ | ⟨a1, a2, a3, a4, a5⟩
    · exact Or.inl h0
    · exact Or.inr (Or.inl ⟨a1, a2, a3, a4, h3 a5⟩)
    · exact Or.inr (Or.inr ⟨a1, a2, a3, a4, h3 a5⟩)
  · exact h.src_le
  · exact h.src_nodup
  · exact h.cb_le
  · exact h.cb_nodup
  · exact fun t ht => Or.inl ht
  · exact fun c hc => Or.inl hc

/-! ## The handlers keep the invariant -/

theorem WorldInv_mk (b : Bool) (w : World) (devs : List keyboard_state) (S : List Timeout)
    (C : List SyncRequest) (ls lp : Nat) (h : Inv b devs S C ls lp)
    (e1 : devices w = devs) (e2 : w.sources = S) (e3 : w.wl_callbacks = C)
    (e4 : w.last_source = ls) (e5 : w.last_proxy = lp) : WorldInv b w := by
  unfold WorldInv
  rw [e1, e2, e3, e4, e5]
  exact h

theorem WorldInv_store (b : Bool) (w W : World) (data : Nat) (k : keyboard_state)
    (S : List Timeout) (C : List SyncRequest) (ls lp : Nat)
    (h : Inv b (replace_state data k (devices w)) S C ls lp)
    (e1 : W.keyboard_lists = w.keyboard_lists) (e2 : W.sources = S) (e3 : W.wl_callbacks = C)
    (e4 : W.last_source = ls) (e5 : W.last_proxy = lp) : WorldInv b (store W data k) := by
  apply WorldInv_mk b _ _ S C ls lp h
  · rw [devices_store]
    unfold devices replace_state
    rw [e1]
  · exact e2
  · exact e3
  · exact e4
  · exact e5

theorem stop_repeat_components (w : World) (d : keyboard_state) :
    (stop_repeat w d).1.keyboard_lists = w.keyboard_lists
    ∧ (stop_repeat w d).1.sources = stopped_sources d w.sources
    ∧ (stop_repeat w d).1.wl_callbacks = stopped_callbacks d w.wl_callbacks
    ∧ (stop_repeat w d).1.last_source = w.last_source
    ∧ (stop_repeat w d).1.last_proxy = w.last_proxy := by
  rw [stop_repeat_fst]
  exact ⟨rfl, rfl, rfl, rfl, rfl⟩

theorem WorldInv_keep (b : Bool) (w : World) (data : Nat) (d k : keyboard_state) (W : World)
    (h : WorldInv b w) (hl : lookup w data = some d) (hk : k.keyboard = data)
    (h1 : k.repeat_.timer = d.repeat_.timer) (h2 : k.repeat_.callback = d.repeat_.callback)
    (h3 : Live b d → Live b k)
    (e1 : W.keyboard_lists = w.keyboard_lists) (e2 : W.sources = w.sources)
    (e3 : W.wl_callbacks = w.wl_callbacks) (e4 : W.last_source = w.last_source)
    (e5 : W.last_proxy = w.last_proxy) : WorldInv b (store W data k) := by
  obtain ⟨hd, hdk⟩ := lookup_some w data d hl
  have := Inv_keep b _ _ _ _ _ d k h hd (by rw [hk, hdk]) h1 h2 h3
  rw [hdk] at this
  exact WorldInv_store b w W data k _ _ _ _ this e1 e2 e3 e4 e5

theorem WorldInv_stop (b : Bool) (w : World) (data : Nat) (d k : keyboard_state) (W : World)
    (h : WorldInv b w) (hl : lookup w data = some d) (hk : k.keyboard = data)
    (h1 : k.repeat_.timer = 0) (h2 : k.repeat_.callback = 0)
    (e1 : W.keyboard_lists = w.keyboard_lists) (e2 : W.sources = stopped_sources d w.sources)
    (e3 : W.wl_callbacks = stopped_callbacks d w.wl_callbacks)
    (e4 : W.last_source = w.last_source) (e5 : W.last_proxy = w.last_proxy) :
    WorldInv b (store W data k) := by
  obtain ⟨hd, hdk⟩ := lookup_some w data d hl
  have := Inv_stop b _ _ _ _ _ d k h hd (by rw [hk, hdk]) h1 h2
  rw [hdk] at this
  exact WorldInv_store b w W data k _ _ _ _ this e1 e2 e3 e4 e5

theorem WorldInv_stop_timer (b : Bool) (w : World) (data : Nat) (d k : keyboard_state)
    (iv : Nat) (W : World)
    (h : WorldInv b w) (hl : lookup w data = some d) (hk : k.keyboard = data)
    (h1 : k.repeat_.timer = w.last_source + 1) (h2 : k.repeat_.callback = 0) (h3 : Live b k)
    (e1 : W.keyboard_lists = w.keyboard_lists)
    (e2 : W.sources = stopped_sources d w.sources
      ++ [{ id := w.last_source + 1, interval := iv, data := data }])
    (e3 : W.wl_callbacks = stopped_callbacks d w.wl_callbacks)
    (e4 : W.last_source = w.last_source + 1) (e5 : W.last_proxy = w.last_proxy) :
    WorldInv b (store W data k) := by
  obtain ⟨hd, hdk⟩ := lookup_some w data d hl
  have := Inv_stop_timer b _ _ _ _ _ d k iv h hd (by rw [hk, hdk]) h1 h2 h3
  rw [hdk] at this
  exact WorldInv_store b w W data k _ _ _ _ this e1 e2 e3 e4 e5

theorem WorldInv_stop_sync (b : Bool) (w : World) (data : Nat) (d k : keyboard_state)
    (W : World)
    (h : WorldInv b w) (hl : lookup w data = some d) (hk : k.keyboard = data)
    (h1 : k.repeat_.timer = 0) (h2 : k.repeat_.callback = w.last_proxy + 1) (h3 : Live b k)
    (e1 : W.keyboard_lists = w.keyboard_lists) (e2 : W.sources = stopped_sources d w.sources)
    (e3 : W.wl_callbacks = stopped_callbacks d w.wl_callbacks
      ++ [{ proxy := w.last_proxy + 1, data := data }])
    (e4 : W.last_source = w.last_source) (e5 : W.last_proxy = w.last_proxy + 1) :
    WorldInv b (store W data k) := by
  obtain ⟨hd, hdk⟩ := lookup_some w data d hl
  have := Inv_stop_sync b _ _ _ _ _ d k h hd (by rw [hk, hdk]) h1 h2 h3
  rw [hdk] at this
  exact WorldInv_store b w W data k _ _ _ _ this e1 e2 e3 e4 e5

theorem WorldInv_call (b : Bool) (w : World) (c : Call) (h : WorldInv b w) :
    WorldInv b (w.call c) := h

theorem keyboard_handle_key_inv (X : Xkb) (b : Bool) (w : World) (data key state : Nat)
    (h : WorldInv b w) : WorldInv b (keyboard_handle_key X w data key state) := by
  cases hl : lookup w data with
  | none =>
    unfold keyboard_handle_key
    rw [hl]
    exact h
  | some k =>
    have hkd := (lookup_some w data k hl).2
    cases hx : k.xkb_state with
    | none =>
      unfold keyboard_handle_key
      rw [hl]
      dsimp only
      rw [hx]
      exact h
    | some xs =>
      by_cases hf : k.has_focus = 0
      · unfold keyboard_handle_key
        rw [hl]
        dsimp only
        rw [hx]
        dsimp only
        rw [if_pos hf]
        exact h
      · obtain ⟨c1, c2, c3, c4, c5⟩ := stop_repeat_components w k
        by_cases h1 : state = 1
        · subst h1
          by_cases hs : k.repeat_.keysym = X.key_get_one_sym xs (add_u32 key 8)
          · rw [keyboard_handle_key_press_same X w data key k xs hl hx hf hs]
            exact WorldInv_keep b w data k k _ h hl hkd rfl rfl (fun a => a) rfl rfl rfl rfl rfl
          · rw [keyboard_handle_key_press_other X w data key k xs hl hx hf hs]
            split_ifs with harm
            · refine WorldInv_stop_timer b w data k _ (to_guint k.repeat_.delay) _ h hl ?_ rfl rfl
                ?_ ?_ ?_ ?_ ?_ ?_
              · exact hkd
              · exact ⟨harm.2.1, hf, fun _ => by rw [hx]; exact Option.some_ne_none _⟩
              · exact c1
              · show (stop_repeat w k).1.sources
                    ++ [{ id := (stop_repeat w k).1.last_source + 1,
                          interval := to_guint k.repeat_.delay, data := data }] = _
                rw [c2, c4]
              · exact c3
              · show (stop_repeat w k).1.last_source + 1 = _
                rw [c4]
              · exact c5
            · exact WorldInv_stop b w data k _ _ h hl hkd rfl rfl c1 c2 c3 c4 c5
        · by_cases h0 : state = 0
          · subst h0
            by_cases hc : k.repeat_.key = key
                ∨ (k.repeat_.key ≠ 0 ∧ get_modifiers_state X xs ≠ 0)
            · rw [keyboard_handle_key_release_stop X w data key k xs hl hx hf hc]
              exact WorldInv_stop b w data k _ _ h hl hkd rfl rfl c1 c2 c3 c4 c5
            · rw [keyboard_handle_key_release_keep X w data key k xs hl hx hf hc]
              exact WorldInv_keep b w data k k _ h hl hkd rfl rfl (fun a => a) rfl rfl rfl rfl rfl
          · unfold keyboard_handle_key
            rw [hl]
            dsimp only
            rw [hx]
            dsimp only
            rw [if_neg hf, if_neg h1, if_neg h0]
            exact h

theorem keyboard_handle_enter_inv (b : Bool) (w : World) (data surface : Nat)
    (h : WorldInv b w) : WorldInv b (keyboard_handle_enter w data surface) := by
  unfold keyboard_handle_enter
  split_ifs with hs hany
  · exact h
  · dsimp only
    rw [lookup_call]
    cases hl : lookup w data with
    | none => exact h
    | some k =>
      exact WorldInv_keep b w data k _ _ h hl (lookup_some w data k hl).2 rfl rfl
        (fun a => ⟨a.1, (by decide : (1 : Int) ≠ 0), a.2.2⟩) rfl rfl rfl rfl rfl
  · dsimp only
    cases hl : lookup w data with
    | none => exact h
    | some k =>
      exact WorldInv_keep b w data k _ _ h hl (lookup_some w data k hl).2 rfl rfl
        (fun a => ⟨a.1, (by decide : (1 : Int) ≠ 0), a.2.2⟩) rfl rfl rfl rfl rfl

theorem keyboard_handle_leave_inv (b : Bool) (w : World) (data surface : Nat)
    (h : WorldInv b w) : WorldInv b (keyboard_handle_leave w data surface) := by
  unfold keyboard_handle_leave
  split_ifs with hs
  · exact h
  · dsimp only
    have key : WorldInv b (match lookup w data with
        | none => w
        | some kstate => store (stop_repeat w { kstate with has_focus := 0 }).1 data
                            (stop_repeat w { kstate with has_focus := 0 }).2) := by
      cases hl : lookup w data with
      | none => exact h
      | some k =>
        obtain ⟨c1, c2, c3, c4, c5⟩ := stop_repeat_components w { k with has_focus := 0 }
        exact WorldInv_stop b w data k _ _ h hl (lookup_some w data k hl).2 rfl rfl
          c1 c2 c3 c4 c5
    split_ifs
    · exact key
    · exact key

theorem keyboard_handle_modifiers_inv (b : Bool) (w : World)
    (data mods_depressed mods_latched mods_locked group : Nat) (h : WorldInv b w) :
    WorldInv b (keyboard_handle_modifiers w data mods_depressed mods_latched mods_locked group) := by
  unfold keyboard_handle_modifiers
  cases hl : lookup w data with
  | none => exact h
  | some k =>
    dsimp only
    cases hx : k.xkb_state with
    | none => exact h
    | some xs =>
      exact WorldInv_keep b w data k _ _ h hl (lookup_some w data k hl).2 rfl rfl
        (fun a => ⟨a.1, a.2.1, fun _ => Option.some_ne_none _⟩) rfl rfl rfl rfl rfl

theorem keyboard_handle_repeat_info_inv (b : Bool) (w : World) (data : Nat) (rate delay : Int)
    (h : WorldInv b w) : WorldInv b (keyboard_handle_repeat_info w data rate delay) := by
  unfold keyboard_handle_repeat_info
  cases hl : lookup w data with
  | none => exact h
  | some k =>
    exact WorldInv_keep b w data k _ _ h hl (lookup_some w data k hl).2 rfl rfl
      (fun a => a) rfl rfl rfl rfl rfl

theorem keyboard_handle_keymap_inv (b : Bool) (w : World) (data format : Nat) (mapped : Bool)
    (context keymap : Nat) (state : Option XkbState) (h : WorldInv b w)
    (hen : b = true → ∀ d ∈ devices w, d.keyboard = data → d.xkb_state = none) :
    WorldInv b (keyboard_handle_keymap w data format mapped context keymap state) := by
  unfold keyboard_handle_keymap
  split_ifs
  · exact h
  · exact h
  · cases hl : lookup w data with
    | none => exact h
    | some k =>
      obtain ⟨hd, hdk⟩ := lookup_some w data k hl
      dsimp only
      refine WorldInv_keep b w data k _ _ h hl ?_ rfl rfl ?_ rfl rfl rfl rfl rfl
      · exact hdk
      intro a
      refine ⟨a.1, a.2.1, ?_⟩
      intro hb
      exact absurd (hen hb k hd hdk) (a.2.2 hb)

theorem lookup_of_mem (w : World) (d : keyboard_state)
    (hnd : ((devices w).map (fun s => s.keyboard)).Nodup) (hd : d ∈ devices w) :
    lookup w d.keyboard = some d := by
  cases hl : lookup w d.keyboard with
  | none =>
    exfalso
    unfold lookup at hl
    rw [List.find?_eq_none] at hl
    have := hl d hd
    simp at this
  | some d1 =>
    obtain ⟨h1, h2⟩ := lookup_some w d.keyboard d1 hl
    rw [List.inj_on_of_nodup_map hnd h1 hd h2]

theorem dispatch_timeout_inv (b : Bool) (w : World) (src : Timeout) (h : WorldInv b w)
    (hsrc : src ∈ w.sources) : WorldInv b (dispatch_timeout w src) := by
  obtain ⟨d, hd, hdk⟩ := h.src_owner src hsrc
  have hl : lookup w src.data = some d := by
    rw [← hdk]
    exact lookup_of_mem w d h.nodup hd
  have hmem : src ∈ w.sources.filter (fun t => decide (t.data = d.keyboard)) :=
    List.mem_filter.2 ⟨hsrc, by simpa using hdk.symm⟩
  rcases h.ok d hd with ⟨hf, _⟩ | ⟨⟨iv, hf⟩, _, a3, a4, a5⟩ | ⟨hf, _⟩
  · rw [hf] at hmem
    cases hmem
  · rw [hf] at hmem
    have hs := List.mem_singleton.1 hmem
    have hid : src.id = d.repeat_.timer := by rw [hs]
    have e : dispatch_timeout w src
        = g_source_remove
            (store (wl_display_sync w src.data).1 src.data
              { d with repeat_ := { d.repeat_ with callback := w.last_proxy + 1, timer := 0 } })
            src.id := by
      unfold dispatch_timeout key_repeat_callback
      dsimp only
      have hl2 : lookup (wl_display_sync w src.data).1 src.data = some d := hl
      rw [hl2]
      rfl
    rw [e]
    have hinv := Inv_stop_sync b _ _ _ _ _ d
      { d with repeat_ := { d.repeat_ with callback := w.last_proxy + 1, timer := 0 } }
      h hd rfl rfl rfl a5
    apply WorldInv_mk b _ _ _ _ _ _ hinv
    · show devices (store (wl_display_sync w src.data).1 src.data _) = _
      rw [devices_store, ← hdk]
      rfl
    · show w.sources.filter (fun t => t.id ≠ src.id) = stopped_sources d w.sources
      unfold stopped_sources
      rw [if_pos a3, hid]
    · show w.wl_callbacks ++ [{ proxy := w.last_proxy + 1, data := src.data }] = _
      unfold stopped_callbacks
      rw [if_neg (not_not.2 a4), hdk]
    · rfl
    · rfl
  · rw [hf] at hmem
    cases hmem

theorem sync_callback_inv (b : Bool) (w : World) (c : SyncRequest) (h : WorldInv b w)
    (hc : c ∈ w.wl_callbacks) : WorldInv b (sync_callback w c.data c.proxy) := by
  obtain ⟨d, hd, hdk⟩ := h.cb_owner c hc
  have hl : lookup w c.data = some d := by
    rw [← hdk]
    exact lookup_of_mem w d h.nodup hd
  have hmem : c ∈ w.wl_callbacks.filter (fun x => decide (x.data = d.keyboard)) :=
    List.mem_filter.2 ⟨hc, by simpa using hdk.symm⟩
  rcases h.ok d hd with ⟨_, hf, _⟩ | ⟨_, hf, _⟩ | ⟨_, hf, a3, a4, a5⟩
  · rw [hf] at hmem
    cases hmem
  · rw [hf] at hmem
    cases hmem
  · rw [hf] at hmem
    have hs := List.mem_singleton.1 hmem
    have hid : c.proxy = d.repeat_.callback := by rw [hs]
    have hl2 : lookup (wl_callback_destroy w c.proxy) c.data = some d := hl
    have e2 : w.sources = stopped_sources d w.sources := by
      unfold stopped_sources
      rw [if_neg (not_not.2 a3)]
    have e3 : w.wl_callbacks.filter (fun x => x.proxy ≠ c.proxy)
        = stopped_callbacks d w.wl_callbacks := by
      unfold stopped_callbacks
      rw [if_pos a4, hid]
    unfold sync_callback
    dsimp only
    rw [hl2]
    dsimp only
    split_ifs with hR
    · refine WorldInv_stop_timer b w c.data d _ (to_guint (1000 / d.repeat_.rate)) _ h hl
        ?_ rfl rfl ?_ rfl ?_ e3 rfl rfl
      · exact hdk
      · exact a5
      · show w.sources ++ _ = _
        rw [← e2]
        rfl
    · refine WorldInv_stop b w c.data d _ _ h hl ?_ a3 rfl rfl e2 e3 rfl rfl
      exact hdk

theorem Inv_perm (b : Bool) (devs devs2 : List keyboard_state) (S : List Timeout)
    (C : List SyncRequest) (ls lp : Nat) (h : Inv b devs S C ls lp)
    (hp : List.Perm devs2 devs) : Inv b devs2 S C ls lp := by
  refine ⟨?_, h.src_le, h.src_nodup, h.cb_le, h.cb_nodup, ?_, ?_, ?_⟩
  · exact ((hp.map _).nodup_iff).2 h.nodup
  · intro t ht
    obtain ⟨d, hd, he⟩ := h.src_owner t ht
    exact ⟨d, hp.mem_iff.2 hd, he⟩
  · intro c hc
    obtain ⟨d, hd, he⟩ := h.cb_owner c hc
    exact ⟨d, hp.mem_iff.2 hd, he⟩
  · intro d hd
    exact h.ok d (hp.mem_iff.1 hd)

theorem Inv_add (b : Bool) (devs : List keyboard_state) (S : List Timeout)
    (C : List SyncRequest) (ls lp : Nat) (keyboard seat seat_node : Nat)
    (h : Inv b devs S C ls lp) (hfresh : keyboard ∉ devs.map (fun s => s.keyboard)) :
    Inv b (new_keyboard_state keyboard seat seat_node :: devs) S C ls lp := by
  refine ⟨?_, h.src_le, h.src_nodup, h.cb_le, h.cb_nodup, ?_, ?_, ?_⟩
  · rw [List.map_cons, List.nodup_cons]
    exact ⟨hfresh, h.nodup⟩
  · intro t ht
    obtain ⟨d, hd, he⟩ := h.src_owner t ht
    exact ⟨d, List.mem_cons_of_mem _ hd, he⟩
  · intro c hc
    obtain ⟨d, hd, he⟩ := h.cb_owner c hc
    exact ⟨d, List.mem_cons_of_mem _ hd, he⟩
  · intro d hd
    rcases List.mem_cons.1 hd with h0 | h0
    · subst h0
      left
      refine ⟨?_, ?_, rfl, rfl⟩
      · rw [List.filter_eq_nil_iff]
        intro t ht hdata
        obtain ⟨d0, hd0, he⟩ := h.src_owner t ht
        apply hfresh
        have : t.data = keyboard := by simpa [new_keyboard_state] using hdata
        rw [← this, ← he]
        exact List.mem_map_of_mem _ hd0
      · rw [List.filter_eq_nil_iff]
        intro c hc hdata
        obtain ⟨d0, hd0, he⟩ := h.cb_owner c hc
        apply hfresh
        have : c.data = keyboard := by simpa [new_keyboard_state] using hdata
        rw [← this, ← he]
        exact List.mem_map_of_mem _ hd0
    · exact h.ok d h0

theorem handle_keyboard_add_inv (b : Bool) (w : World) (keyboard seat seat_node : Nat)
    (h : WorldInv b w) (hfresh : keyboard ∉ (devices w).map (fun s => s.keyboard)) :
    WorldInv b (handle_keyboard_add w keyboard seat seat_node) := by
  have hp := handle_keyboard_add_perm w keyboard seat seat_node
  have hinv := Inv_perm b _ _ _ _ _ _ (Inv_add b _ _ _ _ _ keyboard seat seat_node h hfresh) hp
  apply WorldInv_mk b _ _ _ _ _ _ hinv rfl
  · unfold handle_keyboard_add
    dsimp only
    split <;> rfl
  · unfold handle_keyboard_add
    dsimp only
    split <;> rfl
  · unfold handle_keyboard_add
    dsimp only
    split <;> rfl
  · unfold handle_keyboard_add
    dsimp only
    split <;> rfl

theorem Inv_remove (b : Bool) (devs : List keyboard_state) (S : List Timeout)
    (C : List SyncRequest) (ls lp : Nat) (d : keyboard_state)
    (h : Inv b devs S C ls lp) (hd : d ∈ devs) :
    Inv b (devs.filter (fun x => decide (x.keyboard ≠ d.keyboard))) (stopped_sources d S)
      (stopped_callbacks d C) ls lp := by
  refine ⟨?_, ?_, ?_, ?_, ?_, ?_, ?_, ?_⟩
  · exact h.nodup.sublist (List.Sublist.map _ (List.filter_sublist _))
  · exact fun t ht => h.src_le t ((stopped_sources_sublist d S).subset ht)
  · exact h.src_nodup.sublist (List.Sublist.map _ (stopped_sources_sublist d S))
  · exact fun c hc => h.cb_le c ((stopped_callbacks_sublist d C).subset hc)
  · exact h.cb_nodup.sublist (List.Sublist.map _ (stopped_callbacks_sublist d C))
  · intro t ht
    obtain ⟨d0, hd0, he⟩ := h.src_owner t ((stopped_sources_sublist d S).subset ht)
    refine ⟨d0, List.mem_filter.2 ⟨hd0, ?_⟩, he⟩
    have hne : d0.keyboard ≠ d.keyboard := by
      intro hk
      have hnil := stopped_sources_own b devs S C ls lp d h hd
      rw [List.filter_eq_nil_iff] at hnil
      exact hnil t ht (by simpa using (he.symm.trans hk))
    simpa using hne
  · intro c hc
    obtain ⟨d0, hd0, he⟩ := h.cb_owner c ((stopped_callbacks_sublist d C).subset hc)
    refine ⟨d0, List.mem_filter.2 ⟨hd0, ?_⟩, he⟩
    have hne : d0.keyboard ≠ d.keyboard := by
      intro hk
      have hnil := stopped_callbacks_own b devs S C ls lp d h hd
      rw [List.filter_eq_nil_iff] at hnil
      exact hnil c hc (by simpa using (he.symm.trans hk))
    simpa using hne
  · intro x hx
    obtain ⟨hx1, hx2⟩ := List.mem_filter.1 hx
    have hne : x.keyboard ≠ d.keyboard := by simpa using hx2
    exact DeviceOk_congr b S _ C _ x (stopped_sources_other b devs S C ls lp d h hd _ hne)
      (stopped_callbacks_other b devs S C ls lp d h hd _ hne) (h.ok x hx1)

theorem dispatch_done_inv (b : Bool) (w : World) (c : SyncRequest) (h : WorldInv b w) :
    WorldInv b (dispatch_done w c) := by
  unfold dispatch_done
  split_ifs with hc
  · exact sync_callback_inv b w c h hc
  · exact h

theorem foldl_dispatch_done_inv (b : Bool) (l : List SyncRequest) :
    ∀ w : World, WorldInv b w → WorldInv b (l.foldl dispatch_done w) := by
  induction l with
  | nil => exact fun w h => h
  | cons c l ih =>
    intro w h
    rw [List.foldl_cons]
    exact ih _ (dispatch_done_inv b w c h)

/-- The round trip keeps the invariant: every event it dispatches does. -/
theorem wl_display_roundtrip_inv (b : Bool) (w : World) (h : WorldInv b w) :
    WorldInv b (wl_display_roundtrip w) :=
  foldl_dispatch_done_inv b w.wl_callbacks w h

theorem handle_keyboard_remove_inv (b : Bool) (w : World) (keyboard : Nat)
    (h : WorldInv b w) : WorldInv b (handle_keyboard_remove w keyboard) := by
  rw [handle_keyboard_remove_roundtrip]
  split_ifs with hz
  · exact h
  · have hr := wl_display_roundtrip_inv b w h
    have hq := wl_display_roundtrip_quiet w
    generalize wl_display_roundtrip w = r at hr hq
    by_cases hex : ∃ d ∈ devices r, d.keyboard = keyboard
    · obtain ⟨d, hd, hdk⟩ := hex
      subst hdk
      rw [handle_keyboard_remove_registered r d hq hr.nodup hd hz]
      obtain ⟨_, c2, c3, c4, c5⟩ := stop_repeat_components (wl_keyboard_release r d.keyboard) d
      apply WorldInv_mk b _ _ _ _ _ _ (Inv_remove b _ _ _ _ _ d hr hd)
      · exact devices_filter_keyboard r d.keyboard
      · exact c2
      · exact c3
      · exact c4
      · exact c5
    · rw [handle_keyboard_remove_of_quiet r keyboard hq hz,
        unlink_in_lists_none keyboard r.keyboard_lists (fun s hs he => hex ⟨s, hs, he⟩)]
      exact hr

theorem remove_all_inv (b : Bool) (removed : List keyboard_state) (w : World)
    (h : WorldInv b w) : WorldInv b (remove_all removed w) := by
  induction removed generalizing w with
  | nil => exact h
  | cons d rest ih => exact ih _ (handle_keyboard_remove_inv b w d.keyboard h)

theorem deliver_inv (X : Xkb) (b : Bool) (w : World) (e : Event) (h : WorldInv b w)
    (hen : enabled b w e) : WorldInv b (deliver X w e) := by
  cases e with
  | global_add name is_seat seat =>
    show WorldInv b (registry_handle_global w name is_seat seat)
    unfold registry_handle_global
    split_ifs
    · exact h
    · exact h
  | global_remove name =>
    show WorldInv b (registry_handle_global_remove w name)
    unfold registry_handle_global_remove
    split
    · exact h
    · dsimp only
      rw [remove_seat_lists_eq]
      exact remove_all_inv b _ w h
  | capabilities seat_node seat capabilities keyboard =>
    show WorldInv b (seat_handle_capabilities w seat_node seat capabilities keyboard)
    unfold seat_handle_capabilities
    split_ifs with hc
    · rw [remove_seat_lists_eq]
      exact remove_all_inv b _ w h
    · exact handle_keyboard_add_inv b w keyboard seat seat_node h (hen hc)
  | keymap data format mapped context keymap state =>
    exact keyboard_handle_keymap_inv b w data format mapped context keymap state h hen
  | enter data surface => exact keyboard_handle_enter_inv b w data surface h
  | leave data surface => exact keyboard_handle_leave_inv b w data surface h
  | key data key state => exact keyboard_handle_key_inv X b w data key state h
  | modifiers data mods_depressed mods_latched mods_locked group =>
    exact keyboard_handle_modifiers_inv b w data mods_depressed mods_latched mods_locked group h
  | repeat_info data rate delay => exact keyboard_handle_repeat_info_inv b w data rate delay h
  | timer_fired src => exact dispatch_timeout_inv b w src h hen
  | sync_resolved request => exact sync_callback_inv b w request h hen

/-- Every reachable world satisfies the invariant of the repeat engine. -/
theorem reachable_inv (X : Xkb) (b : Bool) (w : World) (h : Reachable X b w) : WorldInv b w := by
  induction h with
  | start w h1 h2 h3 =>
    unfold WorldInv devices
    rw [h1, h2, h3]
    exact ⟨by simp, by simp, by simp, by simp, by simp, by simp, by simp, by simp⟩
  | next w e _ hen ih => exact deliver_inv X b w e ih hen

/-! ## Invariants of the repeat engine (C13, C14, C19) -/

theorem DeviceOk_tracked (b : Bool) (w : World) (d : keyboard_state)
    (h : DeviceOk b w.sources w.wl_callbacks d) : Tracked w d.keyboard d := by
  have hs : ∀ (l : List Timeout) (t : Timeout), t ∈ w.sources → t.data = d.keyboard →
      w.sources.filter (fun t => decide (t.data = d.keyboard)) = l → t ∈ l := by
    intro l t ht hd hl
    rw [← hl]
    exact List.mem_filter.2 ⟨ht, by simpa using hd⟩
  have hc : ∀ (l : List SyncRequest) (c : SyncRequest), c ∈ w.wl_callbacks →
      c.data = d.keyboard →
      w.wl_callbacks.filter (fun c => decide (c.data = d.keyboard)) = l → c ∈ l := by
    intro l c hc hd hl
    rw [← hl]
    exact List.mem_filter.2 ⟨hc, by simpa using hd⟩
  rcases h with ⟨a1, a2, _, _⟩ | ⟨⟨iv, a1⟩, a2, a3, _, _⟩ | ⟨a1, a2, _, a4, _⟩
  · exact ⟨fun t ht hd => (by cases hs _ t ht hd a1), fun c hcm hd => (by cases hc _ c hcm hd a2)⟩
  · refine ⟨fun t ht hd => ?_, fun c hcm hd => (by cases hc _ c hcm hd a2)⟩
    have := List.mem_singleton.1 (hs _ t ht hd a1)
    rw [this]
    exact ⟨rfl, a3⟩
  · refine ⟨fun t ht hd => (by cases hs _ t ht hd a1), fun c hcm hd => ?_⟩
    have := List.mem_singleton.1 (hc _ c hcm hd a2)
    rw [this]
    exact ⟨rfl, a4⟩

/-- The armed example world is reachable. -/
theorem sample_armed_reachable (b : Bool) : Reachable sample_xkb b sample_armed :=
  Reachable.next sample_focused (Event.key 21 30 1)
    (Reachable.next sample_device (Event.enter 21 0)
      (Reachable.next _ (Event.repeat_info 21 25 400)
        (Reachable.next _
          (Event.keymap 21 1 true 31 41
            (some { keymap := 41, mods_depressed := 0, mods_latched := 0, mods_locked := 0,
                    group := 0 }))
          (Reachable.next sample_seat (Event.capabilities 3 11 2 21)
            (Reachable.next World.start (Event.global_add 3 true 11)
              (Reachable.start World.start rfl rfl rfl) trivial)
            (by cases b <;> decide))
          (by cases b <;> decide))
        trivial)
      trivial)
    trivial

/-- The stalled example world is reachable. -/
theorem sample_stalled_reachable (b : Bool) : Reachable sample_xkb b sample_stalled :=
  Reachable.next _ (Event.sync_resolved { proxy := 1, data := 21 })
    (Reachable.next _ (Event.timer_fired { id := 1, interval := 400, data := 21 })
      (Reachable.next sample_armed (Event.repeat_info 21 0 400) (sample_armed_reachable b) trivial)
      (by cases b <;> decide))
    (by cases b <;> decide)

/-- C13. In every reachable world, for every registered device, the pending timeout
sources and the pending synchronization callbacks of the device are at most one
altogether. The events are those of `Event`, with or without the restriction on
keymap events. -/
theorem at_most_one_pending (X : Xkb) (keymap_once : Bool) (w : World)
    (h : Reachable X keymap_once w) (d : keyboard_state) (hd : d ∈ devices w) :
    (pending_sources w d.keyboard).length + (pending_callbacks w d.keyboard).length ≤ 1 := by
  unfold pending_sources pending_callbacks
  rcases (reachable_inv X keymap_once w h).ok d hd with
    ⟨a1, a2, _⟩ | ⟨⟨iv, a1⟩, a2, _⟩ | ⟨a1, a2, _⟩
  · rw [a1, a2]
    exact Nat.zero_le _
  · rw [a1, a2]
    exact Nat.le_refl _
  · rw [a1, a2]
    exact Nat.le_refl _

/-- Witness of C13: the armed example world is reachable and its device has one
timer pending and no callback. -/
theorem at_most_one_pending_witness :
    Reachable sample_xkb true sample_armed
    ∧ sample_armed_state ∈ devices sample_armed
    ∧ (pending_sources sample_armed sample_armed_state.keyboard).length
        + (pending_callbacks sample_armed sample_armed_state.keyboard).length ≤ 1 :=
  ⟨sample_armed_reachable true, by decide,
   at_most_one_pending sample_xkb true sample_armed (sample_armed_reachable true)
     sample_armed_state (by decide)⟩

/-- C14, as stated, fails: the stalled example world is reachable (a repeat
information event with rate 0 during the running repeat, then the timer and the
synchronization callback); its device records the symbol 97 while nothing is
pending for it. -/
theorem symbol_recorded_with_nothing_pending :
    Reachable sample_xkb true sample_stalled
    ∧ (lookup sample_stalled 21).map (fun s => (s.repeat_.keysym, s.repeat_.timer, s.repeat_.callback))
        = some (97, 0, 0)
    ∧ pending_sources sample_stalled 21 = []
    ∧ pending_callbacks sample_stalled 21 = [] :=
  ⟨sample_stalled_reachable true, by decide, by decide, by decide⟩

/-- C14, amended. In every reachable world every registered device is in one of
three states: nothing is pending for it and neither a timer nor a callback is
recorded (a symbol may still be recorded); or a symbol is recorded, the
recorded timer is pending and no callback; or a symbol is recorded, the recorded
callback is pending and no timer. -/
theorem repeat_engine_states (X : Xkb) (keymap_once : Bool) (w : World)
    (h : Reachable X keymap_once w) (d : keyboard_state) (hd : d ∈ devices w) :
    (pending_sources w d.keyboard = [] ∧ pending_callbacks w d.keyboard = []
      ∧ d.repeat_.timer = 0 ∧ d.repeat_.callback = 0)
    ∨ ((∃ iv, pending_sources w d.keyboard
          = [{ id := d.repeat_.timer, interval := iv, data := d.keyboard }])
      ∧ pending_callbacks w d.keyboard = []
      ∧ d.repeat_.timer ≠ 0 ∧ d.repeat_.callback = 0 ∧ d.repeat_.keysym ≠ 0)
    ∨ (pending_sources w d.keyboard = []
      ∧ pending_callbacks w d.keyboard = [{ proxy := d.repeat_.callback, data := d.keyboard }]
      ∧ d.repeat_.timer = 0 ∧ d.repeat_.callback ≠ 0 ∧ d.repeat_.keysym ≠ 0) := by
  rcases (reachable_inv X keymap_once w h).ok d hd with
    a | ⟨a1, a2, a3, a4, a5⟩ | ⟨a1, a2, a3, a4, a5⟩
  · exact Or.inl a
  · exact Or.inr (Or.inl ⟨a1, a2, a3, a4, a5.1⟩)
  · exact Or.inr (Or.inr ⟨a1, a2, a3, a4, a5.1⟩)

/-- Witness of the amended C14 on the armed example world, whose device is in the
second state. -/
theorem repeat_engine_states_witness :
    Reachable sample_xkb true sample_armed
    ∧ sample_armed_state ∈ devices sample_armed
    ∧ ((pending_sources sample_armed sample_armed_state.keyboard = []
          ∧ pending_callbacks sample_armed sample_armed_state.keyboard = []
          ∧ sample_armed_state.repeat_.timer = 0 ∧ sample_armed_state.repeat_.callback = 0)
        ∨ ((∃ iv, pending_sources sample_armed sample_armed_state.keyboard
              = [{ id := sample_armed_state.repeat_.timer, interval := iv,
                   data := sample_armed_state.keyboard }])
          ∧ pending_callbacks sample_armed sample_armed_state.keyboard = []
          ∧ sample_armed_state.repeat_.timer ≠ 0 ∧ sample_armed_state.repeat_.callback = 0
          ∧ sample_armed_state.repeat_.keysym ≠ 0)
        ∨ (pending_sources sample_armed sample_armed_state.keyboard = []
          ∧ pending_callbacks sample_armed sample_armed_state.keyboard
              = [{ proxy := sample_armed_state.repeat_.callback,
                   data := sample_armed_state.keyboard }]
          ∧ sample_armed_state.repeat_.timer = 0 ∧ sample_armed_state.repeat_.callback ≠ 0
          ∧ sample_armed_state.repeat_.keysym ≠ 0)) :=
  ⟨sample_armed_reachable true, by decide,
   repeat_engine_states sample_xkb true sample_armed (sample_armed_reachable true)
     sample_armed_state (by decide)⟩

/-- C19. In every world reachable by the events of `Event`, keymap events arriving
only at devices that have no decoder yet, a registered device with a pending
timer or a pending synchronization callback has its focus flag set and has a
decoder. The release of its recorded key therefore passes the guard of
`keyboard_handle_key`: the release callback is invoked and nothing is pending
for the device afterwards. -/
theorem pending_repeat_has_focus_and_decoder (X : Xkb) (w : World)
    (h : Reachable X true w) (d : keyboard_state) (hd : d ∈ devices w)
    (hp : pending_sources w d.keyboard ≠ [] ∨ pending_callbacks w d.keyboard ≠ []) :
    d.has_focus ≠ 0
    ∧ ∃ xs, d.xkb_state = some xs
        ∧ (keyboard_handle_key X w d.keyboard d.repeat_.key 0).calls
            = w.calls ++ [Call.release w.global_release_cb
                            (X.key_get_one_sym xs (add_u32 d.repeat_.key 8))
                            (get_modifiers_state X xs)]
        ∧ pending_sources (keyboard_handle_key X w d.keyboard d.repeat_.key 0) d.keyboard = []
        ∧ pending_callbacks (keyboard_handle_key X w d.keyboard d.repeat_.key 0) d.keyboard
            = [] := by
  have hinv := reachable_inv X true w h
  have hok := hinv.ok d hd
  have hlive : Live true d := by
    rcases hok with ⟨a1, a2, _⟩ | ⟨_, _, _, _, a5⟩ | ⟨_, _, _, _, a5⟩
    · rcases hp with hp | hp
      · exact absurd a1 hp
      · exact absurd a2 hp
    · exact a5
    · exact a5
  obtain ⟨_, hf, hx⟩ := hlive
  have hx1 := hx rfl
  cases hxs : d.xkb_state with
  | none => exact absurd hxs hx1
  | some xs =>
    refine ⟨hf, xs, rfl, ?_⟩
    have hl := lookup_of_mem w d hinv.nodup hd
    have ht := DeviceOk_tracked true w d hok
    rw [keyboard_handle_key_release_stop X w d.keyboard d.repeat_.key d xs hl hxs hf
      (Or.inl rfl)]
    refine ⟨?_, pending_sources_stop_repeat w d.keyboard d ht,
      pending_callbacks_stop_repeat w d.keyboard d ht⟩
    rw [store_calls, call_calls, stop_repeat_calls]

/-- Witness of C19 on the armed example world: the device with the pending timer has
focus and a decoder. -/
theorem pending_repeat_has_focus_and_decoder_witness :
    Reachable sample_xkb true sample_armed
    ∧ sample_armed_state ∈ devices sample_armed
    ∧ pending_sources sample_armed sample_armed_state.keyboard ≠ []
    ∧ sample_armed_state.has_focus ≠ 0 :=
  ⟨sample_armed_reachable true, by decide, by decide,
   (pending_repeat_has_focus_and_decoder sample_xkb sample_armed (sample_armed_reachable true)
      sample_armed_state (by decide) (Or.inl (by decide))).1⟩

/-! ## Seat removal (C12) -/

end SimpleKeyboard
